import Mathlib

/-!
# Subscription registry and change notification of `database_api_impl`

Shallow embedding of the per-connection session kept by
`graphene::app::database_api_impl` (`libraries/app/database_api.cpp`):
the update callback, the notify flag, the watched accounts, the membership
filter and the market subscriptions, together with the operations that
mutate them, the change handlers that schedule deliveries and the fill
fan-out of `on_applied_block`; of the grouping of the order book by
`func_re_pack`; and, in `graphene.chain`, of the DasPay evaluators of
`libraries/chain/daspay_evaluator.cpp`.

Conventions of the embedding.

* A `std::function` is an `Option callback`: `none` is the empty function,
  `some c` is the sink named `c`.
* A member function that can throw returns a `call_result`: the exception that
  reached the caller (if any) and the session as the call left it.
* `fc::async` is modelled by the list of tasks a handler scheduled; the body
  of a task, run in a session, gives a `task_result`: the callbacks it called
  with what each was handed, and the exception that ended it, if any.
* A `std::map` is an association list kept in key order, a `std::set` or
  `flat_set` a list kept in increasing order.
* An evaluator returns `Except fc_exception`, the value being what the
  evaluator keeps for `do_apply`; `share_type` is an unbounded integer.
-/

namespace graphene.app

/-! ## Identifiers, objects and values -/

/-- Name of a sink a `std::function<void(const variant&)>` delivers to. -/
abbrev callback := Nat

/-- Instance number of an asset id (`asset_id_type`). -/
abbrev asset_id_type := Nat

/-- Instance number of an account id (`account_id_type`). -/
abbrev account_id_type := Nat

/-- Trading pair as used for the keys of `_market_subscriptions`. -/
abbrev market_key := asset_id_type × asset_id_type

/-- Generic object id: space, type and instance number. -/
structure object_id_type where
  space : Nat
  type : Nat
  instance_ : Nat
deriving DecidableEq, Repr

/-- Exceptions of the `fc` library that the embedded code raises: `FC_ASSERT`
throws an assert exception; the string is the asserted expression. -/
inductive fc_exception where
  | assert_exception (expr : String)
deriving DecidableEq, Repr

/-- Dynamic type of a database object, with the data `get_market` reads. -/
inductive object_kind where
  | limit_order (base quote : asset_id_type)
  | call_order (base quote : asset_id_type)
  | other
deriving DecidableEq, Repr

/-- Database object: its id and its dynamic type. -/
structure object where
  id : object_id_type
  kind : object_kind
deriving DecidableEq, Repr

/-- Values handed to callbacks (`fc::variant`): the empty variant, a bare
object id (`fc::variant(id, 1)`), or the full representation of an object
(`obj->to_variant()`). -/
inductive variant where
  | null
  | of_id (id : object_id_type)
  | of_object (obj : object)
deriving DecidableEq, Repr

/-- Full representation of an object, `obj->to_variant()`. -/
def object.to_variant (obj : object) : variant := variant.of_object obj

/-- Application options the session reads (`application_options`). -/
structure application_options where
  enable_subscribe_to_all : Bool
  has_market_history_plugin : Bool
deriving DecidableEq, Repr

/-- Constants and library functions declared outside the embedded sources:
the hash family and the computed parameters of `fc::bloom_filter`, the byte
serialization `fc::raw::pack` of an object id, and the space and type numbers
of the object kinds the code tests for. -/
structure environment where
  hash_ap : List Nat → Nat → Nat
  number_of_hashes : Nat
  table_size : Nat
  pack : object_id_type → List Nat
  protocol_ids : Nat
  implementation_ids : Nat
  operation_history_object_type : Nat
  impl_account_transaction_history_object_type : Nat
  limit_order_object_type : Nat
  call_order_object_type : Nat

/-! ## Containers -/

/-- Strict lexicographic order on pairs, the key order of the market map. -/
def pair_lt (p q : Nat × Nat) : Bool :=
  decide (p.1 < q.1) || (decide (p.1 = q.1) && decide (p.2 < q.2))

/-- Lookup in a map, `std::map::find`. -/
def map_find {κ β : Type} [DecidableEq κ] (k : κ) : List (κ × β) → Option β
  | [] => none
  | (k', v) :: rest => if k = k' then some v else map_find k rest

/-- Insert-or-assign in a map kept in key order, `m[k] = v`. -/
def map_assign {κ β : Type} [DecidableEq κ] (lt : κ → κ → Bool) (k : κ) (v : β) :
    List (κ × β) → List (κ × β)
  | [] => [(k, v)]
  | (k', v') :: rest =>
    if k = k' then (k, v) :: rest
    else if lt k k' then (k, v) :: (k', v') :: rest
    else (k', v') :: map_assign lt k v rest

/-- Removal of a key from a map, `std::map::erase(key)`. -/
def map_erase {κ β : Type} [DecidableEq κ] (k : κ) (m : List (κ × β)) : List (κ × β) :=
  m.filter (fun e => decide (e.1 ≠ k))

/-- Insertion into a set kept in increasing order, `std::set::insert`. -/
def set_insert (a : Nat) : List Nat → List Nat
  | [] => [a]
  | b :: rest =>
    if a = b then b :: rest
    else if a < b then a :: b :: rest
    else b :: set_insert a rest

/-! ## Membership filter -/

/-- Modelled from the spec: `fc::bloom_filter`, whose source is not part of the
embedded files. A probabilistic set with operations `insert(bytes)` and
`probably_contains(bytes)`: the salts of its hash functions, the size of its
bit table and the indices of the bits that are set. -/
structure bloom_filter where
  salt_ : List Nat
  table_size_ : Nat
  bit_table_ : List Nat
deriving DecidableEq, Repr

namespace bloom_filter

/-- Default-constructed filter: no hash function and an empty table. -/
def empty : bloom_filter := ⟨[], 0, []⟩

/-- Modelled from the spec: the filter `fc::bloom_filter(param)` built from the
computed parameters, with all bits clear. -/
def fresh (env : environment) : bloom_filter :=
  ⟨List.range env.number_of_hashes, env.table_size, []⟩

/-- Index of the bit that the hash function with salt `s` selects for a key. -/
def bit_index (env : environment) (f : bloom_filter) (key : List Nat) (s : Nat) : Nat :=
  env.hash_ap key s % f.table_size_

/-- Modelled from the spec: `insert(bytes)` sets the bit of every hash
function. -/
def insert (env : environment) (f : bloom_filter) (key : List Nat) : bloom_filter :=
  { f with bit_table_ :=
      f.salt_.foldl (fun table s => List.insert (bit_index env f key s) table) f.bit_table_ }

/-- Modelled from the spec: `probably_contains(bytes)` holds when the bit of
every hash function is set. -/
def contains (env : environment) (f : bloom_filter) (key : List Nat) : Bool :=
  f.salt_.all (fun s => decide (bit_index env f key s ∈ f.bit_table_))

end bloom_filter

/-! ## Session state -/

/-- Fields of `database_api_impl` that make up the subscriber session. -/
structure database_api_impl where
  _notify_remove_create : Bool
  _subscribe_filter : bloom_filter
  _subscribed_accounts : List account_id_type
  _subscribe_callback : Option callback
  _pending_trx_callback : Option callback
  _block_applied_callback : Option callback
  _market_subscriptions : List (market_key × Option callback)
  _app_options : Option application_options
deriving DecidableEq, Repr

/-- Outcome of a member function that may throw: the exception that reached the
caller, if any, and the session as the call left it. -/
structure call_result where
  error : Option fc_exception
  state : database_api_impl
deriving DecidableEq, Repr

namespace database_api_impl

/-- Session of a newly constructed `database_api_impl`. -/
def init (app_options : Option application_options) : database_api_impl :=
  { _notify_remove_create := false
    _subscribe_filter := bloom_filter.empty
    _subscribed_accounts := []
    _subscribe_callback := none
    _pending_trx_callback := none
    _block_applied_callback := none
    _market_subscriptions := []
    _app_options := app_options }

/-- Filter probe `is_subscribed_to_item(i)`; the item is given by its bytes. -/
def is_subscribed_to_item (env : environment) (s : database_api_impl) (i : List Nat) : Bool :=
  if s._subscribe_callback.isNone then false
  else s._subscribe_filter.contains env i

/-- Filter insertion `subscribe_to_item(i)`; `vec` is `fc::raw::pack(i)`. -/
def subscribe_to_item (env : environment) (s : database_api_impl) (i : List Nat) :
    database_api_impl :=
  let vec := i
  if s._subscribe_callback.isNone then s
  else if !(is_subscribed_to_item env s i) then
    { s with _subscribe_filter := s._subscribe_filter.insert env vec }
  else s

/-- Account probe `is_impacted_account(accounts)`. -/
def is_impacted_account (s : database_api_impl) (accounts : List account_id_type) : Bool :=
  if s._subscribed_accounts.length = 0 || accounts.length = 0 then false
  else accounts.any (fun account => decide (account ∈ s._subscribed_accounts))

/-- The capability test of `set_subscribe_callback`:
`_app_options && _app_options->enable_subscribe_to_all`. -/
def subscribe_to_all_enabled (s : database_api_impl) : Bool :=
  match s._app_options with
  | some o => o.enable_subscribe_to_all
  | none => false

/-- Member `set_subscribe_callback(cb, notify_remove_create)`. -/
def set_subscribe_callback (env : environment) (s : database_api_impl)
    (cb : Option callback) (notify_remove_create : Bool) : call_result :=
  if notify_remove_create && !(subscribe_to_all_enabled s) then
    ⟨some (fc_exception.assert_exception "_app_options && _app_options->enable_subscribe_to_all"), s⟩
  else
    ⟨none, { s with
      _subscribe_callback := cb
      _notify_remove_create := notify_remove_create
      _subscribed_accounts := []
      _subscribe_filter := bloom_filter.fresh env }⟩

/-- Member `set_pending_transaction_callback(cb)`. -/
def set_pending_transaction_callback (s : database_api_impl) (cb : Option callback) :
    database_api_impl :=
  { s with _pending_trx_callback := cb }

/-- Member `set_block_applied_callback(cb)`. -/
def set_block_applied_callback (s : database_api_impl) (cb : Option callback) :
    database_api_impl :=
  { s with _block_applied_callback := cb }

/-- Member `cancel_all_subscriptions()`: it calls
`set_subscribe_callback(std::function(), true)` and then clears the market
map; an exception of the inner call propagates before the map is cleared. -/
def cancel_all_subscriptions (env : environment) (s : database_api_impl) : call_result :=
  let r := set_subscribe_callback env s none true
  match r.error with
  | some e => ⟨some e, r.state⟩
  | none => ⟨none, { r.state with _market_subscriptions := [] }⟩

/-- The normalization `if(a > b) std::swap(a,b)` of the market functions. -/
def normalize (a b : asset_id_type) : market_key :=
  if a > b then (b, a) else (a, b)

/-- Member `subscribe_to_market(callback, a, b)`. -/
def subscribe_to_market (s : database_api_impl) (cb : Option callback)
    (a b : asset_id_type) : call_result :=
  let p := normalize a b
  if p.1 = p.2 then ⟨some (fc_exception.assert_exception "a != b"), s⟩
  else ⟨none, { s with
    _market_subscriptions := map_assign pair_lt (p.1, p.2) cb s._market_subscriptions }⟩

/-- Member `unsubscribe_from_market(a, b)`. -/
def unsubscribe_from_market (s : database_api_impl) (a b : asset_id_type) : call_result :=
  let p := normalize a b
  if p.1 = p.2 then ⟨some (fc_exception.assert_exception "a != b"), s⟩
  else ⟨none, { s with
    _market_subscriptions := map_erase (p.1, p.2) s._market_subscriptions }⟩

end database_api_impl

/-! ## Store, object lookup and the query calls that arm the filter -/

/-- Account record: the part of `account_object` the session code reads. -/
structure account_object where
  id : object_id_type
deriving DecidableEq, Repr

/-- Conversion `account->get_id()` of the generic id to an account id. -/
def account_object.get_id (a : account_object) : account_id_type := a.id.instance_

/-- Entry of the result of `get_full_accounts`; of the record only the account
itself is kept, the other fields are copies of store data. -/
structure full_account where
  account : account_object
deriving DecidableEq, Repr

/-- The object store as the session code consults it: point lookup of an
object, parsing of an account id written as a string (which may throw),
lookup of an account by id and lookup in the by-name index. -/
structure database where
  find_object : object_id_type → Option object
  parse_account_id : String → Except fc_exception account_id_type
  find_account : account_id_type → Option account_object
  find_account_by_name : String → Option account_object

/-- The test `id.is<T>()` for an object kind of the protocol space. -/
def object_id_type.is_type (env : environment) (id : object_id_type) (type_id : Nat) : Bool :=
  decide (id.space = env.protocol_ids) && decide (id.type = type_id)

/-- Result of `get_full_accounts`: the exception that reached the caller, if
any, the session as the call left it, and the map of results. -/
structure full_accounts_result where
  error : Option fc_exception
  state : database_api_impl
  results : List (String × full_account)
deriving DecidableEq, Repr

namespace database_api_impl

/-- The two kinds of id that `get_objects` does not insert into the filter. -/
def get_objects_skips (env : environment) (id : object_id_type) : Bool :=
  (decide (id.type = env.operation_history_object_type) && decide (id.space = env.protocol_ids))
  || (decide (id.type = env.impl_account_transaction_history_object_type)
      && decide (id.space = env.implementation_ids))

/-- The subscription loop of `get_objects`. -/
def get_objects_subscribe (env : environment) :
    database_api_impl → List object_id_type → database_api_impl
  | s, [] => s
  | s, id :: rest =>
    if get_objects_skips env id then get_objects_subscribe env s rest
    else get_objects_subscribe env (subscribe_to_item env s (env.pack id)) rest

/-- Member `get_objects(ids)`: the returned variants and the session after the
call. -/
def get_objects (env : environment) (db : database) (s : database_api_impl)
    (ids : List object_id_type) : List variant × database_api_impl :=
  let s1 := if s._subscribe_callback.isSome then get_objects_subscribe env s ids else s
  (ids.map (fun id =>
      match db.find_object id with
      | some obj => obj.to_variant
      | none => variant.null), s1)

/-- Resolution of one entry of `names_or_ids` in `get_full_accounts`. -/
def resolve_account (db : database) (account_name_or_id : String) :
    Except fc_exception (Option account_object) :=
  if (account_name_or_id.get 0).isDigit then
    match db.parse_account_id account_name_or_id with
    | Except.error e => Except.error e
    | Except.ok id => Except.ok (db.find_account id)
  else Except.ok (db.find_account_by_name account_name_or_id)

/-- The subscription step of `get_full_accounts` for one resolved account. -/
def track_account (env : environment) (s : database_api_impl) (account : account_object) :
    database_api_impl :=
  if s._subscribed_accounts.length < 100 then
    subscribe_to_item env
      { s with _subscribed_accounts := set_insert account.get_id s._subscribed_accounts }
      (env.pack account.id)
  else s

/-- The loop of `get_full_accounts` over `names_or_ids`. -/
def get_full_accounts_loop (env : environment) (db : database) (subscribe : Bool) :
    database_api_impl → List (String × full_account) → List String → full_accounts_result
  | s, results, [] => ⟨none, s, results⟩
  | s, results, account_name_or_id :: rest =>
    match resolve_account db account_name_or_id with
    | Except.error e => ⟨some e, s, results⟩
    | Except.ok none => get_full_accounts_loop env db subscribe s results rest
    | Except.ok (some account) =>
      let s1 := if subscribe then track_account env s account else s
      get_full_accounts_loop env db subscribe s1
        (map_assign (fun x y => decide (x < y)) account_name_or_id ⟨account⟩ results) rest

/-- Member `get_full_accounts(names_or_ids, subscribe)`. -/
def get_full_accounts (env : environment) (db : database) (s : database_api_impl)
    (names_or_ids : List String) (subscribe : Bool) : full_accounts_result :=
  get_full_accounts_loop env db subscribe s [] names_or_ids

end database_api_impl

/-! ## Change handlers and scheduled deliveries -/

/-- Per-pair queues of the market fan-out, `market_queue_type`. -/
abbrev market_queue_type := List (market_key × List variant)

/-- Task handed to `fc::async`: the generic delivery of `broadcast_updates` or
the market delivery of `broadcast_market_updates`. -/
inductive async_task where
  | updates (updates : List variant)
  | market_updates (queue : market_queue_type)
deriving DecidableEq, Repr

/-- Whether a scheduled task is a generic update delivery. -/
def async_task.is_generic : async_task → Bool
  | async_task.updates _ => true
  | async_task.market_updates _ => false

/-- What a change handler did: the tasks it scheduled, in order, and the
exception that reached its caller, if any. -/
structure handler_result where
  scheduled : List async_task
  error : Option fc_exception
deriving DecidableEq, Repr

/-- Modelled from the spec: `get_market()` of limit orders and call orders
(declared outside the embedded files), the trading pair of the order with the
lower asset id first; `none` when the object is of neither kind asked for. -/
def object.market_as (obj : object) (call : Bool) : Option market_key :=
  match obj.kind, call with
  | object_kind.call_order base quote, true =>
    some (if base > quote then (quote, base) else (base, quote))
  | object_kind.limit_order base quote, false =>
    some (if base > quote then (quote, base) else (base, quote))
  | _, _ => none

namespace database_api_impl

/-- Member `broadcast_updates(updates)`: the tasks it schedules. -/
def broadcast_updates (s : database_api_impl) (updates : List variant) : List async_task :=
  if updates.length ≠ 0 && s._subscribe_callback.isSome then [async_task.updates updates]
  else []

/-- Member `broadcast_market_updates(queue)`: the tasks it schedules. -/
def broadcast_market_updates (queue : market_queue_type) : List async_task :=
  if queue.length ≠ 0 then [async_task.market_updates queue] else []

/-- The first loop of `handle_object_changed`: the update list it builds. -/
def collect_updates (env : environment) (s : database_api_impl)
    (force_notify full_object : Bool) (impacted_accounts : List account_id_type)
    (find_object : object_id_type → Option object) : List object_id_type → List variant
  | [] => []
  | id :: rest =>
    let later := collect_updates env s force_notify full_object impacted_accounts find_object rest
    if force_notify || is_subscribed_to_item env s (env.pack id)
        || is_impacted_account s impacted_accounts then
      if full_object then
        match find_object id with
        | some obj => obj.to_variant :: later
        | none => later
      else variant.of_id id :: later
    else later

/-- Member template `enqueue_if_subscribed_to_market<T>(obj, queue, full_object)`;
`call` selects `T = call_order_object`, otherwise `T = limit_order_object`. -/
def enqueue_if_subscribed_to_market (s : database_api_impl) (call : Bool)
    (obj : Option object) (queue : market_queue_type) (full_object : Bool) :
    Except fc_exception market_queue_type :=
  match obj with
  | none => Except.error (fc_exception.assert_exception "order != nullptr")
  | some o =>
    match o.market_as call with
    | none => Except.error (fc_exception.assert_exception "order != nullptr")
    | some market =>
      match map_find market s._market_subscriptions with
      | some _ =>
        Except.ok (map_assign pair_lt market
          ((map_find market queue).getD [] ++
            [if full_object then o.to_variant else variant.of_id o.id]) queue)
      | none => Except.ok queue

/-- The second loop of `handle_object_changed`: the market queue it builds. -/
def collect_market (env : environment) (s : database_api_impl) (full_object : Bool)
    (find_object : object_id_type → Option object) :
    market_queue_type → List object_id_type → Except fc_exception market_queue_type
  | queue, [] => Except.ok queue
  | queue, id :: rest =>
    if id.is_type env env.call_order_object_type then
      match enqueue_if_subscribed_to_market s true (find_object id) queue full_object with
      | Except.error e => Except.error e
      | Except.ok q => collect_market env s full_object find_object q rest
    else if id.is_type env env.limit_order_object_type then
      match enqueue_if_subscribed_to_market s false (find_object id) queue full_object with
      | Except.error e => Except.error e
      | Except.ok q => collect_market env s full_object find_object q rest
    else collect_market env s full_object find_object queue rest

/-- Member `handle_object_changed(force_notify, full_object, ids,
impacted_accounts, find_object)`. -/
def handle_object_changed (env : environment) (s : database_api_impl)
    (force_notify full_object : Bool) (ids : List object_id_type)
    (impacted_accounts : List account_id_type)
    (find_object : object_id_type → Option object) : handler_result :=
  let generic :=
    if s._subscribe_callback.isSome then
      let updates := collect_updates env s force_notify full_object impacted_accounts find_object ids
      if updates.length ≠ 0 then broadcast_updates s updates else []
    else []
  if s._market_subscriptions.length ≠ 0 then
    match collect_market env s full_object find_object [] ids with
    | Except.error e => ⟨generic, some e⟩
    | Except.ok broadcast_queue =>
      ⟨generic ++ (if broadcast_queue.length ≠ 0 then broadcast_market_updates broadcast_queue
                   else []), none⟩
  else ⟨generic, none⟩

/-- The resolver of `on_objects_removed`: the first non-null snapshot with the
id asked for. -/
def find_removed (objs : List (Option object)) (id : object_id_type) : Option object :=
  match objs.find? (fun o => match o with
      | some obj => decide (obj.id = id)
      | none => false) with
  | some found => found
  | none => none

/-- Member `on_objects_removed(ids, objs, impacted_accounts)`. -/
def on_objects_removed (env : environment) (s : database_api_impl)
    (ids : List object_id_type) (objs : List (Option object))
    (impacted_accounts : List account_id_type) : handler_result :=
  handle_object_changed env s s._notify_remove_create false ids impacted_accounts
    (find_removed objs)

/-- Member `on_objects_new(ids, impacted_accounts)`. -/
def on_objects_new (env : environment) (db : database) (s : database_api_impl)
    (ids : List object_id_type) (impacted_accounts : List account_id_type) : handler_result :=
  handle_object_changed env s s._notify_remove_create true ids impacted_accounts db.find_object

/-- Member `on_objects_changed(ids, impacted_accounts)`. -/
def on_objects_changed (env : environment) (db : database) (s : database_api_impl)
    (ids : List object_id_type) (impacted_accounts : List account_id_type) : handler_result :=
  handle_object_changed env s false true ids impacted_accounts db.find_object

end database_api_impl

/-! ## Calls a client can make on a session -/

/-- Calls of the session interface, used to speak about sequences of calls. -/
inductive api_call where
  | set_subscribe_callback (cb : Option callback) (notify_remove_create : Bool)
  | set_pending_transaction_callback (cb : Option callback)
  | set_block_applied_callback (cb : Option callback)
  | cancel_all_subscriptions
  | subscribe_to_item (i : List Nat)
  | get_objects (ids : List object_id_type)
  | get_full_accounts (names_or_ids : List String) (subscribe : Bool)
  | subscribe_to_market (cb : Option callback) (a b : asset_id_type)
  | unsubscribe_from_market (a b : asset_id_type)
deriving DecidableEq, Repr

/-- Whether the call is `set_subscribe_callback` or `cancel_all_subscriptions`. -/
def api_call.resets_interest : api_call → Bool
  | api_call.set_subscribe_callback _ _ => true
  | api_call.cancel_all_subscriptions => true
  | _ => false

/-- The session after a call, whether the call returned or threw; `db` is the
store at the time of the call. -/
def api_call.apply (env : environment) (db : database) (s : database_api_impl) :
    api_call → database_api_impl
  | api_call.set_subscribe_callback cb n => (s.set_subscribe_callback env cb n).state
  | api_call.set_pending_transaction_callback cb => s.set_pending_transaction_callback cb
  | api_call.set_block_applied_callback cb => s.set_block_applied_callback cb
  | api_call.cancel_all_subscriptions => (s.cancel_all_subscriptions env).state
  | api_call.subscribe_to_item i => s.subscribe_to_item env i
  | api_call.get_objects ids => (s.get_objects env db ids).2
  | api_call.get_full_accounts names_or_ids subscribe =>
    (s.get_full_accounts env db names_or_ids subscribe).state
  | api_call.subscribe_to_market cb a b => (s.subscribe_to_market cb a b).state
  | api_call.unsubscribe_from_market a b => (s.unsubscribe_from_market a b).state

/-- The session after a sequence of calls, each made against its own store. -/
def run_calls (env : environment) :
    database_api_impl → List (database × api_call) → database_api_impl
  | s, [] => s
  | s, (db, c) :: rest => run_calls env (c.apply env db s) rest

/-! ## Block application and the fill fan-out -/

/-- Result of an applied operation (`operation_result`), by name. -/
abbrev operation_result := Nat

/-- Operations as `on_applied_block` tells them apart: a `fill_order_operation`
with the order filled and the assets paid and received, or an operation of
another kind, given by its tag. -/
inductive operation where
  | fill_order (order_id : Nat) (pays_asset receives_asset : asset_id_type)
  | other (tag : Nat)
deriving DecidableEq, Repr

/-- Entry of the applied operations of a block: the operation and its result. -/
structure operation_history_object where
  op : operation
  result : operation_result
deriving DecidableEq, Repr

/-- Groups of applied operations per market, `subscribed_markets_ops`. -/
abbrev market_ops_type := List (market_key × List (operation × operation_result))

/-- Exceptions of the standard library that the body of a task can end with:
`std::bad_function_call`, thrown by the call of an empty `std::function`. -/
inductive std_exception where
  | bad_function_call
deriving DecidableEq, Repr

/-- What the body of a scheduled task did when it ran: the callbacks it invoked
with the value each was handed, in order, and the exception that ended it, if
any. -/
structure task_result (α : Type) where
  delivered : List (callback × α)
  error : Option std_exception
deriving DecidableEq, Repr

/-- The loop shared by the lambdas of `broadcast_market_updates` and
`on_applied_block`: for each item, in order, the key is looked up in the market
map and, if it is found, the function bound to it is called with the value of
the item, without testing the function. The call of an empty function throws
and ends the loop, so that no later item is delivered. -/
def run_market_loop {α : Type}
    (_market_subscriptions : List (market_key × Option callback)) :
    List (market_key × α) → task_result α
  | [] => ⟨[], none⟩
  | item :: rest =>
    match map_find item.1 _market_subscriptions with
    | none => run_market_loop _market_subscriptions rest
    | some none => ⟨[], some std_exception.bad_function_call⟩
    | some (some cb) =>
      ⟨(cb, item.2) :: (run_market_loop _market_subscriptions rest).delivered,
       (run_market_loop _market_subscriptions rest).error⟩

/-- Appending to the entry of a key, `m[k].push_back(x)`: a missing entry is
created empty first. -/
def map_push {κ β : Type} [DecidableEq κ] (lt : κ → κ → Bool) (k : κ) (x : β)
    (m : List (κ × List β)) : List (κ × List β) :=
  map_assign lt k ((map_find k m).getD [] ++ [x]) m

/-- Modelled from the spec: `fill_order_operation::get_market()` (declared
outside the embedded files), the pair of the assets paid and received with the
lower id first. -/
def fill_order_get_market (pays_asset receives_asset : asset_id_type) : market_key :=
  if pays_asset < receives_asset then (pays_asset, receives_asset)
  else (receives_asset, pays_asset)

namespace database_api_impl

/-- The `switch` of `on_applied_block`: the market of a fill, and the
default-constructed pair for every other operation. -/
def applied_operation_market : operation → market_key
  | operation.fill_order _ pays_asset receives_asset =>
    fill_order_get_market pays_asset receives_asset
  | operation.other _ => (0, 0)

/-- The loop of `on_applied_block` over the applied operations. -/
def group_applied_operations (s : database_api_impl) :
    market_ops_type → List (Option operation_history_object) → market_ops_type
  | subscribed_markets_ops, [] => subscribed_markets_ops
  | subscribed_markets_ops, none :: rest => group_applied_operations s subscribed_markets_ops rest
  | subscribed_markets_ops, some op :: rest =>
    let market := applied_operation_market op.op
    if (map_find market s._market_subscriptions).isSome then
      group_applied_operations s
        (map_push pair_lt market (op.op, op.result) subscribed_markets_ops) rest
    else group_applied_operations s subscribed_markets_ops rest

end database_api_impl

/-! ## Readings of the handlers used in the statements -/

/-- The update lists of the generic deliveries a handler scheduled, in order. -/
def handler_result.generic_updates (r : handler_result) : List (List variant) :=
  r.scheduled.filterMap (fun t =>
    match t with
    | async_task.updates updates => some updates
    | async_task.market_updates _ => none)

/-- The queues of the market deliveries a handler scheduled, in order. -/
def handler_result.market_broadcasts (r : handler_result) : List market_queue_type :=
  r.scheduled.filterMap (fun t =>
    match t with
    | async_task.updates _ => none
    | async_task.market_updates queue => some queue)

namespace database_api_impl

/-- The body of the first loop of `handle_object_changed` for one id: the item
it appends to the update list, if any. -/
def update_item (env : environment) (s : database_api_impl)
    (force_notify full_object : Bool) (impacted_accounts : List account_id_type)
    (find_object : object_id_type → Option object) (id : object_id_type) : Option variant :=
  if force_notify || is_subscribed_to_item env s (env.pack id)
      || is_impacted_account s impacted_accounts then
    if full_object then
      match find_object id with
      | some obj => some obj.to_variant
      | none => none
    else some (variant.of_id id)
  else none

/-- Whether the second loop of `handle_object_changed` treats the id as an
order: a call-order id or a limit-order id. -/
def is_order_id (env : environment) (id : object_id_type) : Bool :=
  id.is_type env env.call_order_object_type || id.is_type env env.limit_order_object_type

/-- The order an id of the batch resolves to in the second loop of
`handle_object_changed`, with its market: for a call-order id the call order
the resolver finds, for a limit-order id the limit order it finds. -/
def market_order (env : environment) (find_object : object_id_type → Option object)
    (id : object_id_type) : Option (market_key × object) :=
  if id.is_type env env.call_order_object_type then
    match find_object id with
    | some o => (o.market_as true).map (fun market => (market, o))
    | none => none
  else if id.is_type env env.limit_order_object_type then
    match find_object id with
    | some o => (o.market_as false).map (fun market => (market, o))
    | none => none
  else none

end database_api_impl

/-- The entries that the loop of `on_applied_block` files under the market `p`,
as far as the `switch` alone decides: the operation and result of every valid
applied operation whose computed market is `p`, in applied order. -/
def database_api_impl.operations_of_market (p : market_key)
    (ops : List (Option operation_history_object)) : List (operation × operation_result) :=
  ops.filterMap (fun entry =>
    match entry with
    | some h =>
      if database_api_impl.applied_operation_market h.op = p then some (h.op, h.result)
      else none
    | none => none)

/-- Stated from the spec: the queue of the pair `p` in the market fan-out, which
lists in batch order one item for each order id of the batch whose market is
`p`, the full object when `full_object` is true and the bare id otherwise. -/
def spec_market_queue (env : environment) (find_object : object_id_type → Option object)
    (full_object : Bool) (p : market_key) (ids : List object_id_type) : List variant :=
  ids.filterMap (fun id =>
    match database_api_impl.market_order env find_object id with
    | some (market, o) =>
      if market = p then some (if full_object then o.to_variant else variant.of_id o.id)
      else none
    | none => none)

/-- The body of a task scheduled by `broadcast_updates` or
`broadcast_market_updates`, run in the session `s` as it is when the task
runs. The lambda of `broadcast_updates` tests `capture_this->_subscribe_callback`
and calls it only if it is not empty; the lambda of `broadcast_market_updates`
looks each pair of the queue up in `_market_subscriptions` and calls the
function found (`sub->second(...)`, not tested before the call). -/
def async_task.run (s : database_api_impl) : async_task → task_result (List variant)
  | async_task.updates batch =>
    match s._subscribe_callback with
    | some cb => ⟨[(cb, batch)], none⟩
    | none => ⟨[], none⟩
  | async_task.market_updates queue => run_market_loop s._market_subscriptions queue

/-! ## Relations between sessions used in the invariants -/

/-- The session `t` has the update callback and the filter parameters of `s`,
and every bit set in the filter of `s` is set in the filter of `t`. -/
def database_api_impl.interest_kept (s t : database_api_impl) : Prop :=
  t._subscribe_callback = s._subscribe_callback
    ∧ t._subscribe_filter.salt_ = s._subscribe_filter.salt_
    ∧ t._subscribe_filter.table_size_ = s._subscribe_filter.table_size_
    ∧ ∀ b ∈ s._subscribe_filter.bit_table_, b ∈ t._subscribe_filter.bit_table_

/-! ## Order book grouped by price: `func_re_pack` -/

/-- Orders of one price, aggregated (`aggregated_limit_orders_with_same_price`). -/
structure aggregated_limit_orders_with_same_price where
  price : Int
  base_volume : Int
  quote_volume : Int
  count : Nat
deriving DecidableEq, Repr

/-- Group of aggregated orders whose prices share a group price
(`aggregated_limit_orders_with_same_price_collection`). -/
structure aggregated_limit_orders_with_same_price_collection where
  price : Int
  base_volume : Int
  quote_volume : Int
  count : Nat
  limit_orders : List aggregated_limit_orders_with_same_price
deriving DecidableEq, Repr

/-- The group that the outer loop of `func_re_pack` opens for an entry; `aloc`
in the source. -/
def new_collection (group_price_key : Int) (alo : aggregated_limit_orders_with_same_price) :
    aggregated_limit_orders_with_same_price_collection :=
  { price := group_price_key
    base_volume := alo.base_volume
    quote_volume := alo.quote_volume
    count := alo.count
    limit_orders := [alo] }

/-- The update of `ret.back()` in the inner loop of `func_re_pack`. -/
def add_to_collection (back : aggregated_limit_orders_with_same_price_collection)
    (alo : aggregated_limit_orders_with_same_price) :
    aggregated_limit_orders_with_same_price_collection :=
  { back with
    count := back.count + alo.count
    base_volume := back.base_volume + alo.base_volume
    quote_volume := back.quote_volume + alo.quote_volume
    limit_orders := back.limit_orders ++ [alo] }

/-- Application of an update to the last element of a vector, `ret.back()`. -/
def modify_back {α : Type} (f : α → α) : List α → List α
  | [] => []
  | [x] => [f x]
  | x :: y :: rest => x :: modify_back f (y :: rest)

namespace database_api_impl

/-- The inner loop of `func_re_pack` and, when it breaks, the next turn of the
outer loop, as one recursion over the entries not yet visited.
`group_price_key` and `aloc` are the local variables of the current turn of the
outer loop: `aloc` is the group as it was when it was copied into `ret` and is
not changed afterwards; `ret` and `count` are as in the source;
`precision_diff` is `ORDER_BOOK_GROUP_QUERY_PRECISION_DIFF`. -/
def func_re_pack_group (precision_diff : Int) (limit_group limit_per_group : Nat) :
    Int → aggregated_limit_orders_with_same_price_collection →
    List aggregated_limit_orders_with_same_price_collection → Nat →
    List aggregated_limit_orders_with_same_price →
    List aggregated_limit_orders_with_same_price_collection
  | _, _, ret, _, [] => ret
  | group_price_key, aloc, ret, count, alo :: rest =>
    if Int.tdiv alo.price precision_diff ≠ group_price_key then
      if count < limit_group then
        func_re_pack_group precision_diff limit_group limit_per_group
          (Int.tdiv alo.price precision_diff)
          (new_collection (Int.tdiv alo.price precision_diff) alo)
          (ret ++ [new_collection (Int.tdiv alo.price precision_diff) alo]) (count + 1) rest
      else ret
    else if aloc.limit_orders.length < limit_per_group then
      func_re_pack_group precision_diff limit_group limit_per_group group_price_key aloc
        (modify_back (fun back => add_to_collection back alo) ret) count rest
    else
      func_re_pack_group precision_diff limit_group limit_per_group group_price_key aloc
        ret count rest

/-- Member template `func_re_pack(helper_itr, end, ret, limit_group,
limit_per_group)`; `entries` are the values the iterators run over, in the
order of the iteration. -/
def func_re_pack (precision_diff : Int)
    (entries : List aggregated_limit_orders_with_same_price)
    (ret : List aggregated_limit_orders_with_same_price_collection)
    (limit_group limit_per_group : Nat) :
    List aggregated_limit_orders_with_same_price_collection :=
  match entries with
  | [] => ret
  | alo :: rest =>
    if 0 < limit_group then
      func_re_pack_group precision_diff limit_group limit_per_group
        (Int.tdiv alo.price precision_diff)
        (new_collection (Int.tdiv alo.price precision_diff) alo)
        (ret ++ [new_collection (Int.tdiv alo.price precision_diff) alo]) 1 rest
    else ret

end database_api_impl

end graphene.app

/-! # DasPay evaluators

Shallow embedding of the evaluators of `libraries/chain/daspay_evaluator.cpp`
that the statements below are about. An ordered index is the list of its
objects in key order, and an iterator is a position in that list, `end()` being
the length of the list. -/

namespace graphene.chain

/-- Instance number of an account id. -/
abbrev account_id_type := Nat

/-- Instance number of an asset id. -/
abbrev asset_id_type := Nat

/-- Amounts, `share_type`. -/
abbrev share_type := Int

/-- Public keys, by name. -/
abbrev public_key_type := Nat

/-- An amount of an asset, `asset`. -/
structure asset where
  amount : share_type
  asset_id : asset_id_type
deriving DecidableEq, Repr

/-- Entry of the DasPay authority index. -/
structure daspay_authority_object where
  id : Nat
  daspay_user : account_id_type
  payment_provider : account_id_type
  daspay_public_key : public_key_type
deriving DecidableEq, Repr

/-- Entry of the delayed-operations index. -/
structure delayed_operation_object where
  id : Nat
  account : account_id_type
deriving DecidableEq, Repr

/-- Entry of the payment-service-provider index. -/
structure payment_service_provider_object where
  payment_service_provider_account : account_id_type
  payment_service_provider_clearing_accounts : List account_id_type
deriving DecidableEq, Repr

/-- Balance record of an account for an asset: balance and reserved amount. -/
structure account_balance_object where
  balance : share_type
  reserved : share_type
deriving DecidableEq, Repr

/-- The chain state and the library functions that the evaluators consult.
`daspay_authority_index` is in the order of `by_daspay_user` and
`delayed_operations_index` in the order of `by_account`. `accounts` gives
`is_wallet()` of an account, `none` when there is no such account.
`debit_conversion` and `credit_conversion` stand for the conversion of the
amount with fee into dascoin through the price lookups, which may throw;
`asset_le` is the comparison `a <= b` of assets, which may throw. -/
structure database where
  daspay_authority_index : List daspay_authority_object
  delayed_operations_index : List delayed_operation_object
  payment_service_provider_index : List payment_service_provider_object
  accounts : account_id_type → Option Bool
  balance_objects : account_id_type → asset_id_type → account_balance_object
  web_asset_id : asset_id_type
  dascoin_asset_id : asset_id_type
  delayed_operations_resolver_enabled : Bool
  daspay_debit_transaction_ratio : share_type
  daspay_credit_transaction_ratio : share_type
  debit_conversion : share_type → Except app.fc_exception asset
  credit_conversion : share_type → Except app.fc_exception asset
  asset_le : asset → asset → Except app.fc_exception Bool

/-- Position `idx.lower_bound(key)`: the first position whose key is not less
than `key`. -/
def lower_bound {α : Type} (key_of : α → Nat) (key : Nat) (idx : List α) : Nat :=
  (idx.takeWhile (fun o => decide (key_of o < key))).length

/-- Position `idx.upper_bound(key)`: the first position whose key is greater
than `key`. -/
def upper_bound {α : Type} (key_of : α → Nat) (key : Nat) (idx : List α) : Nat :=
  (idx.takeWhile (fun o => decide (key_of o ≤ key))).length

/-- Position `std::find_if(first, last, pred)`: the first position from `first`
up to, not including, `last` whose element satisfies `pred`, and `last` when
there is none. -/
def find_if {α : Type} (idx : List α) (first last : Nat) (pred : α → Bool) : Nat :=
  first + (((idx.drop first).take (last - first)).takeWhile (fun o => !(pred o))).length

/-- Operation `unregister_daspay_authority_operation`. -/
structure unregister_daspay_authority_operation where
  issuer : account_id_type
  payment_provider : account_id_type
deriving DecidableEq, Repr

/-- Operation `unreserve_asset_on_account_operation`. -/
structure unreserve_asset_on_account_operation where
  account : account_id_type
  asset_to_unreserve : asset
deriving DecidableEq, Repr

/-- Operation `daspay_debit_account_operation`. -/
structure daspay_debit_account_operation where
  payment_service_provider_account : account_id_type
  auth_key : public_key_type
  account : account_id_type
  debit_amount : asset
  clearing_account : account_id_type
deriving DecidableEq, Repr

/-- Operation `daspay_credit_account_operation`. -/
structure daspay_credit_account_operation where
  payment_service_provider_account : account_id_type
  account : account_id_type
  credit_amount : asset
  clearing_account : account_id_type
deriving DecidableEq, Repr

/-- The exception of a failed `FC_ASSERT`, named by its message format. -/
def fc_assert_failure {α : Type} (message : String) : Except app.fc_exception α :=
  Except.error (app.fc_exception.assert_exception message)

/-- Evaluator `unregister_daspay_authority_evaluator::do_evaluate`; on success
the result is the object `_daspay_authority_obj` points to. -/
def unregister_daspay_authority_do_evaluate (d : database)
    (op : unregister_daspay_authority_operation) :
    Except app.fc_exception daspay_authority_object :=
  let idx := d.daspay_authority_index
  let itr := lower_bound daspay_authority_object.daspay_user op.issuer idx
  if itr = idx.length then
    fc_assert_failure "Cannot unregister DasPay authority because none has been set"
  else
    let itr_end := upper_bound daspay_authority_object.daspay_user op.issuer idx
    let it := find_if idx itr itr_end (fun dao => decide (dao.payment_provider = op.payment_provider))
    let _daspay_authority_obj := if it ≠ idx.length then idx[it]? else none
    match _daspay_authority_obj with
    | none => fc_assert_failure "Cannot unregister DasPay authority ${a} since ${u} is not the owner"
    | some obj => Except.ok obj

/-- Evaluator `unregister_daspay_authority_evaluator::do_apply`: the authority
index after `d.remove(*_daspay_authority_obj)`. -/
def unregister_daspay_authority_do_apply (d : database)
    (_daspay_authority_obj : daspay_authority_object) : List daspay_authority_object :=
  d.daspay_authority_index.filter (fun dao => decide (dao.id ≠ _daspay_authority_obj.id))

/-- Evaluator `unreserve_asset_on_account_evaluator::do_evaluate`. -/
def unreserve_asset_on_account_do_evaluate (d : database)
    (op : unreserve_asset_on_account_operation) : Except app.fc_exception Unit :=
  if !d.delayed_operations_resolver_enabled then
    fc_assert_failure "Cannot issue unreserve operation because delayed operations resolver is not running"
  else if op.asset_to_unreserve.asset_id ≠ d.dascoin_asset_id then
    fc_assert_failure "Only dascoin can be unreserved for daspay"
  else
    let idx := d.delayed_operations_index
    let itr := lower_bound delayed_operation_object.account op.account idx
    if itr ≠ idx.length then
      fc_assert_failure "Cannot issue another unreserve operation while the previous one is pending ${a}"
    else
      let balance := d.balance_objects op.account d.dascoin_asset_id
      if ¬ (op.asset_to_unreserve.amount ≤ balance.reserved) then
        fc_assert_failure "Cannot unreserve ${a} because there is only ${b} left"
      else Except.ok ()

/-- The check `FC_ASSERT( a <= b )` on assets: the exception of the comparison,
the assertion failure with `message` when the comparison is false. -/
def assert_asset_le (d : database) (a b : asset) (message : String) :
    Except app.fc_exception Unit :=
  match d.asset_le a b with
  | Except.error e => Except.error e
  | Except.ok true => Except.ok ()
  | Except.ok false => fc_assert_failure message

/-- The checks of `daspay_debit_account_evaluator::do_evaluate` on the payment
service provider and the clearing account. -/
def check_clearing_account (d : database) (payment_service_provider_account : account_id_type)
    (clearing_account : account_id_type) : Except app.fc_exception Unit :=
  match d.payment_service_provider_index.find?
      (fun psp => decide (psp.payment_service_provider_account
        = payment_service_provider_account)) with
  | none => fc_assert_failure "Payment service provider with account ${1} does not exist."
  | some psp =>
    if clearing_account ∈ psp.payment_service_provider_clearing_accounts then Except.ok ()
    else fc_assert_failure "Invalid clearing account"

/-- Evaluator `daspay_debit_account_evaluator::do_evaluate`; on success the
result is `_to_debit`. -/
def daspay_debit_account_do_evaluate (d : database) (op : daspay_debit_account_operation) :
    Except app.fc_exception asset :=
  match d.accounts op.account with
  | none => fc_assert_failure "op.account(d)"
  | some is_wallet =>
    if !is_wallet then fc_assert_failure "Cannot debit vault account ${i}"
    else if d.delayed_operations_index.any (fun o => decide (o.account = op.account)) then
      fc_assert_failure "Account ${1} initiated delayed unreserve operation."
    else if op.debit_amount.asset_id ≠ d.web_asset_id then
      fc_assert_failure "Only web euro can be debited, ${a} sent"
    else
      let da_idx := d.daspay_authority_index
      let da_it := lower_bound daspay_authority_object.daspay_user op.account da_idx
      if da_it = da_idx.length then
        fc_assert_failure "Cannot debit user who has not enabled daspay"
      else
        let da_itr_end := upper_bound daspay_authority_object.daspay_user op.account da_idx
        if find_if da_idx da_it da_itr_end (fun dao =>
            decide (dao.payment_provider = op.payment_service_provider_account)
              && decide (dao.daspay_public_key = op.auth_key)) = da_idx.length then
          fc_assert_failure "Trying to sign debit operation with the key user has not authorized"
        else
          match check_clearing_account d op.payment_service_provider_account
              op.clearing_account with
          | Except.error e => Except.error e
          | Except.ok _ =>
            let balance := d.balance_objects op.account d.dascoin_asset_id
            let tmp_amount := op.debit_amount.amount
              + Int.tdiv (op.debit_amount.amount * d.daspay_debit_transaction_ratio) 10000
            match d.debit_conversion tmp_amount with
            | Except.error e => Except.error e
            | Except.ok _to_debit =>
              let reserved : asset := ⟨balance.reserved, d.dascoin_asset_id⟩
              match assert_asset_le d _to_debit reserved
                  "Not enough reserved balance on user account ${a}, left ${l}, needed ${n}" with
              | Except.error e => Except.error e
              | Except.ok _ => Except.ok _to_debit

/-- Modelled from the spec: `database::adjust_balance(account, delta,
reserved_delta)` (defined outside the embedded files), which adds `delta` to
the balance of the account in the asset of `delta` and `reserved_delta` to its
reserved amount. -/
def adjust_balance (balance_objects : account_id_type → asset_id_type → account_balance_object)
    (account : account_id_type) (delta : asset) (reserved_delta : share_type) :
    account_id_type → asset_id_type → account_balance_object :=
  fun a asset_id =>
    if a = account ∧ asset_id = delta.asset_id then
      ⟨(balance_objects a asset_id).balance + delta.amount,
       (balance_objects a asset_id).reserved + reserved_delta⟩
    else balance_objects a asset_id

/-- Evaluator `daspay_debit_account_evaluator::do_apply`: the balances after
the two calls of `adjust_balance`. -/
def daspay_debit_account_do_apply (d : database) (op : daspay_debit_account_operation)
    (_to_debit : asset) : account_id_type → asset_id_type → account_balance_object :=
  adjust_balance
    (adjust_balance d.balance_objects op.account ⟨0, _to_debit.asset_id⟩ (-_to_debit.amount))
    op.clearing_account _to_debit 0

/-- Evaluator `daspay_credit_account_evaluator::do_evaluate`; on success the
result is `_to_credit`. -/
def daspay_credit_account_do_evaluate (d : database) (op : daspay_credit_account_operation) :
    Except app.fc_exception asset :=
  if op.credit_amount.asset_id ≠ d.web_asset_id then
    fc_assert_failure "Only webeur can be credited, ${a} sent"
  else
    match d.accounts op.account with
    | none => fc_assert_failure "op.account(d)"
    | some is_wallet =>
      if !is_wallet then fc_assert_failure "Cannot credit vault account ${i}"
      else
        let da_idx := d.daspay_authority_index
        let da_it := lower_bound daspay_authority_object.daspay_user op.account da_idx
        if da_it = da_idx.length then
          fc_assert_failure "Cannot credit user who has not enabled daspay"
        else
          let da_itr_end := upper_bound daspay_authority_object.daspay_user op.account da_idx
          if find_if da_idx da_it da_itr_end (fun dao =>
              decide (dao.payment_provider = op.payment_service_provider_account))
              = da_idx.length then
            fc_assert_failure "Trying to credit ${a} by a payment provider ${p} which is not enabled by the account"
          else
            match check_clearing_account d op.payment_service_provider_account
                op.clearing_account with
            | Except.error e => Except.error e
            | Except.ok _ =>
              let balance : asset :=
                ⟨(d.balance_objects op.clearing_account d.dascoin_asset_id).balance,
                 d.dascoin_asset_id⟩
              let tmp_amount := op.credit_amount.amount
                + Int.tdiv (op.credit_amount.amount * d.daspay_credit_transaction_ratio) 10000
              match d.credit_conversion tmp_amount with
              | Except.error e => Except.error e
              | Except.ok _to_credit =>
                match assert_asset_le d _to_credit balance
                    "Not enough balance on clearing account ${a}, left ${l}, needed ${n}" with
                | Except.error e => Except.error e
                | Except.ok _ => Except.ok _to_credit

/-- What an account holds of an asset: balance plus reserved amount. -/
def holdings (balance_objects : account_id_type → asset_id_type → account_balance_object)
    (account : account_id_type) (asset_id : asset_id_type) : share_type :=
  (balance_objects account asset_id).balance + (balance_objects account asset_id).reserved

/-! ## Concrete chain state used to evaluate the evaluators -/

/-- The comparison `a <= b` of assets used in the sample state: equal assets
compare true, assets of different kinds cannot be compared, and otherwise the
amounts are compared. -/
def sample_asset_le (a b : asset) : Except app.fc_exception Bool :=
  if a = b then Except.ok true
  else if a.asset_id ≠ b.asset_id then fc_assert_failure "a.asset_id == b.asset_id"
  else Except.ok (decide (a.amount < b.amount))

/-- A chain state. Dascoin is the asset `1` and web euro the asset `2`. The
account `3` has authorized the provider `2` with the key `21`, and the account
`7` the provider `1` with the key `11`. The account `9` has a pending delayed
operation. The providers `1` and `2` clear through the accounts `50` and `60`.
The account `3` holds 1000 reserved dascoin and the account `50` a balance of
500 dascoin. One web euro converts to 10 dascoin. -/
def sample_chain : database :=
  { daspay_authority_index := [⟨0, 3, 2, 21⟩, ⟨1, 7, 1, 11⟩]
    delayed_operations_index := [⟨0, 9⟩]
    payment_service_provider_index := [⟨1, [50]⟩, ⟨2, [60]⟩]
    accounts := fun _ => some true
    balance_objects := fun a asset_id =>
      if a = 3 ∧ asset_id = 1 then ⟨0, 1000⟩
      else if a = 50 ∧ asset_id = 1 then ⟨500, 0⟩
      else ⟨0, 0⟩
    web_asset_id := 2
    dascoin_asset_id := 1
    delayed_operations_resolver_enabled := true
    daspay_debit_transaction_ratio := 0
    daspay_credit_transaction_ratio := 0
    debit_conversion := fun amount => Except.ok ⟨amount * 10, 1⟩
    credit_conversion := fun amount => Except.ok ⟨amount * 10, 1⟩
    asset_le := sample_asset_le }

end graphene.chain

namespace graphene.app

/-! ## Concrete data used to evaluate the embedding -/

/-- A small environment: two hash functions over a table of 64 bits. -/
def sample_env : environment :=
  { hash_ap := fun key s => key.sum + 7 * s
    number_of_hashes := 2
    table_size := 64
    pack := fun id => [id.space, id.type, id.instance_]
    protocol_ids := 1
    implementation_ids := 2
    operation_history_object_type := 11
    impl_account_transaction_history_object_type := 9
    limit_order_object_type := 7
    call_order_object_type := 8 }

/-- A session on a server without the subscribe-to-all capability, with an
update callback installed and the market `(1, 2)` subscribed. -/
def sample_session : database_api_impl :=
  { database_api_impl.init (some ⟨false, false⟩) with
    _subscribe_callback := some 5
    _subscribe_filter := bloom_filter.fresh sample_env
    _subscribed_accounts := [3]
    _market_subscriptions := [((1, 2), some 9)] }

/-- The same session on a server with the subscribe-to-all capability. -/
def sample_session_all : database_api_impl :=
  { sample_session with _app_options := some ⟨true, false⟩ }

/-- A session without update callback that still has the notify flag set, a
watched account and a market subscription. -/
def sample_session_silent : database_api_impl :=
  { sample_session_all with
    _subscribe_callback := none
    _notify_remove_create := true }

/-- A store holding one limit order, `1.7.0`, on the market `(1, 2)`. -/
def sample_database : database :=
  { find_object := fun id =>
      if id = ⟨1, 7, 0⟩ then some ⟨⟨1, 7, 0⟩, object_kind.limit_order 2 1⟩ else none
    parse_account_id := fun _ => Except.ok 0
    find_account := fun _ => none
    find_account_by_name := fun _ => none }

/-- Names of 150 accounts: the `i`-th name is `i + 1` letters long. -/
def sample_names : List String :=
  (List.range 150).map (fun i => String.mk (List.replicate (i + 1) 'a'))

/-- The 150 accounts with these names; the account with the `i`-th name has
the id `1.2.(i+1)`. -/
def sample_accounts : List account_object :=
  (List.range 150).map (fun i => ⟨⟨1, 2, i + 1⟩⟩)

/-- A store in which every name resolves to the account whose instance number
is the length of the name. -/
def sample_account_database : database :=
  { find_object := fun _ => none
    parse_account_id := fun _ => Except.ok 0
    find_account := fun _ => none
    find_account_by_name := fun name => some ⟨⟨1, 2, name.length⟩⟩ }

/-- A session with an update callback, no watched account and no market
subscription, that has tracked the id `1.7.0`. -/
def sample_session_tracking : database_api_impl :=
  database_api_impl.subscribe_to_item sample_env
    { database_api_impl.init (some ⟨false, false⟩) with
      _subscribe_callback := some 5
      _subscribe_filter := bloom_filter.fresh sample_env }
    (sample_env.pack ⟨1, 7, 0⟩)

/-- The session `sample_session_all` with the notify flag set. -/
def sample_session_notify : database_api_impl :=
  { sample_session_all with _notify_remove_create := true }

/-- A store without objects and without accounts. -/
def empty_database : database :=
  { find_object := fun _ => none
    parse_account_id := fun _ => Except.ok 0
    find_account := fun _ => none
    find_account_by_name := fun _ => none }

/-- Three aggregated orders whose prices 1000, 1001 and 1002 fall in the same
group when the precision difference is 100. -/
def sample_order_book : List aggregated_limit_orders_with_same_price :=
  [⟨1000, 10, 20, 1⟩, ⟨1001, 30, 40, 2⟩, ⟨1002, 50, 60, 3⟩]

/-! ## Lemmas on the containers -/

theorem map_find_assign_self {κ β : Type} [DecidableEq κ] (lt : κ → κ → Bool) (k : κ) (v : β)
    (m : List (κ × β)) : map_find k (map_assign lt k v m) = some v := by
  induction m with
  | nil => simp [map_assign, map_find]
  | cons e rest ih =>
    obtain ⟨k1, v1⟩ := e
    by_cases h : k = k1
    · simp [map_assign, map_find, h]
    · by_cases h2 : lt k k1 = true
      · simp [map_assign, map_find, h, h2]
      · simp [map_assign, map_find, h, h2, ih]

theorem map_find_assign_other {κ β : Type} [DecidableEq κ] (lt : κ → κ → Bool) (k k2 : κ) (v : β)
    (m : List (κ × β)) (hne : k2 ≠ k) :
    map_find k2 (map_assign lt k v m) = map_find k2 m := by
  induction m with
  | nil => simp [map_assign, map_find, hne]
  | cons e rest ih =>
    obtain ⟨k1, v1⟩ := e
    by_cases h : k = k1
    · have hne1 : k2 ≠ k1 := h ▸ hne
      simp [map_assign, map_find, h, hne1]
    · by_cases h2 : lt k k1 = true
      · simp [map_assign, map_find, h, h2, hne]
      · by_cases h3 : k2 = k1
        · simp [map_assign, map_find, h, h2, h3]
        · simp [map_assign, map_find, h, h2, h3, ih]

theorem map_erase_cons {κ β : Type} [DecidableEq κ] (k k1 : κ) (v1 : β) (rest : List (κ × β)) :
    map_erase k ((k1, v1) :: rest)
      = if k1 = k then map_erase k rest else (k1, v1) :: map_erase k rest := by
  by_cases h : k1 = k
  · simp [map_erase, List.filter_cons, h]
  · simp [map_erase, List.filter_cons, h]

theorem map_find_erase_self {κ β : Type} [DecidableEq κ] (k : κ) (m : List (κ × β)) :
    map_find k (map_erase k m) = none := by
  induction m with
  | nil => simp [map_erase, map_find]
  | cons e rest ih =>
    obtain ⟨k1, v1⟩ := e
    rw [map_erase_cons]
    by_cases h : k1 = k
    · rw [if_pos h]; exact ih
    · have h2 : k ≠ k1 := fun e => h e.symm
      rw [if_neg h]
      simp only [map_find, h2, if_false]
      exact ih

theorem map_find_erase_other {κ β : Type} [DecidableEq κ] (k k2 : κ) (m : List (κ × β))
    (hne : k2 ≠ k) : map_find k2 (map_erase k m) = map_find k2 m := by
  induction m with
  | nil => simp [map_erase, map_find]
  | cons e rest ih =>
    obtain ⟨k1, v1⟩ := e
    rw [map_erase_cons]
    by_cases h : k1 = k
    · have h2 : k2 ≠ k1 := h ▸ hne
      rw [if_pos h]
      simp only [map_find, h2, if_false]
      exact ih
    · rw [if_neg h]
      by_cases h3 : k2 = k1
      · simp [map_find, h3]
      · simp only [map_find, h3, if_false]
        exact ih

theorem map_erase_absent {κ β : Type} [DecidableEq κ] (k : κ) (m : List (κ × β))
    (h : map_find k m = none) : map_erase k m = m := by
  induction m with
  | nil => simp [map_erase]
  | cons e rest ih =>
    obtain ⟨k1, v1⟩ := e
    by_cases h1 : k = k1
    · simp [map_find, h1] at h
    · simp only [map_find, h1, if_false] at h
      have h2 : ¬ k1 = k := fun e => h1 e.symm
      rw [map_erase_cons, if_neg h2, ih h]

theorem normalize_of_ne (a b : asset_id_type) (h : a ≠ b) :
    database_api_impl.normalize a b = (min a b, max a b)
      ∧ (database_api_impl.normalize a b).1 ≠ (database_api_impl.normalize a b).2 := by
  unfold database_api_impl.normalize
  by_cases hab : a > b
  · have h1 : min a b = b := Nat.min_eq_right (Nat.le_of_lt hab)
    have h2 : max a b = a := Nat.max_eq_left (Nat.le_of_lt hab)
    simp [hab, h1, h2, Ne.symm h]
  · have hle : a ≤ b := Nat.le_of_not_gt hab
    have h1 : min a b = a := Nat.min_eq_left hle
    have h2 : max a b = b := Nat.max_eq_right hle
    simp [hab, h1, h2, h]

theorem normalize_comm (a b : asset_id_type) :
    database_api_impl.normalize a b = database_api_impl.normalize b a := by
  unfold database_api_impl.normalize
  by_cases hab : a > b
  · have hba : ¬ b > a := Nat.lt_asymm hab
    simp [hab, hba]
  · by_cases hba : b > a
    · simp [hab, hba]
    · have hEq : a = b := Nat.le_antisymm (Nat.le_of_not_gt hab) (Nat.le_of_not_gt hba)
      simp [hEq]

/-! ## Lemmas on the membership filter -/

theorem fresh_contains_nothing (env : environment) (hk : 0 < env.number_of_hashes)
    (key : List Nat) : (bloom_filter.fresh env).contains env key = false := by
  unfold bloom_filter.contains bloom_filter.fresh
  obtain ⟨n, hn⟩ := Nat.exists_eq_succ_of_ne_zero (Nat.pos_iff_ne_zero.mp hk)
  rw [Bool.eq_false_iff]
  intro hall
  rw [List.all_eq_true] at hall
  have h0 := hall 0 (by simp [hn])
  simp at h0

theorem mem_foldl_insert (g : Nat → Nat) (salts : List Nat) (table : List Nat) (x : Nat) :
    x ∈ salts.foldl (fun t s => List.insert (g s) t) table
      ↔ x ∈ table ∨ ∃ s ∈ salts, g s = x := by
  induction salts generalizing table with
  | nil => simp
  | cons s0 rest ih =>
    simp only [List.foldl_cons, ih, List.mem_insert_iff, List.mem_cons]
    constructor
    · rintro (h | h)
      · rcases h with h | h
        · exact Or.inr ⟨s0, Or.inl rfl, h.symm⟩
        · exact Or.inl h
      · obtain ⟨s1, hs1, hg⟩ := h
        exact Or.inr ⟨s1, Or.inr hs1, hg⟩
    · rintro (h | ⟨s1, hs1, hg⟩)
      · exact Or.inl (Or.inr h)
      · rcases hs1 with hs1 | hs1
        · exact Or.inl (Or.inl (by rw [← hg, hs1]))
        · exact Or.inr ⟨s1, hs1, hg⟩

theorem insert_bit_table (env : environment) (f : bloom_filter) (key : List Nat) (x : Nat) :
    x ∈ (f.insert env key).bit_table_
      ↔ x ∈ f.bit_table_ ∨ ∃ s ∈ f.salt_, bloom_filter.bit_index env f key s = x :=
  mem_foldl_insert (bloom_filter.bit_index env f key) f.salt_ f.bit_table_ x

theorem insert_then_contains (env : environment) (f : bloom_filter) (key : List Nat) :
    (f.insert env key).contains env key = true := by
  unfold bloom_filter.contains
  rw [List.all_eq_true]
  intro s hs
  have hs2 : s ∈ f.salt_ := hs
  have hmem : bloom_filter.bit_index env f key s ∈ (f.insert env key).bit_table_ :=
    (insert_bit_table env f key _).mpr (Or.inr ⟨s, hs2, rfl⟩)
  exact decide_eq_true hmem

theorem contains_of_superset (env : environment) (f g : bloom_filter) (key : List Nat)
    (hsalt : g.salt_ = f.salt_) (hsize : g.table_size_ = f.table_size_)
    (hbits : ∀ b ∈ f.bit_table_, b ∈ g.bit_table_) (h : f.contains env key = true) :
    g.contains env key = true := by
  unfold bloom_filter.contains at h ⊢
  rw [List.all_eq_true] at h ⊢
  intro s hs
  rw [hsalt] at hs
  have h1 := of_decide_eq_true (h s hs)
  have h2 : bloom_filter.bit_index env g key s = bloom_filter.bit_index env f key s := by
    unfold bloom_filter.bit_index
    rw [hsize]
  exact decide_eq_true (h2 ▸ hbits _ h1)

namespace database_api_impl

theorem interest_kept_refl (s : database_api_impl) : s.interest_kept s :=
  ⟨rfl, rfl, rfl, fun _ h => h⟩

theorem interest_kept_trans {s t u : database_api_impl} (h1 : s.interest_kept t)
    (h2 : t.interest_kept u) : s.interest_kept u :=
  ⟨h2.1.trans h1.1, h2.2.1.trans h1.2.1, h2.2.2.1.trans h1.2.2.1,
    fun b hb => h2.2.2.2 b (h1.2.2.2 b hb)⟩

theorem interest_kept_probe (env : environment) {s t : database_api_impl}
    (h : s.interest_kept t) (x : List Nat) (hx : s.is_subscribed_to_item env x = true) :
    t.is_subscribed_to_item env x = true := by
  unfold is_subscribed_to_item at hx ⊢
  rw [h.1]
  split
  · rename_i hnone
    simp [hnone] at hx
  · rename_i hsome
    simp only [hsome, if_false] at hx
    exact contains_of_superset env _ _ x h.2.1 h.2.2.1 h.2.2.2 hx

theorem interest_kept_subscribe_to_item (env : environment) (s : database_api_impl)
    (i : List Nat) : s.interest_kept (s.subscribe_to_item env i) := by
  unfold subscribe_to_item
  split
  · exact interest_kept_refl s
  · split
    · exact ⟨rfl, rfl, rfl, fun b hb => (insert_bit_table env _ i b).mpr (Or.inl hb)⟩
    · exact interest_kept_refl s

theorem market_subscribe_to_item (env : environment) (s : database_api_impl) (i : List Nat) :
    (s.subscribe_to_item env i)._market_subscriptions = s._market_subscriptions := by
  unfold subscribe_to_item
  split
  · rfl
  · split <;> rfl

theorem subscribe_to_item_then_probe (env : environment) (s : database_api_impl)
    (cb : callback) (hcb : s._subscribe_callback = some cb) (x : List Nat) :
    (s.subscribe_to_item env x).is_subscribed_to_item env x = true := by
  by_cases hx : s.is_subscribed_to_item env x = true
  · simp [subscribe_to_item, hcb, hx]
  · have hx2 : s.is_subscribed_to_item env x = false := by simpa using hx
    simp only [subscribe_to_item, hcb, hx2, Option.isNone_some, Bool.not_false, if_true]
    simp only [is_subscribed_to_item, hcb, Option.isNone_some]
    exact insert_then_contains env _ x

theorem interest_kept_get_objects_subscribe (env : environment) (ids : List object_id_type)
    (s : database_api_impl) : s.interest_kept (get_objects_subscribe env s ids) := by
  induction ids generalizing s with
  | nil => exact interest_kept_refl s
  | cons id rest ih =>
    unfold get_objects_subscribe
    split
    · exact ih s
    · exact interest_kept_trans (interest_kept_subscribe_to_item env s _) (ih _)

theorem market_get_objects_subscribe (env : environment) (ids : List object_id_type)
    (s : database_api_impl) :
    (get_objects_subscribe env s ids)._market_subscriptions = s._market_subscriptions := by
  induction ids generalizing s with
  | nil => rfl
  | cons id rest ih =>
    unfold get_objects_subscribe
    split
    · exact ih s
    · rw [ih, market_subscribe_to_item]

theorem interest_kept_track_account (env : environment) (s : database_api_impl)
    (account : account_object) : s.interest_kept (track_account env s account) := by
  unfold track_account
  split
  · exact interest_kept_trans ⟨rfl, rfl, rfl, fun _ h => h⟩
      (interest_kept_subscribe_to_item env _ _)
  · exact interest_kept_refl s

theorem market_track_account (env : environment) (s : database_api_impl)
    (account : account_object) :
    (track_account env s account)._market_subscriptions = s._market_subscriptions := by
  unfold track_account
  split
  · rw [market_subscribe_to_item]
  · rfl

theorem interest_kept_get_full_accounts_loop (env : environment) (db : database)
    (subscribe : Bool) (names : List String) (s : database_api_impl)
    (results : List (String × full_account)) :
    s.interest_kept (get_full_accounts_loop env db subscribe s results names).state := by
  induction names generalizing s results with
  | nil => exact interest_kept_refl s
  | cons name rest ih =>
    unfold get_full_accounts_loop
    split
    · exact interest_kept_refl s
    · exact ih s results
    · cases subscribe with
      | true => exact interest_kept_trans (interest_kept_track_account env s _) (ih _ _)
      | false => exact ih _ _

theorem market_get_full_accounts_loop (env : environment) (db : database)
    (subscribe : Bool) (names : List String) (s : database_api_impl)
    (results : List (String × full_account)) :
    (get_full_accounts_loop env db subscribe s results names).state._market_subscriptions
      = s._market_subscriptions := by
  induction names generalizing s results with
  | nil => rfl
  | cons name rest ih =>
    unfold get_full_accounts_loop
    split
    · rfl
    · exact ih s results
    · cases subscribe with
      | true =>
        simp only [if_true]
        rw [ih, market_track_account]
      | false => exact ih _ _

end database_api_impl

/-! ## Subscription registry -/

/-- Claim C1. When the capability `enable_subscribe_to_all` is off, or no
application options are present, `set_subscribe_callback(cb, true)` fails with
the assertion of the capability, and the session it leaves is the session it
was called on: callback, notify flag, watched accounts and filter are
untouched. -/
theorem C1_capability_error_keeps_session (env : environment) (s : database_api_impl)
    (cb : Option callback)
    (hcap : ∀ o, s._app_options = some o → o.enable_subscribe_to_all = false) :
    (s.set_subscribe_callback env cb true).error
        = some (fc_exception.assert_exception
            "_app_options && _app_options->enable_subscribe_to_all")
      ∧ (s.set_subscribe_callback env cb true).state = s
      ∧ (s.set_subscribe_callback env cb true).state._subscribe_callback = s._subscribe_callback
      ∧ (s.set_subscribe_callback env cb true).state._notify_remove_create
          = s._notify_remove_create
      ∧ (s.set_subscribe_callback env cb true).state._subscribed_accounts
          = s._subscribed_accounts
      ∧ (s.set_subscribe_callback env cb true).state._subscribe_filter = s._subscribe_filter := by
  have hoff : s.subscribe_to_all_enabled = false := by
    unfold database_api_impl.subscribe_to_all_enabled
    cases ho : s._app_options with
    | none => rfl
    | some o => exact hcap o ho
  simp [database_api_impl.set_subscribe_callback, hoff]

theorem C1_capability_error_keeps_session_witness :
    (sample_session.set_subscribe_callback sample_env (some 1) true).error
        = some (fc_exception.assert_exception
            "_app_options && _app_options->enable_subscribe_to_all")
      ∧ (sample_session.set_subscribe_callback sample_env (some 1) true).state = sample_session
      ∧ (sample_session.set_subscribe_callback sample_env (some 1) true).state._subscribe_callback
          = sample_session._subscribe_callback
      ∧ (sample_session.set_subscribe_callback sample_env (some 1) true).state._notify_remove_create
          = sample_session._notify_remove_create
      ∧ (sample_session.set_subscribe_callback sample_env (some 1) true).state._subscribed_accounts
          = sample_session._subscribed_accounts
      ∧ (sample_session.set_subscribe_callback sample_env (some 1) true).state._subscribe_filter
          = sample_session._subscribe_filter :=
  C1_capability_error_keeps_session sample_env sample_session (some 1) (by decide)

/-- Claim C2. When `set_subscribe_callback(cb, n)` succeeds, the session holds
the callback `cb` and the flag `n`, watches no account, and has the newly built
filter with no bit set; with at least one hash function in the filter
parameters, `is_subscribed_to_item(x)` is then false for every item `x`, so in
particular for every item inserted before the call. -/
theorem C2_success_resets_interest (env : environment) (s : database_api_impl)
    (cb : Option callback) (n : Bool) (hk : 0 < env.number_of_hashes)
    (hok : (s.set_subscribe_callback env cb n).error = none) :
    (s.set_subscribe_callback env cb n).state._subscribe_callback = cb
      ∧ (s.set_subscribe_callback env cb n).state._notify_remove_create = n
      ∧ (s.set_subscribe_callback env cb n).state._subscribed_accounts = []
      ∧ (s.set_subscribe_callback env cb n).state._subscribe_filter = bloom_filter.fresh env
      ∧ (s.set_subscribe_callback env cb n).state._subscribe_filter.bit_table_ = []
      ∧ ∀ x, (s.set_subscribe_callback env cb n).state.is_subscribed_to_item env x = false := by
  have hst : (s.set_subscribe_callback env cb n).state
      = { s with
          _subscribe_callback := cb
          _notify_remove_create := n
          _subscribed_accounts := []
          _subscribe_filter := bloom_filter.fresh env } := by
    by_cases hfail : (n && !(s.subscribe_to_all_enabled)) = true
    · simp [database_api_impl.set_subscribe_callback, hfail] at hok
    · simp [database_api_impl.set_subscribe_callback, hfail]
  rw [hst]
  refine ⟨rfl, rfl, rfl, rfl, rfl, ?_⟩
  intro x
  unfold database_api_impl.is_subscribed_to_item
  split
  · rfl
  · exact fresh_contains_nothing env hk x

theorem C2_success_resets_interest_witness :
    ((sample_session.subscribe_to_item sample_env [1, 2, 3]).is_subscribed_to_item
        sample_env [1, 2, 3] = true)
      ∧ (((sample_session.subscribe_to_item sample_env [1, 2, 3]).set_subscribe_callback
            sample_env (some 6) false).state._subscribe_callback = some 6
        ∧ ((sample_session.subscribe_to_item sample_env [1, 2, 3]).set_subscribe_callback
            sample_env (some 6) false).state._notify_remove_create = false
        ∧ ((sample_session.subscribe_to_item sample_env [1, 2, 3]).set_subscribe_callback
            sample_env (some 6) false).state._subscribed_accounts = []
        ∧ ((sample_session.subscribe_to_item sample_env [1, 2, 3]).set_subscribe_callback
            sample_env (some 6) false).state._subscribe_filter = bloom_filter.fresh sample_env
        ∧ ((sample_session.subscribe_to_item sample_env [1, 2, 3]).set_subscribe_callback
            sample_env (some 6) false).state._subscribe_filter.bit_table_ = []
        ∧ ∀ x, ((sample_session.subscribe_to_item sample_env [1, 2, 3]).set_subscribe_callback
            sample_env (some 6) false).state.is_subscribed_to_item sample_env x = false) :=
  ⟨by decide,
    C2_success_resets_interest sample_env (sample_session.subscribe_to_item sample_env [1, 2, 3])
      (some 6) false (by decide) (by decide)⟩

/-- Claim C3, evaluated on the code. `cancel_all_subscriptions` passes `true`
as the notify flag to `set_subscribe_callback`. On a server without the
capability the call therefore throws and cancels nothing: the update callback
and the market subscription of the session are still there. On a server with
the capability the call returns, but leaves the notify flag set. -/
theorem C3_cancel_all_subscriptions_evaluated :
    (sample_session.cancel_all_subscriptions sample_env).error
        = some (fc_exception.assert_exception
            "_app_options && _app_options->enable_subscribe_to_all")
      ∧ (sample_session.cancel_all_subscriptions sample_env).state = sample_session
      ∧ (sample_session.cancel_all_subscriptions sample_env).state._subscribe_callback = some 5
      ∧ (sample_session.cancel_all_subscriptions sample_env).state._market_subscriptions
          = [((1, 2), some 9)]
      ∧ (sample_session_all.cancel_all_subscriptions sample_env).error = none
      ∧ (sample_session_all.cancel_all_subscriptions sample_env).state._subscribe_callback = none
      ∧ (sample_session_all.cancel_all_subscriptions sample_env).state._market_subscriptions = []
      ∧ (sample_session_all.cancel_all_subscriptions sample_env).state._notify_remove_create
          = true := by
  decide

/-- Claim C4. For distinct assets `a` and `b`, `subscribe_to_market(cb, a, b)`
and `subscribe_to_market(cb, b, a)` return without error and leave the same
session; in it the key `(min a b, max a b)` is bound to `cb`, every other key
has the binding it had before, and no other field changed. -/
theorem C4_subscribe_to_market_canonical (s : database_api_impl) (cb : Option callback)
    (a b : asset_id_type) (hab : a ≠ b) :
    s.subscribe_to_market cb a b = s.subscribe_to_market cb b a
      ∧ (s.subscribe_to_market cb a b).error = none
      ∧ map_find (min a b, max a b) (s.subscribe_to_market cb a b).state._market_subscriptions
          = some cb
      ∧ (∀ k, k ≠ (min a b, max a b) →
          map_find k (s.subscribe_to_market cb a b).state._market_subscriptions
            = map_find k s._market_subscriptions)
      ∧ (s.subscribe_to_market cb a b).state
          = { s with _market_subscriptions :=
                (s.subscribe_to_market cb a b).state._market_subscriptions } := by
  obtain ⟨hn, hd⟩ := normalize_of_ne a b hab
  have hpair : ((database_api_impl.normalize a b).1, (database_api_impl.normalize a b).2)
      = (min a b, max a b) := by rw [hn]
  refine ⟨?_, ?_, ?_, ?_, ?_⟩
  · unfold database_api_impl.subscribe_to_market
    rw [normalize_comm b a]
  · simp [database_api_impl.subscribe_to_market, hd]
  · simp only [database_api_impl.subscribe_to_market, hd, if_false, hpair]
    exact map_find_assign_self _ _ _ _
  · intro k hk
    simp only [database_api_impl.subscribe_to_market, hd, if_false, hpair]
    exact map_find_assign_other _ _ _ _ _ hk
  · simp [database_api_impl.subscribe_to_market, hd]

theorem C4_subscribe_to_market_canonical_witness :
    sample_session.subscribe_to_market (some 4) 5 1 = sample_session.subscribe_to_market (some 4) 1 5
      ∧ (sample_session.subscribe_to_market (some 4) 5 1).error = none
      ∧ map_find (min 5 1, max 5 1)
          (sample_session.subscribe_to_market (some 4) 5 1).state._market_subscriptions
          = some (some 4)
      ∧ (∀ k, k ≠ (min 5 1, max 5 1) →
          map_find k (sample_session.subscribe_to_market (some 4) 5 1).state._market_subscriptions
            = map_find k sample_session._market_subscriptions)
      ∧ (sample_session.subscribe_to_market (some 4) 5 1).state
          = { sample_session with _market_subscriptions :=
                (sample_session.subscribe_to_market (some 4) 5 1).state._market_subscriptions } :=
  C4_subscribe_to_market_canonical sample_session (some 4) 5 1 (by decide)

/-- Claim C5. With the same asset on both sides, `subscribe_to_market(cb, a, a)`
and `unsubscribe_from_market(a, a)` both fail with the assertion `a != b` and
leave the session, the market map included, as it was. -/
theorem C5_same_asset_rejected (s : database_api_impl) (cb : Option callback)
    (a : asset_id_type) :
    (s.subscribe_to_market cb a a).error = some (fc_exception.assert_exception "a != b")
      ∧ (s.subscribe_to_market cb a a).state = s
      ∧ (s.unsubscribe_from_market a a).error = some (fc_exception.assert_exception "a != b")
      ∧ (s.unsubscribe_from_market a a).state = s
      ∧ (s.subscribe_to_market cb a a).state._market_subscriptions = s._market_subscriptions
      ∧ (s.unsubscribe_from_market a a).state._market_subscriptions
          = s._market_subscriptions := by
  simp [database_api_impl.subscribe_to_market, database_api_impl.unsubscribe_from_market,
    database_api_impl.normalize]

/-- Claim C6. For distinct assets `a` and `b`, `unsubscribe_from_market(a, b)`
returns without error whether or not the pair is subscribed; afterwards the key
`(min a b, max a b)` is unbound, the entries of the map are exactly the earlier
entries with another key, in their order, and no other field changed. After
`subscribe_to_market(cb, a, b)` the call `unsubscribe_from_market(b, a)` leaves
the pair unsubscribed, and unsubscribing a pair that is not bound leaves the
session as it was. -/
theorem C6_unsubscribe_from_market_exact (s : database_api_impl) (cb : Option callback)
    (a b : asset_id_type) (hab : a ≠ b) :
    (s.unsubscribe_from_market a b).error = none
      ∧ map_find (min a b, max a b) (s.unsubscribe_from_market a b).state._market_subscriptions
          = none
      ∧ (s.unsubscribe_from_market a b).state._market_subscriptions
          = s._market_subscriptions.filter (fun e => decide (e.1 ≠ (min a b, max a b)))
      ∧ (∀ k, k ≠ (min a b, max a b) →
          map_find k (s.unsubscribe_from_market a b).state._market_subscriptions
            = map_find k s._market_subscriptions)
      ∧ (s.unsubscribe_from_market a b).state
          = { s with _market_subscriptions :=
                (s.unsubscribe_from_market a b).state._market_subscriptions }
      ∧ ((s.subscribe_to_market cb a b).state.unsubscribe_from_market b a).error = none
      ∧ map_find (min a b, max a b)
          ((s.subscribe_to_market cb a b).state.unsubscribe_from_market b a).state._market_subscriptions
          = none
      ∧ (map_find (min a b, max a b) s._market_subscriptions = none →
          (s.unsubscribe_from_market a b).state = s) := by
  obtain ⟨hn, hd⟩ := normalize_of_ne a b hab
  have hpair : ((database_api_impl.normalize a b).1, (database_api_impl.normalize a b).2)
      = (min a b, max a b) := by rw [hn]
  have hd2 : (database_api_impl.normalize b a).1 ≠ (database_api_impl.normalize b a).2 := by
    rw [normalize_comm b a]; exact hd
  have hpair2 : ((database_api_impl.normalize b a).1, (database_api_impl.normalize b a).2)
      = (min a b, max a b) := by rw [normalize_comm b a, hn]
  refine ⟨?_, ?_, ?_, ?_, ?_, ?_, ?_, ?_⟩
  · simp [database_api_impl.unsubscribe_from_market, hd]
  · simp only [database_api_impl.unsubscribe_from_market, hd, if_false, hpair]
    exact map_find_erase_self _ _
  · simp only [database_api_impl.unsubscribe_from_market, hd, if_false, hpair]
    rfl
  · intro k hk
    simp only [database_api_impl.unsubscribe_from_market, hd, if_false, hpair]
    exact map_find_erase_other _ _ _ hk
  · simp [database_api_impl.unsubscribe_from_market, hd]
  · simp [database_api_impl.unsubscribe_from_market, hd2]
  · simp only [database_api_impl.unsubscribe_from_market, hd2, if_false, hpair2]
    exact map_find_erase_self _ _
  · intro habsent
    simp only [database_api_impl.unsubscribe_from_market, hd, if_false, hpair]
    rw [map_erase_absent _ _ habsent]

theorem C6_unsubscribe_from_market_exact_witness :
    (sample_session.unsubscribe_from_market 2 1).error = none
      ∧ map_find (min 2 1, max 2 1)
          (sample_session.unsubscribe_from_market 2 1).state._market_subscriptions = none
      ∧ (sample_session.unsubscribe_from_market 2 1).state._market_subscriptions
          = sample_session._market_subscriptions.filter
              (fun e => decide (e.1 ≠ (min 2 1, max 2 1)))
      ∧ (∀ k, k ≠ (min 2 1, max 2 1) →
          map_find k (sample_session.unsubscribe_from_market 2 1).state._market_subscriptions
            = map_find k sample_session._market_subscriptions)
      ∧ (sample_session.unsubscribe_from_market 2 1).state
          = { sample_session with _market_subscriptions :=
                (sample_session.unsubscribe_from_market 2 1).state._market_subscriptions }
      ∧ ((sample_session.subscribe_to_market (some 3) 2 1).state.unsubscribe_from_market 1 2).error
          = none
      ∧ map_find (min 2 1, max 2 1)
          ((sample_session.subscribe_to_market (some 3) 2 1).state.unsubscribe_from_market
            1 2).state._market_subscriptions = none
      ∧ (map_find (min 2 1, max 2 1) sample_session._market_subscriptions = none →
          (sample_session.unsubscribe_from_market 2 1).state = sample_session) :=
  C6_unsubscribe_from_market_exact sample_session (some 3) 2 1 (by decide)

/-- Claim C7. `set_subscribe_callback` leaves the market map as it was,
whether it returns or throws. Of all the calls of the session interface, only
`cancel_all_subscriptions` and `unsubscribe_from_market` can leave a key
unbound that was bound before the call, and a successful
`cancel_all_subscriptions` leaves the map empty. -/
theorem C7_market_map_frame (env : environment) (db : database) (s : database_api_impl)
    (cb : Option callback) (n : Bool) :
    (s.set_subscribe_callback env cb n).state._market_subscriptions = s._market_subscriptions
      ∧ (∀ (c : api_call) (k : market_key),
          map_find k s._market_subscriptions ≠ none →
          map_find k (c.apply env db s)._market_subscriptions = none →
          c = api_call.cancel_all_subscriptions
            ∨ ∃ a b, c = api_call.unsubscribe_from_market a b)
      ∧ ((s.cancel_all_subscriptions env).error = none →
          (s.cancel_all_subscriptions env).state._market_subscriptions = []) := by
  have hset : ∀ (cb1 : Option callback) (n1 : Bool),
      (s.set_subscribe_callback env cb1 n1).state._market_subscriptions
        = s._market_subscriptions := by
    intro cb1 n1
    unfold database_api_impl.set_subscribe_callback
    split <;> rfl
  refine ⟨hset cb n, ?_, ?_⟩
  · intro c k hbound hgone
    cases c with
    | set_subscribe_callback cb1 n1 =>
      simp only [api_call.apply, hset] at hgone
      exact absurd hgone hbound
    | set_pending_transaction_callback cb1 => exact absurd hgone hbound
    | set_block_applied_callback cb1 => exact absurd hgone hbound
    | cancel_all_subscriptions => exact Or.inl rfl
    | subscribe_to_item i =>
      simp only [api_call.apply, database_api_impl.market_subscribe_to_item] at hgone
      exact absurd hgone hbound
    | get_objects ids =>
      have hsame : (s.get_objects env db ids).2._market_subscriptions
          = s._market_subscriptions := by
        unfold database_api_impl.get_objects
        simp only
        split
        · exact database_api_impl.market_get_objects_subscribe env ids s
        · rfl
      simp only [api_call.apply, hsame] at hgone
      exact absurd hgone hbound
    | get_full_accounts names subscribe =>
      simp only [api_call.apply, database_api_impl.get_full_accounts,
        database_api_impl.market_get_full_accounts_loop] at hgone
      exact absurd hgone hbound
    | subscribe_to_market cb1 a b =>
      exfalso
      simp only [api_call.apply, database_api_impl.subscribe_to_market] at hgone
      split at hgone
      · exact hbound hgone
      · by_cases hk : k = ((database_api_impl.normalize a b).1, (database_api_impl.normalize a b).2)
        · rw [hk, map_find_assign_self] at hgone
          exact Option.noConfusion hgone
        · rw [map_find_assign_other _ _ _ _ _ hk] at hgone
          exact hbound hgone
    | unsubscribe_from_market a b => exact Or.inr ⟨a, b, rfl⟩
  · intro hok
    unfold database_api_impl.cancel_all_subscriptions at hok ⊢
    simp only at hok ⊢
    split
    · rename_i e he
      rw [he] at hok
      exact Option.noConfusion hok
    · rfl

/-- Claim C8. In a session without update callback, `subscribe_to_item(x)`
leaves the session as it was, the filter included, and
`is_subscribed_to_item(x)` is false, for every item `x`. -/
theorem C8_no_callback_no_tracking (env : environment) (s : database_api_impl)
    (x : List Nat) (hcb : s._subscribe_callback = none) :
    s.subscribe_to_item env x = s
      ∧ (s.subscribe_to_item env x)._subscribe_filter = s._subscribe_filter
      ∧ s.is_subscribed_to_item env x = false := by
  simp [database_api_impl.subscribe_to_item, database_api_impl.is_subscribed_to_item, hcb]

theorem C8_no_callback_no_tracking_witness :
    (database_api_impl.init none).subscribe_to_item sample_env [4, 2]
        = database_api_impl.init none
      ∧ ((database_api_impl.init none).subscribe_to_item sample_env [4, 2])._subscribe_filter
          = (database_api_impl.init none)._subscribe_filter
      ∧ (database_api_impl.init none).is_subscribed_to_item sample_env [4, 2] = false :=
  C8_no_callback_no_tracking sample_env (database_api_impl.init none) [4, 2] rfl

theorem broadcast_market_updates_not_generic (queue : market_queue_type) :
    ∀ t ∈ database_api_impl.broadcast_market_updates queue, t.is_generic = false := by
  intro t ht
  unfold database_api_impl.broadcast_market_updates at ht
  by_cases hq : queue.length ≠ 0
  · rw [if_pos hq, List.mem_singleton] at ht
    rw [ht]
    rfl
  · rw [if_neg hq] at ht
    exact absurd ht (List.not_mem_nil t)

theorem handle_object_changed_without_callback (env : environment) (s : database_api_impl)
    (force_notify full_object : Bool) (ids : List object_id_type)
    (impacted_accounts : List account_id_type) (find_object : object_id_type → Option object)
    (hcb : s._subscribe_callback = none) :
    ∀ t ∈ (s.handle_object_changed env force_notify full_object ids impacted_accounts
        find_object).scheduled, t.is_generic = false := by
  intro t ht
  unfold database_api_impl.handle_object_changed at ht
  simp only [hcb, Option.isSome_none, Bool.false_eq_true, if_false] at ht
  split at ht
  · split at ht
    · simp at ht
    · simp only [List.nil_append] at ht
      split at ht
      · exact broadcast_market_updates_not_generic _ t ht
      · simp at ht
  · simp at ht

/-- Claim C9. A session without update callback is scheduled no generic update
delivery: whatever its filter, watched accounts and notify flag, and whatever
the batch, the impacted accounts, the removal snapshots and the store, none of
the tasks scheduled by `on_objects_new`, `on_objects_changed` and
`on_objects_removed` is a generic delivery, and `broadcast_updates` schedules
nothing. -/
theorem C9_no_callback_no_generic_delivery (env : environment) (db : database)
    (s : database_api_impl) (ids : List object_id_type)
    (impacted_accounts : List account_id_type) (objs : List (Option object))
    (hcb : s._subscribe_callback = none) :
    (∀ t ∈ (s.on_objects_new env db ids impacted_accounts).scheduled, t.is_generic = false)
      ∧ (∀ t ∈ (s.on_objects_changed env db ids impacted_accounts).scheduled,
          t.is_generic = false)
      ∧ (∀ t ∈ (s.on_objects_removed env ids objs impacted_accounts).scheduled,
          t.is_generic = false)
      ∧ ∀ updates, s.broadcast_updates updates = [] := by
  refine ⟨?_, ?_, ?_, ?_⟩
  · exact handle_object_changed_without_callback env s _ _ ids impacted_accounts _ hcb
  · exact handle_object_changed_without_callback env s _ _ ids impacted_accounts _ hcb
  · exact handle_object_changed_without_callback env s _ _ ids impacted_accounts _ hcb
  · intro updates
    simp [database_api_impl.broadcast_updates, hcb]

theorem C9_no_callback_no_generic_delivery_witness :
    (sample_session_silent.on_objects_new sample_env sample_database [⟨1, 7, 0⟩] [3]).scheduled
        = [async_task.market_updates
            [((1, 2), [variant.of_object ⟨⟨1, 7, 0⟩, object_kind.limit_order 2 1⟩])]]
      ∧ ((∀ t ∈ (sample_session_silent.on_objects_new sample_env sample_database
              [⟨1, 7, 0⟩] [3]).scheduled, t.is_generic = false)
        ∧ (∀ t ∈ (sample_session_silent.on_objects_changed sample_env sample_database
              [⟨1, 7, 0⟩] [3]).scheduled, t.is_generic = false)
        ∧ (∀ t ∈ (sample_session_silent.on_objects_removed sample_env
              [⟨1, 7, 0⟩] [some ⟨⟨1, 7, 0⟩, object_kind.limit_order 2 1⟩] [3]).scheduled,
            t.is_generic = false)
        ∧ ∀ updates, sample_session_silent.broadcast_updates updates = []) :=
  ⟨by decide,
    C9_no_callback_no_generic_delivery sample_env sample_database sample_session_silent
      [⟨1, 7, 0⟩] [3] [some ⟨⟨1, 7, 0⟩, object_kind.limit_order 2 1⟩] rfl⟩

/-! ## No missed interest -/

theorem interest_kept_apply (env : environment) (db : database) (s : database_api_impl)
    (c : api_call) (hc : c.resets_interest = false) : s.interest_kept (c.apply env db s) := by
  cases c with
  | set_subscribe_callback cb n => simp [api_call.resets_interest] at hc
  | cancel_all_subscriptions => simp [api_call.resets_interest] at hc
  | set_pending_transaction_callback cb => exact ⟨rfl, rfl, rfl, fun _ h => h⟩
  | set_block_applied_callback cb => exact ⟨rfl, rfl, rfl, fun _ h => h⟩
  | subscribe_to_item i => exact database_api_impl.interest_kept_subscribe_to_item env s i
  | get_objects ids =>
    simp only [api_call.apply, database_api_impl.get_objects]
    split
    · exact database_api_impl.interest_kept_get_objects_subscribe env ids s
    · exact database_api_impl.interest_kept_refl s
  | get_full_accounts names subscribe =>
    exact database_api_impl.interest_kept_get_full_accounts_loop env db subscribe names s []
  | subscribe_to_market cb a b =>
    simp only [api_call.apply, database_api_impl.subscribe_to_market]
    split
    · exact database_api_impl.interest_kept_refl s
    · exact ⟨rfl, rfl, rfl, fun _ h => h⟩
  | unsubscribe_from_market a b =>
    simp only [api_call.apply, database_api_impl.unsubscribe_from_market]
    split
    · exact database_api_impl.interest_kept_refl s
    · exact ⟨rfl, rfl, rfl, fun _ h => h⟩

theorem interest_kept_run_calls (env : environment) (calls : List (database × api_call))
    (s : database_api_impl) (hcalls : ∀ c ∈ calls, c.2.resets_interest = false) :
    s.interest_kept (run_calls env s calls) := by
  induction calls generalizing s with
  | nil => exact database_api_impl.interest_kept_refl s
  | cons c rest ih =>
    obtain ⟨db, call⟩ := c
    unfold run_calls
    exact database_api_impl.interest_kept_trans
      (interest_kept_apply env db s call (hcalls (db, call) (List.mem_cons_self _ _)))
      (ih _ (fun c hc => hcalls c (List.mem_cons_of_mem _ hc)))

theorem collect_updates_cons_superset (env : environment) (s : database_api_impl)
    (force_notify full_object : Bool) (impacted_accounts : List account_id_type)
    (find_object : object_id_type → Option object) (id0 : object_id_type)
    (rest : List object_id_type) (v : variant)
    (hv : v ∈ database_api_impl.collect_updates env s force_notify full_object
        impacted_accounts find_object rest) :
    v ∈ database_api_impl.collect_updates env s force_notify full_object impacted_accounts
        find_object (id0 :: rest) := by
  simp only [database_api_impl.collect_updates]
  split <;> (try split) <;> (try split) <;>
    first
    | exact hv
    | exact List.mem_cons_of_mem _ hv

theorem collect_updates_mem (env : environment) (s : database_api_impl)
    (force_notify full_object : Bool) (impacted_accounts : List account_id_type)
    (find_object : object_id_type → Option object) (id : object_id_type)
    (hprobe : s.is_subscribed_to_item env (env.pack id) = true) (ids : List object_id_type)
    (hid : id ∈ ids) :
    (full_object = false → variant.of_id id ∈
        database_api_impl.collect_updates env s force_notify full_object impacted_accounts
          find_object ids)
      ∧ (∀ obj, full_object = true → find_object id = some obj → obj.to_variant ∈
        database_api_impl.collect_updates env s force_notify full_object impacted_accounts
          find_object ids) := by
  induction ids with
  | nil => exact absurd hid (List.not_mem_nil id)
  | cons id0 rest ih =>
    by_cases h0 : id = id0
    · subst h0
      constructor
      · intro hfull
        simp [database_api_impl.collect_updates, hprobe, hfull]
      · intro obj hfull hfound
        simp [database_api_impl.collect_updates, hprobe, hfull, hfound]
    · have hrest : id ∈ rest := by
        rcases List.mem_cons.mp hid with h | h
        · exact absurd h h0
        · exact h
      obtain ⟨ih1, ih2⟩ := ih hrest
      constructor
      · intro hfull
        exact collect_updates_cons_superset env s force_notify full_object impacted_accounts
          find_object id0 rest _ (ih1 hfull)
      · intro obj hfull hfound
        exact collect_updates_cons_superset env s force_notify full_object impacted_accounts
          find_object id0 rest _ (ih2 obj hfull hfound)

theorem handle_object_changed_schedules_updates (env : environment) (s : database_api_impl)
    (cb : callback) (hcb : s._subscribe_callback = some cb)
    (force_notify full_object : Bool) (ids : List object_id_type)
    (impacted_accounts : List account_id_type) (find_object : object_id_type → Option object)
    (hne : database_api_impl.collect_updates env s force_notify full_object impacted_accounts
        find_object ids ≠ []) :
    async_task.updates (database_api_impl.collect_updates env s force_notify full_object
        impacted_accounts find_object ids)
      ∈ (s.handle_object_changed env force_notify full_object ids impacted_accounts
          find_object).scheduled := by
  have hlen : (database_api_impl.collect_updates env s force_notify full_object
      impacted_accounts find_object ids).length ≠ 0 := by
    intro h0
    exact hne (List.length_eq_zero.mp h0)
  unfold database_api_impl.handle_object_changed
  simp only [hcb, Option.isSome_some, if_true, hlen, ne_eq, not_false_eq_true,
    database_api_impl.broadcast_updates, decide_True, Bool.and_self]
  split
  · split
    · exact List.mem_singleton.mpr rfl
    · exact List.mem_append_left _ (List.mem_singleton.mpr rfl)
  · exact List.mem_singleton.mpr rfl

/-- Claim C10, as the code has it. In a session with a callback installed,
after `subscribe_to_item(x)` the probe `is_subscribed_to_item(x)` is true, and
it is still true after any sequence of calls other than
`set_subscribe_callback` and `cancel_all_subscriptions`. A later
`handle_object_changed` whose batch contains an id that serializes to `x`
then schedules a generic delivery whose list holds the item of that id,
provided the item can be built: the bare id when `full_object` is false, the
full object when `full_object` is true and the resolver finds the object. -/
theorem C10_no_missed_interest (env : environment) (s : database_api_impl) (cb : callback)
    (x : List Nat) (calls : List (database × api_call))
    (hcb : s._subscribe_callback = some cb)
    (hcalls : ∀ c ∈ calls, c.2.resets_interest = false) :
    (s.subscribe_to_item env x).is_subscribed_to_item env x = true
      ∧ (run_calls env (s.subscribe_to_item env x) calls).is_subscribed_to_item env x = true
      ∧ ∀ (id : object_id_type) (force_notify full_object : Bool) (ids : List object_id_type)
          (impacted_accounts : List account_id_type)
          (find_object : object_id_type → Option object),
          env.pack id = x → id ∈ ids → (full_object = true → find_object id ≠ none) →
          ∃ updates,
            async_task.updates updates ∈
                ((run_calls env (s.subscribe_to_item env x) calls).handle_object_changed env
                  force_notify full_object ids impacted_accounts find_object).scheduled
              ∧ (full_object = false → variant.of_id id ∈ updates)
              ∧ (∀ obj, full_object = true → find_object id = some obj →
                  obj.to_variant ∈ updates) := by
  have h1 : (s.subscribe_to_item env x).is_subscribed_to_item env x = true :=
    database_api_impl.subscribe_to_item_then_probe env s cb hcb x
  have hkept : (s.subscribe_to_item env x).interest_kept
      (run_calls env (s.subscribe_to_item env x) calls) :=
    interest_kept_run_calls env calls _ hcalls
  have h2 : (run_calls env (s.subscribe_to_item env x) calls).is_subscribed_to_item env x
      = true := database_api_impl.interest_kept_probe env hkept x h1
  have hcb2 : (run_calls env (s.subscribe_to_item env x) calls)._subscribe_callback
      = some cb := by
    rw [hkept.1, (database_api_impl.interest_kept_subscribe_to_item env s x).1, hcb]
  refine ⟨h1, h2, ?_⟩
  intro id force_notify full_object ids impacted_accounts find_object hpack hid hres
  have hprobe : (run_calls env (s.subscribe_to_item env x) calls).is_subscribed_to_item env
      (env.pack id) = true := by rw [hpack]; exact h2
  obtain ⟨hm1, hm2⟩ := collect_updates_mem env _ force_notify full_object impacted_accounts
    find_object id hprobe ids hid
  refine ⟨_, handle_object_changed_schedules_updates env _ cb hcb2 force_notify full_object
    ids impacted_accounts find_object ?_, hm1, hm2⟩
  cases full_object with
  | false => exact List.ne_nil_of_mem (hm1 rfl)
  | true =>
    cases hfound : find_object id with
    | none => exact absurd hfound (hres rfl)
    | some obj => exact List.ne_nil_of_mem (hm2 obj rfl hfound)

theorem C10_no_missed_interest_witness :
    (sample_session.subscribe_to_item sample_env (sample_env.pack ⟨1, 7, 0⟩)).is_subscribed_to_item
        sample_env (sample_env.pack ⟨1, 7, 0⟩) = true
      ∧ (run_calls sample_env
          (sample_session.subscribe_to_item sample_env (sample_env.pack ⟨1, 7, 0⟩))
          [(sample_database, api_call.get_objects [⟨1, 2, 4⟩]),
           (sample_database, api_call.unsubscribe_from_market 2 1)]).is_subscribed_to_item
        sample_env (sample_env.pack ⟨1, 7, 0⟩) = true
      ∧ ∀ (id : object_id_type) (force_notify full_object : Bool) (ids : List object_id_type)
          (impacted_accounts : List account_id_type)
          (find_object : object_id_type → Option object),
          sample_env.pack id = sample_env.pack ⟨1, 7, 0⟩ → id ∈ ids →
          (full_object = true → find_object id ≠ none) →
          ∃ updates,
            async_task.updates updates ∈
                ((run_calls sample_env
                  (sample_session.subscribe_to_item sample_env (sample_env.pack ⟨1, 7, 0⟩))
                  [(sample_database, api_call.get_objects [⟨1, 2, 4⟩]),
                   (sample_database, api_call.unsubscribe_from_market 2 1)]).handle_object_changed
                  sample_env force_notify full_object ids impacted_accounts find_object).scheduled
              ∧ (full_object = false → variant.of_id id ∈ updates)
              ∧ (∀ obj, full_object = true → find_object id = some obj →
                  obj.to_variant ∈ updates) :=
  C10_no_missed_interest sample_env sample_session 5 (sample_env.pack ⟨1, 7, 0⟩)
    [(sample_database, api_call.get_objects [⟨1, 2, 4⟩]),
     (sample_database, api_call.unsubscribe_from_market 2 1)]
    rfl
    (by
      intro c hc
      simp only [List.mem_cons, List.mem_singleton, List.not_mem_nil, or_false] at hc
      rcases hc with h | h <;> rw [h] <;> rfl)

/-- Claim C10 as stated fails. The session tracks the id `1.2.0` and its probe
is positive, yet `handle_object_changed` with `full_object` true, called on a
batch holding that id while the resolver finds no object for it, returns
without error and schedules no delivery at all. -/
theorem C10_unresolved_id_is_not_delivered :
    (sample_session.subscribe_to_item sample_env (sample_env.pack ⟨1, 2, 0⟩)).is_subscribed_to_item
        sample_env (sample_env.pack ⟨1, 2, 0⟩) = true
      ∧ ((sample_session.subscribe_to_item sample_env
            (sample_env.pack ⟨1, 2, 0⟩)).handle_object_changed sample_env false true
          [⟨1, 2, 0⟩] [] empty_database.find_object).scheduled = []
      ∧ ((sample_session.subscribe_to_item sample_env
            (sample_env.pack ⟨1, 2, 0⟩)).handle_object_changed sample_env false true
          [⟨1, 2, 0⟩] [] empty_database.find_object).error = none := by
  decide

/-! ## Watched accounts -/

/-- Claim C11. `is_impacted_account(S)` is true exactly when the watched-account
set and `S` are both non-empty and some account id of `S` is watched. -/
theorem C11_is_impacted_account_iff (s : database_api_impl)
    (accounts : List account_id_type) :
    s.is_impacted_account accounts = true
      ↔ s._subscribed_accounts ≠ [] ∧ accounts ≠ []
          ∧ ∃ a, a ∈ accounts ∧ a ∈ s._subscribed_accounts := by
  unfold database_api_impl.is_impacted_account
  by_cases h1 : s._subscribed_accounts = []
  · simp [h1]
  · by_cases h2 : accounts = []
    · simp [h2]
    · have l1 : s._subscribed_accounts.length ≠ 0 := fun h => h1 (List.length_eq_zero.mp h)
      have l2 : accounts.length ≠ 0 := fun h => h2 (List.length_eq_zero.mp h)
      simp [h1, h2, l1, l2, List.any_eq_true]

theorem mem_set_insert (a x : Nat) (l : List Nat) : x ∈ set_insert a l ↔ x = a ∨ x ∈ l := by
  induction l with
  | nil => simp [set_insert]
  | cons b rest ih =>
    unfold set_insert
    by_cases h1 : a = b
    · simp only [h1, if_true, List.mem_cons]
      constructor
      · intro h; exact Or.inr h
      · rintro (h | h)
        · exact Or.inl h
        · exact h
    · by_cases h2 : a < b
      · simp [h1, h2]
      · simp only [h1, h2, if_false, List.mem_cons, ih]
        constructor
        · rintro (h | h | h)
          · exact Or.inr (Or.inl h)
          · exact Or.inl h
          · exact Or.inr (Or.inr h)
        · rintro (h | h | h)
          · exact Or.inr (Or.inl h)
          · exact Or.inl h
          · exact Or.inr (Or.inr h)

theorem set_insert_length_le (a : Nat) (l : List Nat) :
    (set_insert a l).length ≤ l.length + 1 := by
  induction l with
  | nil => simp [set_insert]
  | cons b rest ih =>
    unfold set_insert
    by_cases h1 : a = b
    · simp [h1]
    · by_cases h2 : a < b
      · simp [h1, h2]
      · simp only [h1, h2, if_false, List.length_cons]
        omega

theorem set_insert_length_of_not_mem (a : Nat) (l : List Nat) (h : a ∉ l) :
    (set_insert a l).length = l.length + 1 := by
  induction l with
  | nil => simp [set_insert]
  | cons b rest ih =>
    have hb : a ≠ b := fun e => h (e ▸ List.mem_cons_self _ _)
    have hrest : a ∉ rest := fun hm => h (List.mem_cons_of_mem _ hm)
    unfold set_insert
    by_cases h2 : a < b
    · simp [hb, h2]
    · simp only [hb, h2, if_false, List.length_cons, ih hrest]

namespace database_api_impl

theorem accounts_subscribe_to_item (env : environment) (s : database_api_impl) (i : List Nat) :
    (s.subscribe_to_item env i)._subscribed_accounts = s._subscribed_accounts := by
  unfold subscribe_to_item
  split
  · rfl
  · split <;> rfl

theorem accounts_track_account (env : environment) (s : database_api_impl)
    (account : account_object) :
    (track_account env s account)._subscribed_accounts
      = if s._subscribed_accounts.length < 100
        then set_insert account.get_id s._subscribed_accounts
        else s._subscribed_accounts := by
  unfold track_account
  split
  · rw [accounts_subscribe_to_item]
  · rfl

theorem accounts_get_objects_subscribe (env : environment) (ids : List object_id_type)
    (s : database_api_impl) :
    (get_objects_subscribe env s ids)._subscribed_accounts = s._subscribed_accounts := by
  induction ids generalizing s with
  | nil => rfl
  | cons id rest ih =>
    unfold get_objects_subscribe
    split
    · exact ih s
    · rw [ih, accounts_subscribe_to_item]

theorem cap_track_account (env : environment) (s : database_api_impl)
    (account : account_object) (h : s._subscribed_accounts.length ≤ 100) :
    (track_account env s account)._subscribed_accounts.length ≤ 100 := by
  rw [accounts_track_account]
  split
  · have := set_insert_length_le account.get_id s._subscribed_accounts
    omega
  · exact h

theorem cap_get_full_accounts_loop (env : environment) (db : database) (subscribe : Bool)
    (names : List String) (s : database_api_impl) (results : List (String × full_account))
    (h : s._subscribed_accounts.length ≤ 100) :
    (get_full_accounts_loop env db subscribe s results names).state._subscribed_accounts.length
      ≤ 100 := by
  induction names generalizing s results with
  | nil => exact h
  | cons name rest ih =>
    unfold get_full_accounts_loop
    split
    · exact h
    · exact ih s results h
    · cases subscribe with
      | true => exact ih _ _ (cap_track_account env s _ h)
      | false => exact ih _ _ h

end database_api_impl

theorem cap_set_subscribe_callback (env : environment) (s : database_api_impl)
    (cb : Option callback) (n : Bool) (h : s._subscribed_accounts.length ≤ 100) :
    (s.set_subscribe_callback env cb n).state._subscribed_accounts.length ≤ 100 := by
  unfold database_api_impl.set_subscribe_callback
  split
  · exact h
  · simp

theorem cap_apply (env : environment) (db : database) (s : database_api_impl) (c : api_call)
    (h : s._subscribed_accounts.length ≤ 100) :
    (c.apply env db s)._subscribed_accounts.length ≤ 100 := by
  cases c with
  | set_subscribe_callback cb n => exact cap_set_subscribe_callback env s cb n h
  | cancel_all_subscriptions =>
    simp only [api_call.apply, database_api_impl.cancel_all_subscriptions]
    split
    · exact cap_set_subscribe_callback env s none true h
    · exact cap_set_subscribe_callback env s none true h
  | set_pending_transaction_callback cb => exact h
  | set_block_applied_callback cb => exact h
  | subscribe_to_item i =>
    simp only [api_call.apply, database_api_impl.accounts_subscribe_to_item]
    exact h
  | get_objects ids =>
    simp only [api_call.apply, database_api_impl.get_objects]
    split
    · rw [database_api_impl.accounts_get_objects_subscribe]; exact h
    · exact h
  | get_full_accounts names subscribe =>
    exact database_api_impl.cap_get_full_accounts_loop env db subscribe names s [] h
  | subscribe_to_market cb a b =>
    simp only [api_call.apply, database_api_impl.subscribe_to_market]
    split <;> exact h
  | unsubscribe_from_market a b =>
    simp only [api_call.apply, database_api_impl.unsubscribe_from_market]
    split <;> exact h

theorem cap_run_calls (env : environment) (calls : List (database × api_call))
    (s : database_api_impl) (h : s._subscribed_accounts.length ≤ 100) :
    (run_calls env s calls)._subscribed_accounts.length ≤ 100 := by
  induction calls generalizing s with
  | nil => exact h
  | cons c rest ih =>
    obtain ⟨db, call⟩ := c
    unfold run_calls
    exact ih _ (cap_apply env db s call h)

theorem tracked_get_full_accounts_loop (env : environment) (db : database)
    (names : List String) (accounts : List account_object) (s : database_api_impl)
    (results : List (String × full_account))
    (hres : names.map (database_api_impl.resolve_account db)
        = accounts.map (fun a => Except.ok (some a)))
    (hnodup : (accounts.map account_object.get_id).Nodup)
    (hdisj : ∀ x ∈ accounts.map account_object.get_id, x ∉ s._subscribed_accounts)
    (hcap : s._subscribed_accounts.length ≤ 100) :
    (database_api_impl.get_full_accounts_loop env db true s results names).error = none
      ∧ (database_api_impl.get_full_accounts_loop env db true s results
            names).state._subscribed_accounts.length
          = min (s._subscribed_accounts.length + accounts.length) 100
      ∧ ∀ x, x ∈ (database_api_impl.get_full_accounts_loop env db true s results
            names).state._subscribed_accounts
          ↔ x ∈ s._subscribed_accounts
            ∨ x ∈ (accounts.map account_object.get_id).take
                (100 - s._subscribed_accounts.length) := by
  induction names generalizing accounts s results with
  | nil =>
    cases accounts with
    | nil =>
      refine ⟨rfl, ?_, ?_⟩
      · simp only [database_api_impl.get_full_accounts_loop, List.length_nil, Nat.add_zero]
        exact (Nat.min_eq_left hcap).symm
      · intro x
        simp [database_api_impl.get_full_accounts_loop]
    | cons a rest => simp at hres
  | cons name ns ih =>
    cases accounts with
    | nil => simp at hres
    | cons a rest =>
      simp only [List.map_cons, List.cons.injEq] at hres
      obtain ⟨hhead, htail⟩ := hres
      simp only [List.map_cons, List.nodup_cons] at hnodup
      obtain ⟨hnew, hnodup2⟩ := hnodup
      have ha : a.get_id ∉ s._subscribed_accounts :=
        hdisj a.get_id (by simp)
      have hstep : database_api_impl.get_full_accounts_loop env db true s results (name :: ns)
          = database_api_impl.get_full_accounts_loop env db true
              (database_api_impl.track_account env s a)
              (map_assign (fun x y => decide (x < y)) name ⟨a⟩ results) ns := by
        simp only [database_api_impl.get_full_accounts_loop, hhead, if_true]
      rw [hstep]
      have hacc := database_api_impl.accounts_track_account env s a
      by_cases hlt : s._subscribed_accounts.length < 100
      · rw [if_pos hlt] at hacc
        have hlen : (database_api_impl.track_account env s a)._subscribed_accounts.length
            = s._subscribed_accounts.length + 1 := by
          rw [hacc]; exact set_insert_length_of_not_mem _ _ ha
        have hdisj2 : ∀ x ∈ rest.map account_object.get_id,
            x ∉ (database_api_impl.track_account env s a)._subscribed_accounts := by
          intro x hx hmem
          rw [hacc, mem_set_insert] at hmem
          rcases hmem with h | h
          · exact hnew (h ▸ hx)
          · exact hdisj x (List.mem_cons_of_mem _ hx) h
        obtain ⟨e1, e2, e3⟩ := ih rest _ (map_assign (fun x y => decide (x < y)) name ⟨a⟩ results)
          htail hnodup2 hdisj2 (by omega)
        refine ⟨e1, ?_, ?_⟩
        · rw [e2, hlen, List.length_cons]
          congr 1
          omega
        · intro x
          rw [e3 x, hlen, hacc, mem_set_insert]
          have hk : 100 - s._subscribed_accounts.length
              = (100 - (s._subscribed_accounts.length + 1)) + 1 := by omega
          rw [hk, List.map_cons, List.take_succ_cons, List.mem_cons]
          constructor
          · rintro ((h | h) | h)
            · exact Or.inr (Or.inl h)
            · exact Or.inl h
            · exact Or.inr (Or.inr h)
          · rintro (h | h | h)
            · exact Or.inl (Or.inr h)
            · exact Or.inl (Or.inl h)
            · exact Or.inr h
      · rw [if_neg hlt] at hacc
        have hfull : s._subscribed_accounts.length = 100 := by omega
        have hdisj2 : ∀ x ∈ rest.map account_object.get_id,
            x ∉ (database_api_impl.track_account env s a)._subscribed_accounts := by
          intro x hx hmem
          rw [hacc] at hmem
          exact hdisj x (List.mem_cons_of_mem _ hx) hmem
        obtain ⟨e1, e2, e3⟩ := ih rest _ (map_assign (fun x y => decide (x < y)) name ⟨a⟩ results)
          htail hnodup2 hdisj2 (by rw [hacc]; exact hcap)
        refine ⟨e1, ?_, ?_⟩
        · rw [e2, hacc, hfull, List.length_cons]
          omega
        · intro x
          rw [e3 x, hacc, hfull]
          simp

/-- Claim C12. In every session reached from a new session by calls of the
session interface, at most 100 accounts are watched. Starting from a session
on which `set_subscribe_callback` has just succeeded,
`get_full_accounts(names, true)` over names that resolve to accounts with
distinct ids returns without error and leaves exactly `min n 100` watched
accounts: an id is watched exactly when it belongs to one of the first 100
accounts of the request, so the 101st and later accounts are not added, and
with 150 accounts exactly 100 are watched. -/
theorem C12_watched_accounts_capped (env : environment) (db : database)
    (s0 : database_api_impl) (cb : Option callback) (n : Bool) (names : List String)
    (accounts : List account_object)
    (hok : (s0.set_subscribe_callback env cb n).error = none)
    (hres : names.map (database_api_impl.resolve_account db)
        = accounts.map (fun a => Except.ok (some a)))
    (hnodup : (accounts.map account_object.get_id).Nodup) :
    (∀ (opts : Option application_options) (calls : List (database × api_call)),
        (run_calls env (database_api_impl.init opts) calls)._subscribed_accounts.length ≤ 100)
      ∧ ((s0.set_subscribe_callback env cb n).state.get_full_accounts env db names true).error
          = none
      ∧ ((s0.set_subscribe_callback env cb n).state.get_full_accounts env db names
            true).state._subscribed_accounts.length = min accounts.length 100
      ∧ (∀ x, x ∈ ((s0.set_subscribe_callback env cb n).state.get_full_accounts env db names
            true).state._subscribed_accounts
          ↔ x ∈ (accounts.map account_object.get_id).take 100)
      ∧ (∀ x ∈ (accounts.map account_object.get_id).drop 100,
          x ∉ ((s0.set_subscribe_callback env cb n).state.get_full_accounts env db names
            true).state._subscribed_accounts)
      ∧ (accounts.length = 150 →
          ((s0.set_subscribe_callback env cb n).state.get_full_accounts env db names
            true).state._subscribed_accounts.length = 100) := by
  have hfresh : (s0.set_subscribe_callback env cb n).state._subscribed_accounts = [] := by
    by_cases hfail : (n && !(s0.subscribe_to_all_enabled)) = true
    · simp [database_api_impl.set_subscribe_callback, hfail] at hok
    · simp [database_api_impl.set_subscribe_callback, hfail]
  obtain ⟨e1, e2, e3⟩ := tracked_get_full_accounts_loop env db names accounts
    (s0.set_subscribe_callback env cb n).state [] hres hnodup
    (by intro x _; rw [hfresh]; exact List.not_mem_nil x)
    (by rw [hfresh]; exact Nat.zero_le _)
  rw [hfresh] at e2 e3
  simp only [List.length_nil, Nat.zero_add, List.not_mem_nil, false_or, Nat.sub_zero] at e2 e3
  refine ⟨?_, e1, e2, e3, ?_, ?_⟩
  · intro opts calls
    exact cap_run_calls env calls _ (Nat.zero_le _)
  · intro x hx hmem
    have htake := (e3 x).mp hmem
    have hsplit : (accounts.map account_object.get_id).take 100
        ++ (accounts.map account_object.get_id).drop 100
        = accounts.map account_object.get_id := List.take_append_drop _ _
    rw [← hsplit] at hnodup
    exact (List.nodup_append.mp hnodup).2.2 htake hx
  · intro h150
    have e2b : ((s0.set_subscribe_callback env cb n).state.get_full_accounts env db names
        true).state._subscribed_accounts.length = min accounts.length 100 := e2
    rw [e2b, h150]
    rfl

set_option maxRecDepth 100000 in
theorem C12_watched_accounts_capped_witness :
    sample_accounts.length = 150
      ∧ ((sample_session.set_subscribe_callback sample_env (some 1) false).state.get_full_accounts
            sample_env sample_account_database sample_names true).error = none
      ∧ ((sample_session.set_subscribe_callback sample_env (some 1) false).state.get_full_accounts
            sample_env sample_account_database sample_names
            true).state._subscribed_accounts.length = 100
      ∧ (∀ x, x ∈ ((sample_session.set_subscribe_callback sample_env (some 1)
            false).state.get_full_accounts sample_env sample_account_database sample_names
            true).state._subscribed_accounts
          ↔ x ∈ (sample_accounts.map account_object.get_id).take 100) :=
  have h := C12_watched_accounts_capped sample_env sample_account_database sample_session
    (some 1) false sample_names sample_accounts (by decide) (by rfl) (by decide)
  ⟨rfl, h.2.1, h.2.2.2.2.2 rfl, h.2.2.2.1⟩

/-! ## Notification dispatcher -/

theorem collect_updates_eq_filterMap (env : environment) (s : database_api_impl)
    (force_notify full_object : Bool) (impacted_accounts : List account_id_type)
    (find_object : object_id_type → Option object) (ids : List object_id_type) :
    database_api_impl.collect_updates env s force_notify full_object impacted_accounts
        find_object ids
      = ids.filterMap (database_api_impl.update_item env s force_notify full_object
          impacted_accounts find_object) := by
  induction ids with
  | nil => rfl
  | cons id rest ih =>
    simp only [database_api_impl.collect_updates, List.filterMap_cons,
      database_api_impl.update_item, ih]
    split
    · split
      · split <;> rfl
      · rfl
    · rfl

theorem filterMap_broadcast_market_updates (queue : market_queue_type) :
    (database_api_impl.broadcast_market_updates queue).filterMap (fun t =>
        match t with
        | async_task.updates updates => some updates
        | async_task.market_updates _ => none) = [] := by
  unfold database_api_impl.broadcast_market_updates
  split <;> rfl

theorem filterMap_market_part (queue : market_queue_type) :
    (if queue.length ≠ 0 then database_api_impl.broadcast_market_updates queue
      else []).filterMap (fun t =>
        match t with
        | async_task.updates updates => some updates
        | async_task.market_updates _ => none) = [] := by
  by_cases hq : queue.length ≠ 0
  · rw [if_pos hq]
    exact filterMap_broadcast_market_updates queue
  · rw [if_neg hq]
    rfl

theorem generic_updates_handle_object_changed (env : environment) (s : database_api_impl)
    (force_notify full_object : Bool) (ids : List object_id_type)
    (impacted_accounts : List account_id_type) (find_object : object_id_type → Option object) :
    (s.handle_object_changed env force_notify full_object ids impacted_accounts
        find_object).generic_updates
      = if s._subscribe_callback.isSome = true
            ∧ database_api_impl.collect_updates env s force_notify full_object
                impacted_accounts find_object ids ≠ []
        then [database_api_impl.collect_updates env s force_notify full_object
                impacted_accounts find_object ids]
        else [] := by
  have hgen : (if s._subscribe_callback.isSome = true then
        (if (database_api_impl.collect_updates env s force_notify full_object impacted_accounts
            find_object ids).length ≠ 0
          then s.broadcast_updates (database_api_impl.collect_updates env s force_notify
            full_object impacted_accounts find_object ids)
          else [])
        else []).filterMap (fun t =>
          match t with
          | async_task.updates updates => some updates
          | async_task.market_updates _ => none)
      = if s._subscribe_callback.isSome = true
            ∧ database_api_impl.collect_updates env s force_notify full_object
                impacted_accounts find_object ids ≠ []
        then [database_api_impl.collect_updates env s force_notify full_object
                impacted_accounts find_object ids]
        else [] := by
    by_cases hcb : s._subscribe_callback.isSome = true
    · by_cases hne : database_api_impl.collect_updates env s force_notify full_object
          impacted_accounts find_object ids = []
      · simp [hcb, hne]
      · have hlen : (database_api_impl.collect_updates env s force_notify full_object
            impacted_accounts find_object ids).length ≠ 0 :=
          fun h0 => hne (List.length_eq_zero.mp h0)
        simp [hcb, hne, hlen, database_api_impl.broadcast_updates]
    · simp [hcb]
  unfold handler_result.generic_updates database_api_impl.handle_object_changed
  simp only
  split
  · split
    · exact hgen
    · rw [List.filterMap_append, hgen, filterMap_market_part, List.append_nil]
  · exact hgen

theorem update_item_isSome (env : environment) (s : database_api_impl)
    (force_notify full_object : Bool) (impacted_accounts : List account_id_type)
    (find_object : object_id_type → Option object) (id : object_id_type) :
    (database_api_impl.update_item env s force_notify full_object impacted_accounts
        find_object id).isSome = true
      ↔ (force_notify = true ∨ s.is_subscribed_to_item env (env.pack id) = true
          ∨ s.is_impacted_account impacted_accounts = true)
        ∧ (full_object = true → find_object id ≠ none) := by
  unfold database_api_impl.update_item
  by_cases hc : (force_notify || s.is_subscribed_to_item env (env.pack id)
      || s.is_impacted_account impacted_accounts) = true
  · have hc2 : force_notify = true ∨ s.is_subscribed_to_item env (env.pack id) = true
        ∨ s.is_impacted_account impacted_accounts = true := by
      simpa [Bool.or_eq_true, or_assoc] using hc
    rw [if_pos hc]
    cases full_object with
    | true =>
      cases hf : find_object id with
      | none => simp
      | some obj => simp [hc2]
    | false => simp [hc2]
  · have hc2 : ¬ (force_notify = true ∨ s.is_subscribed_to_item env (env.pack id) = true
        ∨ s.is_impacted_account impacted_accounts = true) := by
      simpa [Bool.or_eq_true, or_assoc] using hc
    rw [if_neg hc]
    simp [hc2]

/-- Claim C13, as the code has it. In a session with a callback installed, the
update list of `handle_object_changed` is made of the items of the ids of the
batch, in batch order, at most one item per occurrence of an id. An occurrence
contributes its item if and only if `force_notify` is true, or
`is_subscribed_to_item(id)` is true, or `is_impacted_account(impacted_accounts)`
is true, and moreover, when `full_object` is true, the resolver finds the
object. The list has as many items as the batch has contributing occurrences,
and it is what the one generic delivery carries. -/
theorem C13_decision_rule (env : environment) (s : database_api_impl) (cb : callback)
    (force_notify full_object : Bool) (ids : List object_id_type)
    (impacted_accounts : List account_id_type) (find_object : object_id_type → Option object)
    (hcb : s._subscribe_callback = some cb) :
    database_api_impl.collect_updates env s force_notify full_object impacted_accounts
        find_object ids
      = ids.filterMap (database_api_impl.update_item env s force_notify full_object
          impacted_accounts find_object)
      ∧ (∀ id, (database_api_impl.update_item env s force_notify full_object impacted_accounts
            find_object id).isSome = true
          ↔ (force_notify = true ∨ s.is_subscribed_to_item env (env.pack id) = true
              ∨ s.is_impacted_account impacted_accounts = true)
            ∧ (full_object = true → find_object id ≠ none))
      ∧ (database_api_impl.collect_updates env s force_notify full_object impacted_accounts
            find_object ids).length
          = ids.countP (fun id => (database_api_impl.update_item env s force_notify full_object
              impacted_accounts find_object id).isSome)
      ∧ (s.handle_object_changed env force_notify full_object ids impacted_accounts
            find_object).generic_updates
          = if database_api_impl.collect_updates env s force_notify full_object
                impacted_accounts find_object ids = [] then []
            else [database_api_impl.collect_updates env s force_notify full_object
                impacted_accounts find_object ids] := by
  refine ⟨collect_updates_eq_filterMap env s _ _ _ _ ids, ?_, ?_, ?_⟩
  · intro id
    exact update_item_isSome env s _ _ _ _ id
  · rw [collect_updates_eq_filterMap]
    induction ids with
    | nil => rfl
    | cons id rest ih =>
      rw [List.filterMap_cons, List.countP_cons]
      cases hitem : database_api_impl.update_item env s force_notify full_object
          impacted_accounts find_object id with
      | none => simp [ih]
      | some v => simp [ih]
  · rw [generic_updates_handle_object_changed]
    by_cases hne : database_api_impl.collect_updates env s force_notify full_object
        impacted_accounts find_object ids = []
    · simp [hne]
    · simp [hne, hcb]

theorem C13_decision_rule_witness :
    (database_api_impl.collect_updates sample_env sample_session true true [3]
        sample_database.find_object [⟨1, 7, 0⟩, ⟨1, 2, 0⟩, ⟨1, 7, 0⟩]
      = [variant.of_object ⟨⟨1, 7, 0⟩, object_kind.limit_order 2 1⟩,
         variant.of_object ⟨⟨1, 7, 0⟩, object_kind.limit_order 2 1⟩])
      ∧ (database_api_impl.collect_updates sample_env sample_session true true [3]
            sample_database.find_object [⟨1, 7, 0⟩, ⟨1, 2, 0⟩, ⟨1, 7, 0⟩]
          = [⟨1, 7, 0⟩, ⟨1, 2, 0⟩, ⟨1, 7, 0⟩].filterMap
              (database_api_impl.update_item sample_env sample_session true true [3]
                sample_database.find_object)
        ∧ (∀ id, (database_api_impl.update_item sample_env sample_session true true [3]
              sample_database.find_object id).isSome = true
            ↔ (true = true ∨ sample_session.is_subscribed_to_item sample_env
                  (sample_env.pack id) = true
                ∨ sample_session.is_impacted_account [3] = true)
              ∧ (true = true → sample_database.find_object id ≠ none))
        ∧ (database_api_impl.collect_updates sample_env sample_session true true [3]
              sample_database.find_object [⟨1, 7, 0⟩, ⟨1, 2, 0⟩, ⟨1, 7, 0⟩]).length
            = [⟨1, 7, 0⟩, ⟨1, 2, 0⟩, ⟨1, 7, 0⟩].countP
                (fun id => (database_api_impl.update_item sample_env sample_session true true [3]
                  sample_database.find_object id).isSome)
        ∧ (sample_session.handle_object_changed sample_env true true
              [⟨1, 7, 0⟩, ⟨1, 2, 0⟩, ⟨1, 7, 0⟩] [3] sample_database.find_object).generic_updates
            = if database_api_impl.collect_updates sample_env sample_session true true [3]
                  sample_database.find_object [⟨1, 7, 0⟩, ⟨1, 2, 0⟩, ⟨1, 7, 0⟩] = [] then []
              else [database_api_impl.collect_updates sample_env sample_session true true [3]
                  sample_database.find_object [⟨1, 7, 0⟩, ⟨1, 2, 0⟩, ⟨1, 7, 0⟩]]) :=
  ⟨by decide,
    C13_decision_rule sample_env sample_session 5 true true [⟨1, 7, 0⟩, ⟨1, 2, 0⟩, ⟨1, 7, 0⟩]
      [3] sample_database.find_object rfl⟩

/-- Claim C13 as stated fails. With `force_notify` true and `full_object` true,
an id of the batch that the resolver does not find meets the criterion of the
claim and yet contributes no item: the update list is empty and nothing is
delivered. -/
theorem C13_forced_id_without_object_contributes_nothing :
    database_api_impl.collect_updates sample_env sample_session true true []
        empty_database.find_object [⟨1, 2, 0⟩] = []
      ∧ database_api_impl.update_item sample_env sample_session true true []
          empty_database.find_object ⟨1, 2, 0⟩ = none
      ∧ (sample_session.handle_object_changed sample_env true true [⟨1, 2, 0⟩] []
          empty_database.find_object).generic_updates = [] := by
  decide

/-- Claim C14. A call of `handle_object_changed` schedules at most one generic
delivery. It schedules one exactly when a callback is installed and the update
list built from the batch is not empty, and that delivery carries the whole
list. The list holds the items of the ids in batch order: it is the
concatenation, id by id, of what each id contributes, so the list of a batch
split in two is the list of the first part followed by that of the second. -/
theorem C14_single_generic_delivery (env : environment) (s : database_api_impl)
    (force_notify full_object : Bool) (ids : List object_id_type)
    (impacted_accounts : List account_id_type)
    (find_object : object_id_type → Option object) :
    (s.handle_object_changed env force_notify full_object ids impacted_accounts
        find_object).generic_updates.length ≤ 1
      ∧ ((s.handle_object_changed env force_notify full_object ids impacted_accounts
            find_object).generic_updates.length = 1
          ↔ s._subscribe_callback.isSome = true
            ∧ database_api_impl.collect_updates env s force_notify full_object
                impacted_accounts find_object ids ≠ [])
      ∧ (∀ updates ∈ (s.handle_object_changed env force_notify full_object ids
            impacted_accounts find_object).generic_updates,
          updates = database_api_impl.collect_updates env s force_notify full_object
            impacted_accounts find_object ids)
      ∧ database_api_impl.collect_updates env s force_notify full_object impacted_accounts
            find_object ids
          = ids.filterMap (database_api_impl.update_item env s force_notify full_object
              impacted_accounts find_object)
      ∧ (∀ ids1 ids2, database_api_impl.collect_updates env s force_notify full_object
            impacted_accounts find_object (ids1 ++ ids2)
          = database_api_impl.collect_updates env s force_notify full_object
              impacted_accounts find_object ids1
            ++ database_api_impl.collect_updates env s force_notify full_object
              impacted_accounts find_object ids2)
      ∧ ((s.handle_object_changed env force_notify full_object ids impacted_accounts
            find_object).scheduled.filter (fun t => t.is_generic)).length
          = (s.handle_object_changed env force_notify full_object ids impacted_accounts
            find_object).generic_updates.length := by
  have hg := generic_updates_handle_object_changed env s force_notify full_object ids
    impacted_accounts find_object
  refine ⟨?_, ?_, ?_, collect_updates_eq_filterMap env s _ _ _ _ ids, ?_, ?_⟩
  · rw [hg]
    split <;> simp
  · rw [hg]
    split
    · rename_i h
      simp [h]
    · rename_i h
      simp only [List.length_nil]
      constructor
      · intro h0
        exact absurd h0 (by decide)
      · intro h1
        exact absurd h1 h
  · intro updates hmem
    rw [hg] at hmem
    split at hmem
    · exact List.mem_singleton.mp hmem
    · exact absurd hmem (List.not_mem_nil _)
  · intro ids1 ids2
    simp only [collect_updates_eq_filterMap, List.filterMap_append]
  · unfold handler_result.generic_updates
    generalize (s.handle_object_changed env force_notify full_object ids impacted_accounts
      find_object).scheduled = tasks
    induction tasks with
    | nil => rfl
    | cons t rest ih =>
      cases t with
      | updates u => simpa [async_task.is_generic] using ih
      | market_updates q => simpa [async_task.is_generic] using ih

/-! ## The three change signals -/

theorem collect_updates_forced_full (env : environment) (s : database_api_impl)
    (impacted_accounts : List account_id_type) (find_object : object_id_type → Option object)
    (ids : List object_id_type) :
    database_api_impl.collect_updates env s true true impacted_accounts find_object ids
      = ids.filterMap (fun id => (find_object id).map object.to_variant) := by
  induction ids with
  | nil => rfl
  | cons id rest ih =>
    simp only [database_api_impl.collect_updates, List.filterMap_cons, ih, Bool.true_or,
      if_true]
    cases find_object id <;> rfl

theorem collect_updates_forced_bare (env : environment) (s : database_api_impl)
    (impacted_accounts : List account_id_type) (find_object : object_id_type → Option object)
    (ids : List object_id_type) :
    database_api_impl.collect_updates env s true false impacted_accounts find_object ids
      = ids.map variant.of_id := by
  induction ids with
  | nil => rfl
  | cons id rest ih =>
    simp [database_api_impl.collect_updates, ih]

theorem collect_updates_unforced_full (env : environment) (s : database_api_impl)
    (impacted_accounts : List account_id_type) (find_object : object_id_type → Option object)
    (ids : List object_id_type) :
    database_api_impl.collect_updates env s false true impacted_accounts find_object ids
      = (ids.filter (fun id => s.is_subscribed_to_item env (env.pack id)
            || s.is_impacted_account impacted_accounts)).filterMap
          (fun id => (find_object id).map object.to_variant) := by
  induction ids with
  | nil => rfl
  | cons id rest ih =>
    simp only [database_api_impl.collect_updates, Bool.false_or, List.filter_cons, ih]
    by_cases hit : (s.is_subscribed_to_item env (env.pack id)
        || s.is_impacted_account impacted_accounts) = true
    · simp only [hit, if_true, List.filterMap_cons]
      cases find_object id <;> rfl
    · simp only [hit, Bool.false_eq_true, if_false]

theorem collect_updates_unforced_bare (env : environment) (s : database_api_impl)
    (impacted_accounts : List account_id_type) (find_object : object_id_type → Option object)
    (ids : List object_id_type) :
    database_api_impl.collect_updates env s false false impacted_accounts find_object ids
      = (ids.filter (fun id => s.is_subscribed_to_item env (env.pack id)
            || s.is_impacted_account impacted_accounts)).map variant.of_id := by
  induction ids with
  | nil => rfl
  | cons id rest ih =>
    simp only [database_api_impl.collect_updates, Bool.false_or, List.filter_cons, ih]
    by_cases hit : (s.is_subscribed_to_item env (env.pack id)
        || s.is_impacted_account impacted_accounts) = true
    · simp only [hit, if_true, List.map_cons]
      rfl
    · simp only [hit, Bool.false_eq_true, if_false]

theorem collect_updates_flag (env : environment) (s : database_api_impl) (flag : Bool)
    (force_notify full_object : Bool) (impacted_accounts : List account_id_type)
    (find_object : object_id_type → Option object) (ids : List object_id_type) :
    database_api_impl.collect_updates env { s with _notify_remove_create := flag }
        force_notify full_object impacted_accounts find_object ids
      = database_api_impl.collect_updates env s force_notify full_object impacted_accounts
        find_object ids := by
  induction ids with
  | nil => rfl
  | cons id rest ih =>
    simp only [database_api_impl.collect_updates, ih]
    rfl

theorem collect_market_flag (env : environment) (s : database_api_impl) (flag : Bool)
    (full_object : Bool) (find_object : object_id_type → Option object)
    (ids : List object_id_type) (queue : market_queue_type) :
    database_api_impl.collect_market env { s with _notify_remove_create := flag }
        full_object find_object queue ids
      = database_api_impl.collect_market env s full_object find_object queue ids := by
  induction ids generalizing queue with
  | nil => rfl
  | cons id rest ih =>
    simp only [database_api_impl.collect_market, ih]
    rfl

theorem handle_object_changed_flag (env : environment) (s : database_api_impl) (flag : Bool)
    (force_notify full_object : Bool) (ids : List object_id_type)
    (impacted_accounts : List account_id_type) (find_object : object_id_type → Option object) :
    database_api_impl.handle_object_changed env { s with _notify_remove_create := flag }
        force_notify full_object ids impacted_accounts find_object
      = s.handle_object_changed env force_notify full_object ids impacted_accounts
        find_object := by
  unfold database_api_impl.handle_object_changed
  rw [collect_updates_flag, collect_market_flag]
  rfl

theorem generic_updates_with_callback (env : environment) (s : database_api_impl)
    (cb : callback) (hcb : s._subscribe_callback = some cb)
    (force_notify full_object : Bool) (ids : List object_id_type)
    (impacted_accounts : List account_id_type) (find_object : object_id_type → Option object) :
    (s.handle_object_changed env force_notify full_object ids impacted_accounts
        find_object).generic_updates
      = if database_api_impl.collect_updates env s force_notify full_object
            impacted_accounts find_object ids = [] then []
        else [database_api_impl.collect_updates env s force_notify full_object
            impacted_accounts find_object ids] := by
  rw [generic_updates_handle_object_changed]
  by_cases hne : database_api_impl.collect_updates env s force_notify full_object
      impacted_accounts find_object ids = []
  · simp [hne]
  · simp [hne, hcb]

/-- Claim C15. In a session with a callback installed: `on_objects_changed` does
not read the notify flag, so it does the same with the flag set or unset, and
what it delivers are the objects found for the ids that hit the filter or the
watched accounts. With the flag set, `on_objects_new` delivers the object of
every id of the batch that the store resolves, and `on_objects_removed`
delivers every id of the batch. With the flag unset, both deliver only for the
ids that hit the filter or the watched accounts. In each case the delivery is
made only if the list is not empty. -/
theorem C15_force_notify_gating (env : environment) (db : database) (s : database_api_impl)
    (cb : callback) (ids : List object_id_type) (impacted_accounts : List account_id_type)
    (objs : List (Option object)) (hcb : s._subscribe_callback = some cb) :
    (∀ flag, database_api_impl.on_objects_changed env db { s with _notify_remove_create := flag }
          ids impacted_accounts
        = s.on_objects_changed env db ids impacted_accounts)
      ∧ (s.on_objects_changed env db ids impacted_accounts).generic_updates
          = (if (ids.filter (fun id => s.is_subscribed_to_item env (env.pack id)
                  || s.is_impacted_account impacted_accounts)).filterMap
                (fun id => (db.find_object id).map object.to_variant) = [] then []
            else [(ids.filter (fun id => s.is_subscribed_to_item env (env.pack id)
                  || s.is_impacted_account impacted_accounts)).filterMap
                (fun id => (db.find_object id).map object.to_variant)])
      ∧ (s._notify_remove_create = true →
          (s.on_objects_new env db ids impacted_accounts).generic_updates
              = (if ids.filterMap (fun id => (db.find_object id).map object.to_variant) = []
                  then []
                else [ids.filterMap (fun id => (db.find_object id).map object.to_variant)])
            ∧ (s.on_objects_removed env ids objs impacted_accounts).generic_updates
              = (if ids.map variant.of_id = [] then [] else [ids.map variant.of_id]))
      ∧ (s._notify_remove_create = false →
          (s.on_objects_new env db ids impacted_accounts).generic_updates
              = (if (ids.filter (fun id => s.is_subscribed_to_item env (env.pack id)
                      || s.is_impacted_account impacted_accounts)).filterMap
                    (fun id => (db.find_object id).map object.to_variant) = [] then []
                else [(ids.filter (fun id => s.is_subscribed_to_item env (env.pack id)
                      || s.is_impacted_account impacted_accounts)).filterMap
                    (fun id => (db.find_object id).map object.to_variant)])
            ∧ (s.on_objects_removed env ids objs impacted_accounts).generic_updates
              = (if (ids.filter (fun id => s.is_subscribed_to_item env (env.pack id)
                      || s.is_impacted_account impacted_accounts)).map variant.of_id = []
                  then []
                else [(ids.filter (fun id => s.is_subscribed_to_item env (env.pack id)
                      || s.is_impacted_account impacted_accounts)).map variant.of_id])) := by
  refine ⟨?_, ?_, ?_, ?_⟩
  · intro flag
    unfold database_api_impl.on_objects_changed
    exact handle_object_changed_flag env s flag false true ids impacted_accounts _
  · unfold database_api_impl.on_objects_changed
    rw [generic_updates_with_callback env s cb hcb, collect_updates_unforced_full]
  · intro hflag
    unfold database_api_impl.on_objects_new database_api_impl.on_objects_removed
    rw [hflag, generic_updates_with_callback env s cb hcb,
      generic_updates_with_callback env s cb hcb, collect_updates_forced_full,
      collect_updates_forced_bare]
    exact ⟨rfl, rfl⟩
  · intro hflag
    unfold database_api_impl.on_objects_new database_api_impl.on_objects_removed
    rw [hflag, generic_updates_with_callback env s cb hcb,
      generic_updates_with_callback env s cb hcb, collect_updates_unforced_full,
      collect_updates_unforced_bare]
    exact ⟨rfl, rfl⟩

theorem C15_force_notify_gating_witness :
    (sample_session_notify.on_objects_new sample_env sample_database [⟨1, 7, 0⟩, ⟨1, 2, 4⟩]
        []).generic_updates
        = [[variant.of_object ⟨⟨1, 7, 0⟩, object_kind.limit_order 2 1⟩]]
      ∧ (sample_session_all.on_objects_new sample_env sample_database [⟨1, 7, 0⟩, ⟨1, 2, 4⟩]
          []).generic_updates = []
      ∧ (sample_session_notify.on_objects_changed sample_env sample_database
          [⟨1, 7, 0⟩, ⟨1, 2, 4⟩] []).generic_updates = []
      ∧ ((sample_session_notify.on_objects_new sample_env sample_database
            [⟨1, 7, 0⟩, ⟨1, 2, 4⟩] []).generic_updates
          = (if [⟨1, 7, 0⟩, ⟨1, 2, 4⟩].filterMap
                (fun id => (sample_database.find_object id).map object.to_variant) = []
              then []
            else [[⟨1, 7, 0⟩, ⟨1, 2, 4⟩].filterMap
                (fun id => (sample_database.find_object id).map object.to_variant)])
        ∧ (sample_session_notify.on_objects_removed sample_env [⟨1, 7, 0⟩, ⟨1, 2, 4⟩]
            [some ⟨⟨1, 7, 0⟩, object_kind.limit_order 2 1⟩] []).generic_updates
          = (if [⟨1, 7, 0⟩, ⟨1, 2, 4⟩].map variant.of_id = [] then []
            else [[⟨1, 7, 0⟩, ⟨1, 2, 4⟩].map variant.of_id])) :=
  ⟨by decide, by decide, by decide,
    (C15_force_notify_gating sample_env sample_database sample_session_notify 5
      [⟨1, 7, 0⟩, ⟨1, 2, 4⟩] [] [some ⟨⟨1, 7, 0⟩, object_kind.limit_order 2 1⟩] rfl).2.2.1 rfl⟩

/-- Claim C16. In a session with a callback that is watching the id `x`,
`on_objects_removed` on a batch containing `x` schedules one generic delivery;
its list holds the bare id `x`, every item of it is the bare id of an id of the
batch and none is a full object, and the list is fixed by the batch, the
session and the impacted accounts alone: neither the store nor the removal
snapshots are consulted for it. `on_objects_new` and `on_objects_changed`
deliver, for each item, the full representation of the object that the live
lookup of an id of the batch finds; when the live lookup finds the object of
`x`, each of them schedules one generic delivery and its list holds the full
representation of that object. -/
theorem C16_removal_delivers_tombstones (env : environment) (s : database_api_impl)
    (cb : callback) (x : object_id_type) (ids : List object_id_type)
    (objs : List (Option object)) (impacted_accounts : List account_id_type)
    (hcb : s._subscribe_callback = some cb)
    (hwatch : s.is_subscribed_to_item env (env.pack x) = true) (hx : x ∈ ids) :
    (s.on_objects_removed env ids objs impacted_accounts).generic_updates
        = [database_api_impl.collect_updates env s s._notify_remove_create false
            impacted_accounts (database_api_impl.find_removed objs) ids]
      ∧ variant.of_id x ∈ database_api_impl.collect_updates env s s._notify_remove_create false
          impacted_accounts (database_api_impl.find_removed objs) ids
      ∧ (∀ v ∈ database_api_impl.collect_updates env s s._notify_remove_create false
            impacted_accounts (database_api_impl.find_removed objs) ids,
          (∃ id ∈ ids, v = variant.of_id id) ∧ ∀ obj, v ≠ variant.of_object obj)
      ∧ (∀ (find_object : object_id_type → Option object),
          database_api_impl.collect_updates env s s._notify_remove_create false
              impacted_accounts find_object ids
            = database_api_impl.collect_updates env s s._notify_remove_create false
              impacted_accounts (database_api_impl.find_removed objs) ids)
      ∧ (∀ objs2, (s.on_objects_removed env ids objs2 impacted_accounts).generic_updates
          = (s.on_objects_removed env ids objs impacted_accounts).generic_updates)
      ∧ (∀ (db : database),
          (∀ updates ∈ (s.on_objects_new env db ids impacted_accounts).generic_updates,
            ∀ v ∈ updates, ∃ id ∈ ids, ∃ obj, db.find_object id = some obj
              ∧ v = obj.to_variant)
          ∧ (∀ updates ∈ (s.on_objects_changed env db ids impacted_accounts).generic_updates,
            ∀ v ∈ updates, ∃ id ∈ ids, ∃ obj, db.find_object id = some obj
              ∧ v = obj.to_variant))
      ∧ (∀ (db : database) (obj : object), db.find_object x = some obj →
          (s.on_objects_new env db ids impacted_accounts).generic_updates
              = [database_api_impl.collect_updates env s s._notify_remove_create true
                  impacted_accounts db.find_object ids]
            ∧ obj.to_variant ∈ database_api_impl.collect_updates env s s._notify_remove_create
                true impacted_accounts db.find_object ids
            ∧ (s.on_objects_changed env db ids impacted_accounts).generic_updates
              = [database_api_impl.collect_updates env s false true impacted_accounts
                  db.find_object ids]
            ∧ obj.to_variant ∈ database_api_impl.collect_updates env s false true
                impacted_accounts db.find_object ids) := by
  have hbare : ∀ (find_object : object_id_type → Option object),
      database_api_impl.collect_updates env s s._notify_remove_create false
          impacted_accounts find_object ids
        = (ids.filter (fun id => s._notify_remove_create
            || (s.is_subscribed_to_item env (env.pack id)
              || s.is_impacted_account impacted_accounts))).map variant.of_id := by
    intro find_object
    cases hflag : s._notify_remove_create with
    | true =>
      rw [collect_updates_forced_bare]
      simp
    | false =>
      rw [collect_updates_unforced_bare]
      simp
  have hmem : variant.of_id x ∈ database_api_impl.collect_updates env s
      s._notify_remove_create false impacted_accounts (database_api_impl.find_removed objs)
      ids :=
    (collect_updates_mem env s s._notify_remove_create false impacted_accounts
      (database_api_impl.find_removed objs) x hwatch ids hx).1 rfl
  have hfull : ∀ (force_notify : Bool) (find_object : object_id_type → Option object),
      ∀ v ∈ database_api_impl.collect_updates env s force_notify true impacted_accounts
          find_object ids,
        ∃ id ∈ ids, ∃ obj, find_object id = some obj ∧ v = obj.to_variant := by
    intro force_notify find_object v hv
    rw [collect_updates_eq_filterMap, List.mem_filterMap] at hv
    obtain ⟨id, hid, hitem⟩ := hv
    refine ⟨id, hid, ?_⟩
    unfold database_api_impl.update_item at hitem
    split at hitem
    · simp only [if_true] at hitem
      cases hf : find_object id with
      | none => simp [hf] at hitem
      | some obj =>
        simp only [hf, Option.some.injEq] at hitem
        exact ⟨obj, rfl, hitem.symm⟩
    · exact Option.noConfusion hitem
  have hfound : ∀ (force_notify : Bool) (db : database) (obj : object),
      db.find_object x = some obj →
      obj.to_variant ∈ database_api_impl.collect_updates env s force_notify true
        impacted_accounts db.find_object ids :=
    fun force_notify db obj hobj =>
      (collect_updates_mem env s force_notify true impacted_accounts db.find_object x hwatch
        ids hx).2 obj rfl hobj
  refine ⟨?_, hmem, ?_, ?_, ?_, ?_, ?_⟩
  · unfold database_api_impl.on_objects_removed
    rw [generic_updates_with_callback env s cb hcb, if_neg (List.ne_nil_of_mem hmem)]
  · intro v hv
    rw [hbare, List.mem_map] at hv
    obtain ⟨id, hid, hv2⟩ := hv
    refine ⟨⟨id, (List.mem_filter.mp hid).1, hv2.symm⟩, ?_⟩
    intro obj hobj
    rw [← hv2] at hobj
    exact variant.noConfusion hobj
  · intro find_object
    rw [hbare, hbare]
  · intro objs2
    unfold database_api_impl.on_objects_removed
    rw [generic_updates_with_callback env s cb hcb, generic_updates_with_callback env s cb hcb,
      hbare, hbare]
  · intro db
    constructor
    · intro updates hu v hv
      unfold database_api_impl.on_objects_new at hu
      rw [generic_updates_with_callback env s cb hcb] at hu
      split at hu
      · exact absurd hu (List.not_mem_nil _)
      · rw [List.mem_singleton.mp hu] at hv
        exact hfull _ _ v hv
    · intro updates hu v hv
      unfold database_api_impl.on_objects_changed at hu
      rw [generic_updates_with_callback env s cb hcb] at hu
      split at hu
      · exact absurd hu (List.not_mem_nil _)
      · rw [List.mem_singleton.mp hu] at hv
        exact hfull _ _ v hv
  · intro db obj hobj
    refine ⟨?_, hfound _ db obj hobj, ?_, hfound _ db obj hobj⟩
    · unfold database_api_impl.on_objects_new
      rw [generic_updates_with_callback env s cb hcb,
        if_neg (List.ne_nil_of_mem (hfound _ db obj hobj))]
    · unfold database_api_impl.on_objects_changed
      rw [generic_updates_with_callback env s cb hcb,
        if_neg (List.ne_nil_of_mem (hfound _ db obj hobj))]

/-- Witness of C16 on the session that tracks the id `1.7.0`: the removal
delivers the bare id with no snapshot and no store, the creation and the change
deliver the limit order that the store holds under that id. -/
theorem C16_removal_delivers_tombstones_witness :
    (sample_session_tracking.on_objects_removed sample_env [⟨1, 7, 0⟩] [] []).generic_updates
        = [[variant.of_id ⟨1, 7, 0⟩]]
      ∧ (sample_session_tracking.on_objects_new sample_env sample_database [⟨1, 7, 0⟩]
          []).generic_updates
        = [[variant.of_object ⟨⟨1, 7, 0⟩, object_kind.limit_order 2 1⟩]]
      ∧ (sample_session_tracking.on_objects_changed sample_env sample_database [⟨1, 7, 0⟩]
          []).generic_updates
        = [[variant.of_object ⟨⟨1, 7, 0⟩, object_kind.limit_order 2 1⟩]]
      ∧ ((sample_session_tracking.on_objects_removed sample_env [⟨1, 7, 0⟩] []
            []).generic_updates
          = [database_api_impl.collect_updates sample_env sample_session_tracking
              sample_session_tracking._notify_remove_create false []
              (database_api_impl.find_removed []) [⟨1, 7, 0⟩]]
        ∧ variant.of_id ⟨1, 7, 0⟩ ∈ database_api_impl.collect_updates sample_env
            sample_session_tracking sample_session_tracking._notify_remove_create false []
            (database_api_impl.find_removed []) [⟨1, 7, 0⟩]) :=
  have h := C16_removal_delivers_tombstones sample_env sample_session_tracking 5 ⟨1, 7, 0⟩
    [⟨1, 7, 0⟩] [] [] rfl (by decide) (by decide)
  ⟨by decide, by decide, by decide, h.1, h.2.1⟩

/-- Claim C17. A session with a callback, no market subscription and no watched
account tracks the id `O1`, and its filter probes negative for `O2`. When the
block signals `on_objects_new([O1], A)` with `O1` in the store and
`on_objects_changed([O2], B)`, both handlers return without error and together
they schedule exactly one task: the generic delivery of the list holding the
full representation of `O1` and nothing else. -/
theorem C17_end_to_end (env : environment) (db : database) (s : database_api_impl)
    (cb : callback) (O1 O2 : object_id_type) (obj1 : object)
    (A B : List account_id_type)
    (hcb : s._subscribe_callback = some cb) (hmarkets : s._market_subscriptions = [])
    (hwatched : s._subscribed_accounts = [])
    (h1 : s.is_subscribed_to_item env (env.pack O1) = true)
    (h2 : s.is_subscribed_to_item env (env.pack O2) = false)
    (hstore : db.find_object O1 = some obj1) :
    (s.on_objects_new env db [O1] A).scheduled ++ (s.on_objects_changed env db [O2] B).scheduled
        = [async_task.updates [obj1.to_variant]]
      ∧ (s.on_objects_new env db [O1] A).scheduled = [async_task.updates [obj1.to_variant]]
      ∧ (s.on_objects_changed env db [O2] B).scheduled = []
      ∧ (s.on_objects_new env db [O1] A).error = none
      ∧ (s.on_objects_changed env db [O2] B).error = none := by
  have himp : ∀ (accounts : List account_id_type), s.is_impacted_account accounts = false := by
    intro accounts
    simp [database_api_impl.is_impacted_account, hwatched]
  have hnew : s.on_objects_new env db [O1] A
      = ⟨[async_task.updates [obj1.to_variant]], none⟩ := by
    simp [database_api_impl.on_objects_new, database_api_impl.handle_object_changed,
      database_api_impl.collect_updates, database_api_impl.broadcast_updates, hcb, hmarkets,
      h1, hstore]
  have hchanged : s.on_objects_changed env db [O2] B = ⟨[], none⟩ := by
    simp [database_api_impl.on_objects_changed, database_api_impl.handle_object_changed,
      database_api_impl.collect_updates, hcb, hmarkets, h2, himp]
  rw [hnew, hchanged]
  exact ⟨rfl, rfl, rfl, rfl, rfl⟩

theorem C17_end_to_end_witness :
    (sample_session_tracking.on_objects_new sample_env sample_database [⟨1, 7, 0⟩] [3]).scheduled
          ++ (sample_session_tracking.on_objects_changed sample_env sample_database
              [⟨1, 2, 0⟩] [4]).scheduled
        = [async_task.updates [object.to_variant ⟨⟨1, 7, 0⟩, object_kind.limit_order 2 1⟩]]
      ∧ (sample_session_tracking.on_objects_new sample_env sample_database
          [⟨1, 7, 0⟩] [3]).scheduled
        = [async_task.updates [object.to_variant ⟨⟨1, 7, 0⟩, object_kind.limit_order 2 1⟩]]
      ∧ (sample_session_tracking.on_objects_changed sample_env sample_database
          [⟨1, 2, 0⟩] [4]).scheduled = []
      ∧ (sample_session_tracking.on_objects_new sample_env sample_database
          [⟨1, 7, 0⟩] [3]).error = none
      ∧ (sample_session_tracking.on_objects_changed sample_env sample_database
          [⟨1, 2, 0⟩] [4]).error = none :=
  C17_end_to_end sample_env sample_database sample_session_tracking 5 ⟨1, 7, 0⟩ ⟨1, 2, 0⟩
    ⟨⟨1, 7, 0⟩, object_kind.limit_order 2 1⟩ [3] [4] rfl rfl rfl (by decide) (by decide) rfl

/-! ## Market fan-out -/

theorem map_find_push {κ β : Type} [DecidableEq κ] (lt : κ → κ → Bool) (k p : κ) (x : β)
    (m : List (κ × List β)) :
    map_find p (map_push lt k x m)
      = if p = k then some ((map_find k m).getD [] ++ [x]) else map_find p m := by
  unfold map_push
  by_cases h : p = k
  · rw [if_pos h, h, map_find_assign_self]
  · rw [if_neg h, map_find_assign_other _ _ _ _ _ h]

theorem collect_market_cons_order (env : environment) (s : database_api_impl)
    (full_object : Bool) (find_object : object_id_type → Option object)
    (queue : market_queue_type) (id : object_id_type) (rest : List object_id_type)
    (market : market_key) (o : object)
    (h : database_api_impl.market_order env find_object id = some (market, o)) :
    database_api_impl.collect_market env s full_object find_object queue (id :: rest)
      = database_api_impl.collect_market env s full_object find_object
          (if (map_find market s._market_subscriptions).isSome = true
            then map_push pair_lt market
              (if full_object then o.to_variant else variant.of_id o.id) queue
            else queue) rest := by
  unfold database_api_impl.market_order at h
  by_cases hcall : id.is_type env env.call_order_object_type = true
  · rw [if_pos hcall] at h
    cases hf : find_object id with
    | none => simp [hf] at h
    | some o1 =>
      cases hm : o1.market_as true with
      | none => simp [hf, hm] at h
      | some m1 =>
        simp only [hf, hm, Option.map_some', Option.some.injEq, Prod.mk.injEq] at h
        obtain ⟨hm1, ho1⟩ := h
        subst hm1
        subst ho1
        cases hsub : map_find m1 s._market_subscriptions with
        | none =>
          simp [database_api_impl.collect_market, hcall,
            database_api_impl.enqueue_if_subscribed_to_market, hf, hm, hsub]
        | some cb =>
          simp [database_api_impl.collect_market, hcall,
            database_api_impl.enqueue_if_subscribed_to_market, hf, hm, hsub, map_push]
  · rw [if_neg hcall] at h
    by_cases hlimit : id.is_type env env.limit_order_object_type = true
    · rw [if_pos hlimit] at h
      cases hf : find_object id with
      | none => simp [hf] at h
      | some o1 =>
        cases hm : o1.market_as false with
        | none => simp [hf, hm] at h
        | some m1 =>
          simp only [hf, hm, Option.map_some', Option.some.injEq, Prod.mk.injEq] at h
          obtain ⟨hm1, ho1⟩ := h
          subst hm1
          subst ho1
          cases hsub : map_find m1 s._market_subscriptions with
          | none =>
            simp [database_api_impl.collect_market, hcall, hlimit,
              database_api_impl.enqueue_if_subscribed_to_market, hf, hm, hsub]
          | some cb =>
            simp [database_api_impl.collect_market, hcall, hlimit,
              database_api_impl.enqueue_if_subscribed_to_market, hf, hm, hsub, map_push]
    · rw [if_neg hlimit] at h
      exact Option.noConfusion h

theorem collect_market_cons_other (env : environment) (s : database_api_impl)
    (full_object : Bool) (find_object : object_id_type → Option object)
    (queue : market_queue_type) (id : object_id_type) (rest : List object_id_type)
    (h : database_api_impl.is_order_id env id = false) :
    database_api_impl.collect_market env s full_object find_object queue (id :: rest)
      = database_api_impl.collect_market env s full_object find_object queue rest := by
  unfold database_api_impl.is_order_id at h
  rw [Bool.or_eq_false_iff] at h
  simp [database_api_impl.collect_market, h.1, h.2]

theorem market_order_of_other (env : environment)
    (find_object : object_id_type → Option object) (id : object_id_type)
    (h : database_api_impl.is_order_id env id = false) :
    database_api_impl.market_order env find_object id = none := by
  unfold database_api_impl.is_order_id at h
  rw [Bool.or_eq_false_iff] at h
  simp [database_api_impl.market_order, h.1, h.2]

theorem spec_market_queue_cons (env : environment)
    (find_object : object_id_type → Option object) (full_object : Bool) (p : market_key)
    (id : object_id_type) (rest : List object_id_type) :
    spec_market_queue env find_object full_object p (id :: rest)
      = (match database_api_impl.market_order env find_object id with
          | some (market, o) =>
            if market = p then [if full_object then o.to_variant else variant.of_id o.id]
            else []
          | none => [])
        ++ spec_market_queue env find_object full_object p rest := by
  unfold spec_market_queue
  rw [List.filterMap_cons]
  cases hmo : database_api_impl.market_order env find_object id with
  | none => rfl
  | some mo =>
    obtain ⟨market, o⟩ := mo
    by_cases hp : market = p
    · simp [hp]
    · simp [hp]

theorem collect_market_spec (env : environment) (s : database_api_impl)
    (full_object : Bool) (find_object : object_id_type → Option object)
    (ids : List object_id_type) (queue : market_queue_type)
    (hres : ∀ id ∈ ids, database_api_impl.is_order_id env id = true →
      (database_api_impl.market_order env find_object id).isSome = true) :
    ∃ q, database_api_impl.collect_market env s full_object find_object queue ids = Except.ok q
      ∧ ∀ p, map_find p q
          = if (map_find p s._market_subscriptions).isSome = true
                ∧ spec_market_queue env find_object full_object p ids ≠ []
            then some ((map_find p queue).getD []
              ++ spec_market_queue env find_object full_object p ids)
            else map_find p queue := by
  induction ids generalizing queue with
  | nil =>
    refine ⟨queue, rfl, fun p => ?_⟩
    simp [spec_market_queue]
  | cons id rest ih =>
    have hres2 : ∀ id ∈ rest, database_api_impl.is_order_id env id = true →
        (database_api_impl.market_order env find_object id).isSome = true :=
      fun i hi => hres i (List.mem_cons_of_mem _ hi)
    by_cases horder : database_api_impl.is_order_id env id = true
    · obtain ⟨mo, hmo⟩ := Option.isSome_iff_exists.mp (hres id (List.mem_cons_self _ _) horder)
      obtain ⟨market, o⟩ := mo
      rw [collect_market_cons_order env s full_object find_object queue id rest market o hmo]
      by_cases hsub : (map_find market s._market_subscriptions).isSome = true
      · rw [if_pos hsub]
        obtain ⟨q, hq, hfind⟩ := ih (map_push pair_lt market
          (if full_object then o.to_variant else variant.of_id o.id) queue) hres2
        refine ⟨q, hq, fun p => ?_⟩
        rw [hfind p, spec_market_queue_cons, hmo, map_find_push]
        by_cases hp : p = market
        · subst hp
          by_cases hrest : spec_market_queue env find_object full_object p rest = []
          · simp [hsub, hrest]
          · simp [hsub, hrest]
        · have hp2 : ¬ market = p := fun e => hp e.symm
          simp [hp, hp2]
      · rw [if_neg hsub]
        obtain ⟨q, hq, hfind⟩ := ih queue hres2
        refine ⟨q, hq, fun p => ?_⟩
        rw [hfind p, spec_market_queue_cons, hmo]
        by_cases hp : market = p
        · subst hp
          simp [hsub]
        · simp [hp]
    · have horder2 : database_api_impl.is_order_id env id = false := by
        simpa using horder
      rw [collect_market_cons_other env s full_object find_object queue id rest horder2]
      obtain ⟨q, hq, hfind⟩ := ih queue hres2
      refine ⟨q, hq, fun p => ?_⟩
      rw [hfind p, spec_market_queue_cons, market_order_of_other env find_object id horder2]
      rfl

theorem spec_market_queue_ne_nil (env : environment)
    (find_object : object_id_type → Option object) (full_object : Bool) (p : market_key)
    (ids : List object_id_type) :
    spec_market_queue env find_object full_object p ids ≠ []
      ↔ ∃ id ∈ ids, ∃ o, database_api_impl.market_order env find_object id = some (p, o) := by
  constructor
  · intro hne
    obtain ⟨v, hv⟩ := List.exists_mem_of_ne_nil _ hne
    unfold spec_market_queue at hv
    rw [List.mem_filterMap] at hv
    obtain ⟨id, hid, hitem⟩ := hv
    refine ⟨id, hid, ?_⟩
    cases hmo : database_api_impl.market_order env find_object id with
    | none => simp [hmo] at hitem
    | some mo =>
      obtain ⟨market, o⟩ := mo
      by_cases hp : market = p
      · exact ⟨o, by rw [hp]⟩
      · simp [hmo, hp] at hitem
  · rintro ⟨id, hid, o, hmo⟩
    have hmem : (if full_object then o.to_variant else variant.of_id o.id)
        ∈ spec_market_queue env find_object full_object p ids := by
      unfold spec_market_queue
      rw [List.mem_filterMap]
      exact ⟨id, hid, by simp [hmo]⟩
    exact List.ne_nil_of_mem hmem

theorem collect_market_only_orders (env : environment) (s : database_api_impl)
    (full_object : Bool) (find_object : object_id_type → Option object)
    (ids : List object_id_type) (queue : market_queue_type) :
    database_api_impl.collect_market env s full_object find_object queue ids
      = database_api_impl.collect_market env s full_object find_object queue
          (ids.filter (database_api_impl.is_order_id env)) := by
  induction ids generalizing queue with
  | nil => rfl
  | cons id rest ih =>
    by_cases horder : database_api_impl.is_order_id env id = true
    · rw [List.filter_cons_of_pos horder]
      unfold database_api_impl.collect_market
      split
      · split
        · rfl
        · exact ih _
      · split
        · split
          · rfl
          · exact ih _
        · exact ih _
    · have horder2 : database_api_impl.is_order_id env id = false := by
        simpa using horder
      rw [List.filter_cons_of_neg horder,
        collect_market_cons_other env s full_object find_object queue id rest horder2]
      exact ih queue

theorem collect_market_of_same_markets (env : environment) (s t : database_api_impl)
    (hsame : t._market_subscriptions = s._market_subscriptions)
    (full_object : Bool) (find_object : object_id_type → Option object)
    (ids : List object_id_type) (queue : market_queue_type) :
    database_api_impl.collect_market env t full_object find_object queue ids
      = database_api_impl.collect_market env s full_object find_object queue ids := by
  induction ids generalizing queue with
  | nil => rfl
  | cons id rest ih =>
    simp only [database_api_impl.collect_market,
      database_api_impl.enqueue_if_subscribed_to_market, hsame, ih]

theorem market_broadcasts_handle_object_changed (env : environment) (s : database_api_impl)
    (force_notify full_object : Bool) (ids : List object_id_type)
    (impacted_accounts : List account_id_type) (find_object : object_id_type → Option object)
    (q : market_queue_type) (hsubs : s._market_subscriptions ≠ [])
    (hq : database_api_impl.collect_market env s full_object find_object [] ids = Except.ok q) :
    (s.handle_object_changed env force_notify full_object ids impacted_accounts
        find_object).market_broadcasts = (if q = [] then [] else [q])
      ∧ (s.handle_object_changed env force_notify full_object ids impacted_accounts
        find_object).error = none := by
  have hlen : s._market_subscriptions.length ≠ 0 := fun h => hsubs (List.length_eq_zero.mp h)
  have hgen : (if s._subscribe_callback.isSome = true then
        (if (database_api_impl.collect_updates env s force_notify full_object impacted_accounts
            find_object ids).length ≠ 0
          then s.broadcast_updates (database_api_impl.collect_updates env s force_notify
            full_object impacted_accounts find_object ids)
          else [])
        else []).filterMap (fun t =>
          match t with
          | async_task.updates _ => none
          | async_task.market_updates queue => some queue) = [] := by
    unfold database_api_impl.broadcast_updates
    split
    · split
      · split <;> rfl
      · rfl
    · rfl
  have hpart : (if q.length ≠ 0 then database_api_impl.broadcast_market_updates q
        else []).filterMap (fun t =>
          match t with
          | async_task.updates _ => none
          | async_task.market_updates queue => some queue) = (if q = [] then [] else [q]) := by
    by_cases hq0 : q = []
    · simp [hq0]
    · have hl : q.length ≠ 0 := fun h => hq0 (List.length_eq_zero.mp h)
      simp [hq0, hl, database_api_impl.broadcast_market_updates]
  unfold handler_result.market_broadcasts database_api_impl.handle_object_changed
  simp only [hlen, ne_eq, not_false_eq_true, if_true, hq]
  constructor
  · rw [List.filterMap_append]
    have hgen2 := hgen
    simp only [ne_eq] at hgen2 hpart
    rw [hgen2, hpart, List.nil_append]
  · trivial

/-- Claim C18. When at least one market subscription exists and every call-order
or limit-order id of the batch resolves to an order of its kind, the second
loop of `handle_object_changed` returns a queue map in which (i) a pair is a key
exactly when it is subscribed and is the market of an order id of the batch,
(ii) the queue of a pair is the list stated in the spec: in batch order, one
item per order id whose market is the pair, the full object when `full_object`
is true and the bare id of the order otherwise, and (iii) ids of other kinds
contribute nothing, the result being that of the batch restricted to order ids.
The map depends on the session only through its market subscriptions, so
neither the update callback nor the filter matters. The handler returns without
error and schedules one market broadcast, carrying the map, exactly when some
queue is non-empty. -/
theorem C18_market_fanout (env : environment) (s : database_api_impl)
    (force_notify full_object : Bool) (ids : List object_id_type)
    (impacted_accounts : List account_id_type) (find_object : object_id_type → Option object)
    (hsubs : s._market_subscriptions ≠ [])
    (hres : ∀ id ∈ ids, database_api_impl.is_order_id env id = true →
      (database_api_impl.market_order env find_object id).isSome = true) :
    ∃ q, database_api_impl.collect_market env s full_object find_object [] ids = Except.ok q
      ∧ (∀ p, (map_find p q).isSome = true
          ↔ (map_find p s._market_subscriptions).isSome = true
            ∧ ∃ id ∈ ids, ∃ o,
                database_api_impl.market_order env find_object id = some (p, o))
      ∧ (∀ p l, map_find p q = some l
          → l = spec_market_queue env find_object full_object p ids ∧ l ≠ [])
      ∧ database_api_impl.collect_market env s full_object find_object []
          (ids.filter (database_api_impl.is_order_id env)) = Except.ok q
      ∧ (∀ t : database_api_impl, t._market_subscriptions = s._market_subscriptions →
          database_api_impl.collect_market env t full_object find_object [] ids = Except.ok q)
      ∧ (s.handle_object_changed env force_notify full_object ids impacted_accounts
          find_object).market_broadcasts = (if q = [] then [] else [q])
      ∧ (s.handle_object_changed env force_notify full_object ids impacted_accounts
          find_object).error = none
      ∧ (q ≠ [] ↔ ∃ p l, map_find p q = some l ∧ l ≠ []) := by
  obtain ⟨q, hq, hfind⟩ := collect_market_spec env s full_object find_object ids [] hres
  have hfind2 : ∀ p, map_find p q
      = if (map_find p s._market_subscriptions).isSome = true
            ∧ spec_market_queue env find_object full_object p ids ≠ []
        then some (spec_market_queue env find_object full_object p ids) else none := by
    intro p
    rw [hfind p]
    simp [map_find]
  have hqueues : ∀ p l, map_find p q = some l
      → l = spec_market_queue env find_object full_object p ids ∧ l ≠ [] := by
    intro p l hl
    rw [hfind2 p] at hl
    split at hl
    · rename_i hc
      have he : spec_market_queue env find_object full_object p ids = l :=
        Option.some.inj hl
      exact ⟨he.symm, he ▸ hc.2⟩
    · exact Option.noConfusion hl
  obtain ⟨hb, herr⟩ := market_broadcasts_handle_object_changed env s force_notify full_object
    ids impacted_accounts find_object q hsubs hq
  refine ⟨q, hq, ?_, hqueues, ?_, ?_, hb, herr, ?_⟩
  · intro p
    rw [hfind2 p, ← spec_market_queue_ne_nil env find_object full_object p ids]
    split
    · rename_i hc
      simp [hc.1, hc.2]
    · rename_i hc
      simp only [Option.isSome_none, Bool.false_eq_true, false_iff]
      exact hc
  · rw [← collect_market_only_orders]
    exact hq
  · intro t ht
    rw [collect_market_of_same_markets env s t ht]
    exact hq
  · constructor
    · intro hne
      cases q with
      | nil => exact absurd rfl hne
      | cons e rest =>
        obtain ⟨k, l⟩ := e
        have hk : map_find k ((k, l) :: rest) = some l := by simp [map_find]
        exact ⟨k, l, hk, (hqueues k l hk).2⟩
    · rintro ⟨p, l, hl, _⟩ hnil
      rw [hnil] at hl
      exact Option.noConfusion hl

theorem C18_market_fanout_witness :
    (sample_session_silent.handle_object_changed sample_env true true
        [⟨1, 7, 0⟩, ⟨1, 2, 4⟩, ⟨1, 7, 0⟩] [] sample_database.find_object).scheduled
        = [async_task.market_updates
            [((1, 2), [variant.of_object ⟨⟨1, 7, 0⟩, object_kind.limit_order 2 1⟩,
                       variant.of_object ⟨⟨1, 7, 0⟩, object_kind.limit_order 2 1⟩])]]
      ∧ ∃ q, database_api_impl.collect_market sample_env sample_session_silent true
            sample_database.find_object [] [⟨1, 7, 0⟩, ⟨1, 2, 4⟩, ⟨1, 7, 0⟩] = Except.ok q
          ∧ (∀ p l, map_find p q = some l
              → l = spec_market_queue sample_env sample_database.find_object true p
                  [⟨1, 7, 0⟩, ⟨1, 2, 4⟩, ⟨1, 7, 0⟩] ∧ l ≠ [])
          ∧ (sample_session_silent.handle_object_changed sample_env true true
              [⟨1, 7, 0⟩, ⟨1, 2, 4⟩, ⟨1, 7, 0⟩] [] sample_database.find_object).market_broadcasts
            = (if q = [] then [] else [q]) :=
  ⟨by decide,
    (C18_market_fanout sample_env sample_session_silent true true
      [⟨1, 7, 0⟩, ⟨1, 2, 4⟩, ⟨1, 7, 0⟩] [] sample_database.find_object (by decide)
      (by decide)).imp (fun _ h => ⟨h.1, h.2.2.1, h.2.2.2.2.2.1⟩)⟩

/-! ## Fill fan-out on block application -/

theorem mem_map_assign {κ β : Type} [DecidableEq κ] (lt : κ → κ → Bool) (k : κ) (v : β)
    (m : List (κ × β)) (e : κ × β) (he : e ∈ map_assign lt k v m) : e = (k, v) ∨ e ∈ m := by
  induction m with
  | nil =>
    simp only [map_assign, List.mem_singleton] at he
    exact Or.inl he
  | cons e1 rest ih =>
    obtain ⟨k1, v1⟩ := e1
    unfold map_assign at he
    by_cases h1 : k = k1
    · rw [if_pos h1] at he
      rcases List.mem_cons.mp he with h | h
      · exact Or.inl h
      · exact Or.inr (List.mem_cons_of_mem _ h)
    · rw [if_neg h1] at he
      by_cases h2 : lt k k1 = true
      · rw [if_pos h2] at he
        rcases List.mem_cons.mp he with h | h
        · exact Or.inl h
        · exact Or.inr h
      · rw [if_neg h2] at he
        rcases List.mem_cons.mp he with h | h
        · exact Or.inr (h ▸ List.mem_cons_self _ _)
        · rcases ih h with h3 | h3
          · exact Or.inl h3
          · exact Or.inr (List.mem_cons_of_mem _ h3)

theorem mem_of_map_find {κ β : Type} [DecidableEq κ] (m : List (κ × β)) (k : κ) (v : β)
    (h : map_find k m = some v) : (k, v) ∈ m := by
  induction m with
  | nil => exact Option.noConfusion h
  | cons e1 rest ih =>
    obtain ⟨k1, v1⟩ := e1
    unfold map_find at h
    by_cases h1 : k = k1
    · rw [if_pos h1] at h
      rw [h1, ← Option.some.inj h]
      exact List.mem_cons_self _ _
    · rw [if_neg h1] at h
      exact List.mem_cons_of_mem _ (ih h)

theorem map_find_none_of_keys {κ β : Type} [DecidableEq κ] (m : List (κ × β)) (k : κ)
    (h : ∀ e ∈ m, e.1 ≠ k) : map_find k m = none := by
  cases hf : map_find k m with
  | none => rfl
  | some v => exact absurd rfl (h (k, v) (mem_of_map_find m k v hf))

theorem operations_of_market_cons (p : market_key) (entry : Option operation_history_object)
    (rest : List (Option operation_history_object)) :
    database_api_impl.operations_of_market p (entry :: rest)
      = (match entry with
          | some h =>
            if database_api_impl.applied_operation_market h.op = p then [(h.op, h.result)]
            else []
          | none => [])
        ++ database_api_impl.operations_of_market p rest := by
  unfold database_api_impl.operations_of_market
  rw [List.filterMap_cons]
  cases entry with
  | none => rfl
  | some h =>
    by_cases hp : database_api_impl.applied_operation_market h.op = p
    · simp [hp]
    · simp [hp]

theorem group_applied_operations_find (s : database_api_impl)
    (ops : List (Option operation_history_object)) (g : market_ops_type) (p : market_key) :
    map_find p (database_api_impl.group_applied_operations s g ops)
      = if (map_find p s._market_subscriptions).isSome = true
            ∧ database_api_impl.operations_of_market p ops ≠ []
        then some ((map_find p g).getD [] ++ database_api_impl.operations_of_market p ops)
        else map_find p g := by
  induction ops generalizing g with
  | nil => simp [database_api_impl.group_applied_operations,
      database_api_impl.operations_of_market]
  | cons entry rest ih =>
    cases entry with
    | none =>
      rw [operations_of_market_cons]
      simp only [database_api_impl.group_applied_operations, List.nil_append]
      exact ih g
    | some h =>
      rw [operations_of_market_cons]
      simp only [database_api_impl.group_applied_operations]
      by_cases hsub : (map_find (database_api_impl.applied_operation_market h.op)
          s._market_subscriptions).isSome = true
      · rw [if_pos hsub, ih, map_find_push]
        by_cases hp : p = database_api_impl.applied_operation_market h.op
        · subst hp
          by_cases hrest : database_api_impl.operations_of_market
              (database_api_impl.applied_operation_market h.op) rest = []
          · simp [hsub, hrest]
          · simp [hsub, hrest]
        · have hp2 : ¬ database_api_impl.applied_operation_market h.op = p :=
            fun e => hp e.symm
          simp [hp, hp2]
      · rw [if_neg hsub, ih]
        by_cases hp : database_api_impl.applied_operation_market h.op = p
        · subst hp
          simp [hsub]
        · simp [hp]

theorem market_set_subscribe_callback (env : environment) (s : database_api_impl)
    (cb : Option callback) (n : Bool) :
    (s.set_subscribe_callback env cb n).state._market_subscriptions
      = s._market_subscriptions := by
  unfold database_api_impl.set_subscribe_callback
  split <;> rfl

theorem normalize_lt (a b : asset_id_type)
    (h : (database_api_impl.normalize a b).1 ≠ (database_api_impl.normalize a b).2) :
    (database_api_impl.normalize a b).1 < (database_api_impl.normalize a b).2 := by
  unfold database_api_impl.normalize at h ⊢
  by_cases hab : a > b
  · rw [if_pos hab]
    exact hab
  · rw [if_neg hab] at h ⊢
    have hne : a ≠ b := h
    exact Nat.lt_of_le_of_ne (Nat.le_of_not_gt hab) hne

theorem canonical_apply (env : environment) (db : database) (s : database_api_impl)
    (c : api_call) (h : ∀ e ∈ s._market_subscriptions, e.1.1 < e.1.2) :
    ∀ e ∈ (c.apply env db s)._market_subscriptions, e.1.1 < e.1.2 := by
  cases c with
  | set_subscribe_callback cb n =>
    simp only [api_call.apply, market_set_subscribe_callback]
    exact h
  | set_pending_transaction_callback cb => exact h
  | set_block_applied_callback cb => exact h
  | cancel_all_subscriptions =>
    simp only [api_call.apply, database_api_impl.cancel_all_subscriptions]
    split
    · rw [market_set_subscribe_callback]
      exact h
    · intro e he
      exact absurd he (List.not_mem_nil _)
  | subscribe_to_item i =>
    simp only [api_call.apply, database_api_impl.market_subscribe_to_item]
    exact h
  | get_objects ids =>
    simp only [api_call.apply, database_api_impl.get_objects]
    split
    · rw [database_api_impl.market_get_objects_subscribe]
      exact h
    · exact h
  | get_full_accounts names subscribe =>
    simp only [api_call.apply, database_api_impl.get_full_accounts,
      database_api_impl.market_get_full_accounts_loop]
    exact h
  | subscribe_to_market cb a b =>
    simp only [api_call.apply, database_api_impl.subscribe_to_market]
    split
    · exact h
    · rename_i hne
      intro e he
      rcases mem_map_assign _ _ _ _ e he with h1 | h1
      · rw [h1]
        exact normalize_lt a b hne
      · exact h e h1
  | unsubscribe_from_market a b =>
    simp only [api_call.apply, database_api_impl.unsubscribe_from_market]
    split
    · exact h
    · intro e he
      unfold map_erase at he
      exact h e (List.mem_filter.mp he).1

theorem canonical_run_calls (env : environment) (calls : List (database × api_call))
    (s : database_api_impl) (h : ∀ e ∈ s._market_subscriptions, e.1.1 < e.1.2) :
    ∀ e ∈ (run_calls env s calls)._market_subscriptions, e.1.1 < e.1.2 := by
  induction calls generalizing s with
  | nil => exact h
  | cons c rest ih =>
    obtain ⟨db, call⟩ := c
    unfold run_calls
    exact ih _ (canonical_apply env db s call h)

theorem default_pair_not_subscribed (env : environment) (opts : Option application_options)
    (calls : List (database × api_call)) :
    map_find ((0, 0) : market_key)
      (run_calls env (database_api_impl.init opts) calls)._market_subscriptions = none := by
  apply map_find_none_of_keys
  intro e he hkey
  have hlt := canonical_run_calls env calls (database_api_impl.init opts)
    (fun e he => absurd he (List.not_mem_nil _)) e he
  rw [hkey] at hlt
  exact absurd hlt (by decide)

theorem run_market_loop_cons {α : Type} (m : List (market_key × Option callback))
    (item : market_key × α) (rest : List (market_key × α)) :
    run_market_loop m (item :: rest)
      = match map_find item.1 m with
        | none => run_market_loop m rest
        | some none => ⟨[], some std_exception.bad_function_call⟩
        | some (some cb) =>
          ⟨(cb, item.2) :: (run_market_loop m rest).delivered, (run_market_loop m rest).error⟩ := by
  rw [run_market_loop]

theorem run_market_loop_delivered_sound {α : Type}
    (m : List (market_key × Option callback)) (q : List (market_key × α)) :
    ∀ d ∈ (run_market_loop m q).delivered,
      ∃ item ∈ q, map_find item.1 m = some (some d.1) ∧ d.2 = item.2 := by
  induction q with
  | nil =>
    intro d hd
    exact absurd hd (List.not_mem_nil _)
  | cons item rest ih =>
    intro d hd
    rw [run_market_loop_cons] at hd
    split at hd
    · obtain ⟨i, hi, h⟩ := ih d hd
      exact ⟨i, List.mem_cons_of_mem _ hi, h⟩
    · exact absurd hd (List.not_mem_nil _)
    · rename_i cb hcb
      rcases List.mem_cons.mp hd with h | h
      · rw [h]
        exact ⟨item, List.mem_cons_self _ _, hcb, rfl⟩
      · obtain ⟨i, hi, h2⟩ := ih d h
        exact ⟨i, List.mem_cons_of_mem _ hi, h2⟩

theorem run_market_loop_append {α : Type} (m : List (market_key × Option callback))
    (pre q : List (market_key × α))
    (hpre : ∀ item ∈ pre, map_find item.1 m ≠ some none) :
    (run_market_loop m (pre ++ q)).delivered
        = (run_market_loop m pre).delivered ++ (run_market_loop m q).delivered
      ∧ (run_market_loop m (pre ++ q)).error = (run_market_loop m q).error
      ∧ (run_market_loop m pre).error = none := by
  induction pre with
  | nil => exact ⟨rfl, rfl, rfl⟩
  | cons item rest ih =>
    have hrest := ih (fun i hi => hpre i (List.mem_cons_of_mem _ hi))
    have hitem := hpre item (List.mem_cons_self _ _)
    rw [List.cons_append]
    cases hfind : map_find item.1 m with
    | none =>
      simp only [run_market_loop_cons, hfind]
      exact hrest
    | some cb =>
      cases cb with
      | none => exact absurd hfind hitem
      | some c =>
        simp only [run_market_loop_cons, hfind, List.cons_append]
        exact ⟨by rw [hrest.1], hrest.2.1, hrest.2.2⟩

theorem run_market_loop_callable {α : Type} (m : List (market_key × Option callback))
    (q : List (market_key × α)) (hq : ∀ item ∈ q, map_find item.1 m ≠ some none) :
    (run_market_loop m q).error = none
      ∧ (run_market_loop m q).delivered
        = q.filterMap (fun item => (map_find item.1 m).join.map (fun cb => (cb, item.2))) := by
  induction q with
  | nil => exact ⟨rfl, rfl⟩
  | cons item rest ih =>
    have hrest := ih (fun i hi => hq i (List.mem_cons_of_mem _ hi))
    have hitem := hq item (List.mem_cons_self _ _)
    cases hfind : map_find item.1 m with
    | none => simpa [run_market_loop_cons, List.filterMap_cons, hfind] using hrest
    | some cb =>
      cases cb with
      | none => exact absurd hfind hitem
      | some c => simpa [run_market_loop_cons, List.filterMap_cons, hfind] using hrest

theorem run_market_loop_reaches {α : Type} (m : List (market_key × Option callback))
    (pre post : List (market_key × α)) (p : market_key) (l : α)
    (hpre : ∀ item ∈ pre, map_find item.1 m ≠ some none) :
    (∀ cb, map_find p m = some (some cb) →
        (cb, l) ∈ (run_market_loop m (pre ++ (p, l) :: post)).delivered)
      ∧ (map_find p m = some none →
          (run_market_loop m (pre ++ (p, l) :: post)).error
              = some std_exception.bad_function_call
            ∧ (run_market_loop m (pre ++ (p, l) :: post)).delivered
              = (run_market_loop m pre).delivered) := by
  obtain ⟨hdel, herr, _⟩ := run_market_loop_append m pre ((p, l) :: post) hpre
  constructor
  · intro cb hcb
    rw [hdel]
    apply List.mem_append_right
    simp only [run_market_loop_cons, hcb]
    exact List.mem_cons_self _ _
  · intro hnone
    rw [hdel, herr]
    simp only [run_market_loop_cons, hnone, List.append_nil, and_self]

theorem run_market_loop_single {α : Type} (m : List (market_key × Option callback))
    (p : market_key) (l : α) :
    run_market_loop m [(p, l)]
      = match map_find p m with
        | none => ⟨[], none⟩
        | some none => ⟨[], some std_exception.bad_function_call⟩
        | some (some cb) => ⟨[(cb, l)], none⟩ := by
  rw [run_market_loop_cons]
  cases hfind : map_find p m with
  | none => rfl
  | some cb =>
    cases cb with
    | none => rfl
    | some c => rfl

theorem get_objects_subscribe_probe (env : environment) (cb : callback)
    (id : object_id_type) (hskip : database_api_impl.get_objects_skips env id = false)
    (ids : List object_id_type) (s : database_api_impl)
    (hcb : s._subscribe_callback = some cb) (hid : id ∈ ids) :
    (database_api_impl.get_objects_subscribe env s ids).is_subscribed_to_item env
      (env.pack id) = true := by
  induction ids generalizing s with
  | nil => exact absurd hid (List.not_mem_nil _)
  | cons id0 rest ih =>
    by_cases h0 : id = id0
    · subst h0
      simp only [database_api_impl.get_objects_subscribe, hskip, Bool.false_eq_true, if_false]
      exact database_api_impl.interest_kept_probe env
        (database_api_impl.interest_kept_get_objects_subscribe env rest _) _
        (database_api_impl.subscribe_to_item_then_probe env s cb hcb _)
    · have hrest : id ∈ rest := by
        rcases List.mem_cons.mp hid with h | h
        · exact absurd h h0
        · exact h
      unfold database_api_impl.get_objects_subscribe
      split
      · exact ih s hcb hrest
      · exact ih _ (by
          rw [(database_api_impl.interest_kept_subscribe_to_item env s _).1]
          exact hcb) hrest

theorem get_objects_subscribe_filter (env : environment) (ids : List object_id_type)
    (s : database_api_impl) :
    database_api_impl.get_objects_subscribe env s ids
      = database_api_impl.get_objects_subscribe env s
          (ids.filter (fun id => !(database_api_impl.get_objects_skips env id))) := by
  induction ids generalizing s with
  | nil => rfl
  | cons id rest ih =>
    by_cases hskip : database_api_impl.get_objects_skips env id = true
    · simp only [List.filter_cons, hskip, Bool.not_true, Bool.false_eq_true, if_false,
        database_api_impl.get_objects_subscribe, if_true]
      exact ih s
    · have hskip2 : database_api_impl.get_objects_skips env id = false := by
        simpa using hskip
      simp only [List.filter_cons, hskip2, Bool.not_false, if_true,
        database_api_impl.get_objects_subscribe, Bool.false_eq_true, if_false]
      exact ih _

/-- Claim C20. With a callback installed, after `get_objects(ids)` every id of
`ids` that is neither an operation-history id of the protocol space nor an
account-transaction-history id of the implementation space probes positive in
`is_subscribed_to_item`; ids of these two kinds are not inserted, the session
after the call being the one that the call on the other ids alone leaves.
Without callback the session is unchanged. In both cases the returned list is
as long as `ids`, and its element at each position is the representation of
the object the store has for the id at that position, or null when the store
has none. -/
theorem C20_get_objects_arms_filter (env : environment) (db : database)
    (s : database_api_impl) (cb : callback) (ids : List object_id_type)
    (hcb : s._subscribe_callback = some cb) :
    (∀ id ∈ ids, database_api_impl.get_objects_skips env id = false →
        (s.get_objects env db ids).2.is_subscribed_to_item env (env.pack id) = true)
      ∧ (s.get_objects env db ids).2
          = (s.get_objects env db
              (ids.filter (fun id => !(database_api_impl.get_objects_skips env id)))).2
      ∧ ((∀ id ∈ ids, database_api_impl.get_objects_skips env id = true) →
          (s.get_objects env db ids).2 = s)
      ∧ (∀ (t : database_api_impl), t._subscribe_callback = none →
          (t.get_objects env db ids).2 = t
            ∧ (t.get_objects env db ids).1 = (s.get_objects env db ids).1)
      ∧ (s.get_objects env db ids).1.length = ids.length
      ∧ (∀ i : Nat, (s.get_objects env db ids).1[i]?
          = (ids[i]?).map (fun id =>
              match db.find_object id with
              | some obj => obj.to_variant
              | none => variant.null)) := by
  have hstate : ∀ l, (s.get_objects env db l).2 = database_api_impl.get_objects_subscribe env s l := by
    intro l
    simp [database_api_impl.get_objects, hcb]
  refine ⟨?_, ?_, ?_, ?_, ?_, ?_⟩
  · intro id hid hskip
    rw [hstate]
    exact get_objects_subscribe_probe env cb id hskip ids s hcb hid
  · rw [hstate, hstate]
    exact get_objects_subscribe_filter env ids s
  · intro hall
    rw [hstate, get_objects_subscribe_filter]
    have hnil : ids.filter (fun id => !(database_api_impl.get_objects_skips env id)) = [] := by
      rw [List.filter_eq_nil_iff]
      intro id hid
      simp [hall id hid]
    rw [hnil]
    rfl
  · intro t ht
    simp [database_api_impl.get_objects, ht]
  · simp [database_api_impl.get_objects]
  · intro i
    simp [database_api_impl.get_objects, List.getElem?_map]

theorem C20_get_objects_arms_filter_witness :
    ((sample_session.get_objects sample_env sample_database
          [⟨1, 7, 0⟩, ⟨1, 11, 5⟩, ⟨2, 9, 3⟩]).1
        = [variant.of_object ⟨⟨1, 7, 0⟩, object_kind.limit_order 2 1⟩, variant.null,
           variant.null])
      ∧ (sample_session.get_objects sample_env sample_database
            [⟨1, 7, 0⟩, ⟨1, 11, 5⟩, ⟨2, 9, 3⟩]).2
          = sample_session.subscribe_to_item sample_env (sample_env.pack ⟨1, 7, 0⟩)
      ∧ (∀ id ∈ [⟨1, 7, 0⟩, ⟨1, 11, 5⟩, ⟨2, 9, 3⟩],
          database_api_impl.get_objects_skips sample_env id = false →
          (sample_session.get_objects sample_env sample_database
            [⟨1, 7, 0⟩, ⟨1, 11, 5⟩, ⟨2, 9, 3⟩]).2.is_subscribed_to_item sample_env
              (sample_env.pack id) = true) :=
  ⟨by decide, by decide,
    (C20_get_objects_arms_filter sample_env sample_database sample_session 5
      [⟨1, 7, 0⟩, ⟨1, 11, 5⟩, ⟨2, 9, 3⟩] rfl).1⟩

/-! ## Faults of the market fan-out -/

theorem collect_market_cons_unresolved (env : environment) (s : database_api_impl)
    (full_object : Bool) (find_object : object_id_type → Option object)
    (queue : market_queue_type) (id : object_id_type) (rest : List object_id_type)
    (horder : database_api_impl.is_order_id env id = true)
    (hnone : database_api_impl.market_order env find_object id = none) :
    database_api_impl.collect_market env s full_object find_object queue (id :: rest)
      = Except.error (fc_exception.assert_exception "order != nullptr") := by
  unfold database_api_impl.market_order at hnone
  unfold database_api_impl.is_order_id at horder
  by_cases hcall : id.is_type env env.call_order_object_type = true
  · rw [if_pos hcall] at hnone
    cases hf : find_object id with
    | none =>
      simp [database_api_impl.collect_market, hcall,
        database_api_impl.enqueue_if_subscribed_to_market, hf]
    | some o1 =>
      cases hm : o1.market_as true with
      | none =>
        simp [database_api_impl.collect_market, hcall,
          database_api_impl.enqueue_if_subscribed_to_market, hf, hm]
      | some m1 => simp [hf, hm] at hnone
  · have hlimit : id.is_type env env.limit_order_object_type = true := by
      rcases (Bool.or_eq_true _ _).mp horder with h | h
      · exact absurd h hcall
      · exact h
    rw [if_neg hcall, if_pos hlimit] at hnone
    cases hf : find_object id with
    | none =>
      simp [database_api_impl.collect_market, hcall, hlimit,
        database_api_impl.enqueue_if_subscribed_to_market, hf]
    | some o1 =>
      cases hm : o1.market_as false with
      | none =>
        simp [database_api_impl.collect_market, hcall, hlimit,
          database_api_impl.enqueue_if_subscribed_to_market, hf, hm]
      | some m1 => simp [hf, hm] at hnone

theorem collect_market_error (env : environment) (s : database_api_impl)
    (full_object : Bool) (find_object : object_id_type → Option object)
    (ids : List object_id_type) (queue : market_queue_type)
    (hbad : ∃ id ∈ ids, database_api_impl.is_order_id env id = true
      ∧ database_api_impl.market_order env find_object id = none) :
    database_api_impl.collect_market env s full_object find_object queue ids
      = Except.error (fc_exception.assert_exception "order != nullptr") := by
  induction ids generalizing queue with
  | nil =>
    obtain ⟨id, hid, _⟩ := hbad
    exact absurd hid (List.not_mem_nil _)
  | cons id0 rest ih =>
    by_cases horder : database_api_impl.is_order_id env id0 = true
    · cases hmo : database_api_impl.market_order env find_object id0 with
      | none =>
        exact collect_market_cons_unresolved env s full_object find_object queue id0 rest
          horder hmo
      | some mo =>
        obtain ⟨market, o⟩ := mo
        rw [collect_market_cons_order env s full_object find_object queue id0 rest market o hmo]
        apply ih
        obtain ⟨id, hid, hio, hin⟩ := hbad
        rcases List.mem_cons.mp hid with h | h
        · rw [h, hmo] at hin
          exact Option.noConfusion hin
        · exact ⟨id, h, hio, hin⟩
    · have horder2 : database_api_impl.is_order_id env id0 = false := by
        simpa using horder
      rw [collect_market_cons_other env s full_object find_object queue id0 rest horder2]
      apply ih
      obtain ⟨id, hid, hio, hin⟩ := hbad
      rcases List.mem_cons.mp hid with h | h
      · rw [h, horder2] at hio
        exact absurd hio (by decide)
      · exact ⟨id, h, hio, hin⟩

theorem handle_object_changed_error_iff (env : environment) (s : database_api_impl)
    (force_notify full_object : Bool) (ids : List object_id_type)
    (impacted_accounts : List account_id_type)
    (find_object : object_id_type → Option object) :
    ((s.handle_object_changed env force_notify full_object ids impacted_accounts
        find_object).error = none
      ↔ s._market_subscriptions = []
        ∨ ∀ id ∈ ids, database_api_impl.is_order_id env id = true →
            (database_api_impl.market_order env find_object id).isSome = true)
      ∧ ((s.handle_object_changed env force_notify full_object ids impacted_accounts
          find_object).error = none
        ∨ (s.handle_object_changed env force_notify full_object ids impacted_accounts
          find_object).error = some (fc_exception.assert_exception "order != nullptr")) := by
  by_cases hsubs : s._market_subscriptions = []
  · have herr : (s.handle_object_changed env force_notify full_object ids impacted_accounts
        find_object).error = none := by
      simp [database_api_impl.handle_object_changed, hsubs]
    exact ⟨⟨fun _ => Or.inl hsubs, fun _ => herr⟩, Or.inl herr⟩
  · have hlen : s._market_subscriptions.length ≠ 0 :=
      fun h => hsubs (List.length_eq_zero.mp h)
    by_cases hres : ∀ id ∈ ids, database_api_impl.is_order_id env id = true →
        (database_api_impl.market_order env find_object id).isSome = true
    · obtain ⟨q, hq, _⟩ := collect_market_spec env s full_object find_object ids [] hres
      have herr := (market_broadcasts_handle_object_changed env s force_notify full_object ids
        impacted_accounts find_object q hsubs hq).2
      exact ⟨⟨fun _ => Or.inr hres, fun _ => herr⟩, Or.inl herr⟩
    · have hbad : ∃ id ∈ ids, database_api_impl.is_order_id env id = true
          ∧ database_api_impl.market_order env find_object id = none := by
        by_contra hno
        apply hres
        intro id hid hio
        cases hmo : database_api_impl.market_order env find_object id with
        | none => exact absurd ⟨id, hid, hio, hmo⟩ hno
        | some mo => rfl
      have hcm := collect_market_error env s full_object find_object ids [] hbad
      have herr : (s.handle_object_changed env force_notify full_object ids impacted_accounts
          find_object).error = some (fc_exception.assert_exception "order != nullptr") := by
        simp [database_api_impl.handle_object_changed, hlen, hcm]
      refine ⟨⟨fun h => ?_, fun h => ?_⟩, Or.inr herr⟩
      · rw [herr] at h
        exact Option.noConfusion h
      · rcases h with h | h
        · exact absurd h hsubs
        · exact absurd h hres

/-- Claim C21, as the code has it. `on_objects_new`, `on_objects_changed` and
`on_objects_removed` return without error exactly when the session has no
market subscription or every call-order and limit-order id of the batch
resolves, through the resolver of the handler, to an order of its kind; in the
other case the assertion `order != nullptr` of
`enqueue_if_subscribed_to_market` reaches the caller. -/
theorem C21_handlers_return_iff_orders_resolve (env : environment) (db : database)
    (s : database_api_impl) (ids : List object_id_type)
    (impacted_accounts : List account_id_type) (objs : List (Option object)) :
    ((s.on_objects_new env db ids impacted_accounts).error = none
        ↔ s._market_subscriptions = []
          ∨ ∀ id ∈ ids, database_api_impl.is_order_id env id = true →
              (database_api_impl.market_order env db.find_object id).isSome = true)
      ∧ ((s.on_objects_changed env db ids impacted_accounts).error = none
        ↔ s._market_subscriptions = []
          ∨ ∀ id ∈ ids, database_api_impl.is_order_id env id = true →
              (database_api_impl.market_order env db.find_object id).isSome = true)
      ∧ ((s.on_objects_removed env ids objs impacted_accounts).error = none
        ↔ s._market_subscriptions = []
          ∨ ∀ id ∈ ids, database_api_impl.is_order_id env id = true →
              (database_api_impl.market_order env (database_api_impl.find_removed objs)
                id).isSome = true)
      ∧ ((s.on_objects_new env db ids impacted_accounts).error = none
          ∨ (s.on_objects_new env db ids impacted_accounts).error
            = some (fc_exception.assert_exception "order != nullptr"))
      ∧ ((s.on_objects_changed env db ids impacted_accounts).error = none
          ∨ (s.on_objects_changed env db ids impacted_accounts).error
            = some (fc_exception.assert_exception "order != nullptr"))
      ∧ ((s.on_objects_removed env ids objs impacted_accounts).error = none
          ∨ (s.on_objects_removed env ids objs impacted_accounts).error
            = some (fc_exception.assert_exception "order != nullptr")) := by
  unfold database_api_impl.on_objects_new database_api_impl.on_objects_changed
    database_api_impl.on_objects_removed
  exact ⟨(handle_object_changed_error_iff env s _ _ ids impacted_accounts _).1,
    (handle_object_changed_error_iff env s _ _ ids impacted_accounts _).1,
    (handle_object_changed_error_iff env s _ _ ids impacted_accounts _).1,
    (handle_object_changed_error_iff env s _ _ ids impacted_accounts _).2,
    (handle_object_changed_error_iff env s _ _ ids impacted_accounts _).2,
    (handle_object_changed_error_iff env s _ _ ids impacted_accounts _).2⟩

/-- Claim C21 as stated fails. In a session that subscribes the market `(1, 2)`,
`on_objects_removed` on a batch holding the limit-order id `1.7.0` with no
snapshot for it, and `on_objects_new` and `on_objects_changed` on the same
batch over a store that lacks the order, all end with the assertion
`order != nullptr` reaching the caller. -/
theorem C21_unresolved_order_raises :
    (sample_session.on_objects_removed sample_env [⟨1, 7, 0⟩] [] []).error
        = some (fc_exception.assert_exception "order != nullptr")
      ∧ (sample_session.on_objects_new sample_env empty_database [⟨1, 7, 0⟩] []).error
        = some (fc_exception.assert_exception "order != nullptr")
      ∧ (sample_session.on_objects_changed sample_env empty_database [⟨1, 7, 0⟩] []).error
        = some (fc_exception.assert_exception "order != nullptr") := by
  decide

/-! ## Deliveries in flight -/

/-- Claim C22, as the code has it. A scheduled task does not keep the callback
of the time of scheduling. `broadcast_updates` with a callback installed and a
non-empty batch schedules one task, and when that task runs it hands the batch
to the update callback the session has at that time, and does nothing if there
is none: after a `set_subscribe_callback` that returned, the batch goes to the
new callback or is dropped if the new callback is empty; after a
`cancel_all_subscriptions` that returned, the batch and every market queue are
dropped; a call that threw has left the session as it was. The market delivery
calls, for each pair of its queue in order, the function the pair is bound to
at that time: a pair that is not subscribed is skipped, a pair bound to a
callback has its queue handed to that callback if no pair before it is bound to
an empty function, and a pair bound to an empty function ends the task with
`std::bad_function_call`. So after `unsubscribe_from_market` of a pair nothing
is delivered for it, and after a new `subscribe_to_market` its queue goes to
the new callback. -/
theorem C22_delivery_uses_session_at_run_time (env : environment) (s t : database_api_impl)
    (batch : List variant) (queue : market_queue_type) :
    (s._subscribe_callback.isSome = true → batch ≠ [] →
        s.broadcast_updates batch = [async_task.updates batch])
      ∧ (async_task.updates batch).run t
          = (match t._subscribe_callback with
            | some cb => ⟨[(cb, batch)], none⟩
            | none => ⟨[], none⟩)
      ∧ (∀ (cb : Option callback) (n : Bool),
          ((s.set_subscribe_callback env cb n).error = none →
            (async_task.updates batch).run (s.set_subscribe_callback env cb n).state
              = (match cb with
                | some c => ⟨[(c, batch)], none⟩
                | none => ⟨[], none⟩))
          ∧ ((s.set_subscribe_callback env cb n).error ≠ none →
              (s.set_subscribe_callback env cb n).state = s))
      ∧ ((s.cancel_all_subscriptions env).error = none →
          (async_task.updates batch).run (s.cancel_all_subscriptions env).state = ⟨[], none⟩
            ∧ (async_task.market_updates queue).run (s.cancel_all_subscriptions env).state
              = ⟨[], none⟩)
      ∧ ((s.cancel_all_subscriptions env).error ≠ none →
          (s.cancel_all_subscriptions env).state = s)
      ∧ (∀ d ∈ ((async_task.market_updates queue).run t).delivered,
          ∃ item ∈ queue, map_find item.1 t._market_subscriptions = some (some d.1)
            ∧ d.2 = item.2)
      ∧ (∀ pre p l post, queue = pre ++ (p, l) :: post →
          (∀ item ∈ pre, map_find item.1 t._market_subscriptions ≠ some none) →
          (∀ cb, map_find p t._market_subscriptions = some (some cb) →
              (cb, l) ∈ ((async_task.market_updates queue).run t).delivered)
            ∧ (map_find p t._market_subscriptions = some none →
                ((async_task.market_updates queue).run t).error
                    = some std_exception.bad_function_call
                  ∧ ((async_task.market_updates queue).run t).delivered
                    = ((async_task.market_updates pre).run t).delivered))
      ∧ ((∀ item ∈ queue, map_find item.1 t._market_subscriptions ≠ some none) →
          ((async_task.market_updates queue).run t).error = none
            ∧ ((async_task.market_updates queue).run t).delivered
              = queue.filterMap (fun item =>
                  (map_find item.1 t._market_subscriptions).join.map (fun cb => (cb, item.2))))
      ∧ (∀ (p : market_key) (l : List variant),
          (async_task.market_updates [(p, l)]).run t
            = (match map_find p t._market_subscriptions with
              | none => ⟨[], none⟩
              | some none => ⟨[], some std_exception.bad_function_call⟩
              | some (some cb) => ⟨[(cb, l)], none⟩))
      ∧ (∀ (a b : asset_id_type) (l : List variant), a ≠ b →
          (async_task.market_updates [((min a b, max a b), l)]).run
            (s.unsubscribe_from_market a b).state = ⟨[], none⟩)
      ∧ (∀ (c : callback) (a b : asset_id_type) (l : List variant), a ≠ b →
          (async_task.market_updates [((min a b, max a b), l)]).run
            (s.subscribe_to_market (some c) a b).state = ⟨[(c, l)], none⟩) := by
  have hset : ∀ (cb : Option callback) (n : Bool),
      ((s.set_subscribe_callback env cb n).error = none →
        (s.set_subscribe_callback env cb n).state._subscribe_callback = cb)
      ∧ ((s.set_subscribe_callback env cb n).error ≠ none →
        (s.set_subscribe_callback env cb n).state = s) := by
    intro cb n
    by_cases hfail : (n && !(s.subscribe_to_all_enabled)) = true
    · simp [database_api_impl.set_subscribe_callback, hfail]
    · simp [database_api_impl.set_subscribe_callback, hfail]
  refine ⟨?_, rfl, ?_, ?_, ?_, ?_, ?_, ?_, ?_, ?_, ?_⟩
  · intro hcb hne
    have hlen : batch.length ≠ 0 := fun h => hne (List.length_eq_zero.mp h)
    simp [database_api_impl.broadcast_updates, hcb, hlen]
  · intro cb n
    refine ⟨fun hok => ?_, (hset cb n).2⟩
    simp only [async_task.run, (hset cb n).1 hok]
  · intro hok
    have hst : (s.cancel_all_subscriptions env).state._subscribe_callback = none
        ∧ (s.cancel_all_subscriptions env).state._market_subscriptions = [] := by
      unfold database_api_impl.cancel_all_subscriptions at hok ⊢
      by_cases hfail : (true && !(s.subscribe_to_all_enabled)) = true
      · simp [database_api_impl.set_subscribe_callback, hfail] at hok
      · simp [database_api_impl.set_subscribe_callback, hfail]
    constructor
    · simp only [async_task.run, hst.1]
    · simp only [async_task.run, hst.2]
      have hcallable : ∀ item ∈ queue,
          map_find item.1 ([] : List (market_key × Option callback)) ≠ some none :=
        fun item _ h => Option.noConfusion h
      obtain ⟨herr, hdel⟩ := run_market_loop_callable [] queue hcallable
      have hnil : queue.filterMap (fun item =>
          (map_find item.1 ([] : List (market_key × Option callback))).join.map
            (fun cb => (cb, item.2))) = [] := by
        rw [List.filterMap_eq_nil_iff]
        intro item _
        rfl
      rw [hnil] at hdel
      cases hrun : run_market_loop ([] : List (market_key × Option callback)) queue with
      | mk delivered error =>
        rw [hrun] at herr hdel
        simp only at herr hdel
        rw [herr, hdel]
  · intro herr
    unfold database_api_impl.cancel_all_subscriptions at herr ⊢
    by_cases hfail : (true && !(s.subscribe_to_all_enabled)) = true
    · simp [database_api_impl.set_subscribe_callback, hfail]
    · simp [database_api_impl.set_subscribe_callback, hfail] at herr
  · intro d hd
    exact run_market_loop_delivered_sound _ _ d hd
  · intro pre p l post hsplit hpre
    rw [hsplit]
    exact run_market_loop_reaches t._market_subscriptions pre post p l hpre
  · intro hcallable
    exact run_market_loop_callable t._market_subscriptions queue hcallable
  · intro p l
    exact run_market_loop_single t._market_subscriptions p l
  · intro a b l hab
    obtain ⟨hn, hd⟩ := normalize_of_ne a b hab
    have hpair : ((database_api_impl.normalize a b).1, (database_api_impl.normalize a b).2)
        = (min a b, max a b) := by rw [hn]
    have hgone : map_find (min a b, max a b)
        (s.unsubscribe_from_market a b).state._market_subscriptions = none := by
      simp only [database_api_impl.unsubscribe_from_market, hd, if_false, hpair]
      exact map_find_erase_self _ _
    simp only [async_task.run]
    rw [run_market_loop_single, hgone]
  · intro c a b l hab
    obtain ⟨hn, hd⟩ := normalize_of_ne a b hab
    have hpair : ((database_api_impl.normalize a b).1, (database_api_impl.normalize a b).2)
        = (min a b, max a b) := by rw [hn]
    have hbound : map_find (min a b, max a b)
        (s.subscribe_to_market (some c) a b).state._market_subscriptions = some (some c) := by
      simp only [database_api_impl.subscribe_to_market, hd, if_false, hpair]
      exact map_find_assign_self _ _ _ _
    simp only [async_task.run]
    rw [run_market_loop_single, hbound]

/-- Claim C22 as stated fails. `broadcast_updates` schedules the delivery of a
batch while the callback `5` is installed. If the callback is cleared before
the task runs, the task delivers nothing; if it is replaced by the callback
`6`, the task hands the batch to `6`; in neither case does the callback `5`
receive it. A market delivery scheduled for the pair `(1, 2)` while the
callback `9` is subscribed delivers nothing once the pair has been
unsubscribed, and goes to the callback `4` once the pair has been subscribed
again with `4`. -/
theorem C22_cleared_callback_receives_nothing :
    sample_session.broadcast_updates [variant.of_id ⟨1, 2, 0⟩]
        = [async_task.updates [variant.of_id ⟨1, 2, 0⟩]]
      ∧ (async_task.updates [variant.of_id ⟨1, 2, 0⟩]).run
          (sample_session.set_subscribe_callback sample_env none false).state = ⟨[], none⟩
      ∧ (async_task.updates [variant.of_id ⟨1, 2, 0⟩]).run
          (sample_session.set_subscribe_callback sample_env (some 6) false).state
        = ⟨[(6, [variant.of_id ⟨1, 2, 0⟩])], none⟩
      ∧ (async_task.updates [variant.of_id ⟨1, 2, 0⟩]).run
          (sample_session_all.cancel_all_subscriptions sample_env).state = ⟨[], none⟩
      ∧ (async_task.updates [variant.of_id ⟨1, 2, 0⟩]).run sample_session
        = ⟨[(5, [variant.of_id ⟨1, 2, 0⟩])], none⟩
      ∧ (async_task.market_updates [((1, 2), [variant.of_id ⟨1, 7, 0⟩])]).run sample_session
        = ⟨[(9, [variant.of_id ⟨1, 7, 0⟩])], none⟩
      ∧ (async_task.market_updates [((1, 2), [variant.of_id ⟨1, 7, 0⟩])]).run
          (sample_session.unsubscribe_from_market 1 2).state = ⟨[], none⟩
      ∧ (async_task.market_updates [((1, 2), [variant.of_id ⟨1, 7, 0⟩])]).run
          (sample_session.subscribe_to_market (some 4) 2 1).state
        = ⟨[(4, [variant.of_id ⟨1, 7, 0⟩])], none⟩
      ∧ (async_task.market_updates [((1, 2), [variant.of_id ⟨1, 7, 0⟩])]).run
          (sample_session.subscribe_to_market none 2 1).state
        = ⟨[], some std_exception.bad_function_call⟩ := by
  decide

/-- Claim C23. When at least one market subscription exists and the batch holds
a call-order or limit-order id for which the resolver returns null,
`handle_object_changed` ends with the assertion `order != nullptr`, whichever
pairs are subscribed; this holds for `on_objects_removed` when the id is absent
from the removal snapshots and for `on_objects_new` and `on_objects_changed`
when the store lacks the object. Without market subscription the same batch
raises no error. -/
theorem C23_resolution_anomaly_is_a_fault (env : environment) (db : database)
    (s : database_api_impl) (force_notify full_object : Bool) (ids : List object_id_type)
    (impacted_accounts : List account_id_type) (find_object : object_id_type → Option object)
    (objs : List (Option object)) (id : object_id_type)
    (hid : id ∈ ids) (horder : database_api_impl.is_order_id env id = true) :
    (s._market_subscriptions ≠ [] → find_object id = none →
        (s.handle_object_changed env force_notify full_object ids impacted_accounts
          find_object).error = some (fc_exception.assert_exception "order != nullptr"))
      ∧ (s._market_subscriptions ≠ [] → database_api_impl.find_removed objs id = none →
          (s.on_objects_removed env ids objs impacted_accounts).error
            = some (fc_exception.assert_exception "order != nullptr"))
      ∧ (s._market_subscriptions ≠ [] → db.find_object id = none →
          (s.on_objects_new env db ids impacted_accounts).error
              = some (fc_exception.assert_exception "order != nullptr")
            ∧ (s.on_objects_changed env db ids impacted_accounts).error
              = some (fc_exception.assert_exception "order != nullptr"))
      ∧ (s._market_subscriptions = [] →
          (s.handle_object_changed env force_notify full_object ids impacted_accounts
            find_object).error = none) := by
  have hfault : ∀ (force full : Bool) (f : object_id_type → Option object),
      s._market_subscriptions ≠ [] → f id = none →
      (s.handle_object_changed env force full ids impacted_accounts f).error
        = some (fc_exception.assert_exception "order != nullptr") := by
    intro force full f hsubs hnull
    have hlen : s._market_subscriptions.length ≠ 0 :=
      fun h => hsubs (List.length_eq_zero.mp h)
    have hmo : database_api_impl.market_order env f id = none := by
      unfold database_api_impl.market_order
      split
      · simp [hnull]
      · split
        · simp [hnull]
        · rfl
    have hcm := collect_market_error env s full f ids [] ⟨id, hid, horder, hmo⟩
    simp [database_api_impl.handle_object_changed, hlen, hcm]
  refine ⟨hfault _ _ _, ?_, ?_, ?_⟩
  · intro hsubs hnull
    exact hfault _ _ _ hsubs hnull
  · intro hsubs hnull
    exact ⟨hfault _ _ _ hsubs hnull, hfault _ _ _ hsubs hnull⟩
  · intro hsubs
    simp [database_api_impl.handle_object_changed, hsubs]

/-- Witness of C23 on the session subscribed to the market `(1, 2)`: the batch
holds the call-order id `1.8.3`, which the empty store does not resolve. -/
theorem C23_resolution_anomaly_is_a_fault_witness :
    (sample_session.handle_object_changed sample_env false true [⟨1, 2, 0⟩, ⟨1, 8, 3⟩] []
        empty_database.find_object).error
        = some (fc_exception.assert_exception "order != nullptr")
      ∧ (sample_session_tracking.handle_object_changed sample_env false true
          [⟨1, 2, 0⟩, ⟨1, 8, 3⟩] [] empty_database.find_object).error = none
      ∧ (sample_session._market_subscriptions ≠ [] → empty_database.find_object ⟨1, 8, 3⟩ = none →
          (sample_session.handle_object_changed sample_env false true [⟨1, 2, 0⟩, ⟨1, 8, 3⟩] []
            empty_database.find_object).error
            = some (fc_exception.assert_exception "order != nullptr")) :=
  ⟨by decide, by decide,
    (C23_resolution_anomaly_is_a_fault sample_env empty_database sample_session false true
      [⟨1, 2, 0⟩, ⟨1, 8, 3⟩] [] empty_database.find_object [] ⟨1, 8, 3⟩ (by decide)
      (by decide)).1⟩

/-- Claim C24. In every session reached from a new session by calls of the
session interface, failing calls included, every key `(a, b)` of the market
map has `a < b`. Hence the default pair `(0, 0)`, which `on_applied_block`
gives to every operation that is not a fill, is not a subscribed key, and no
such operation is filed in a group. -/
theorem C24_canonical_keys (env : environment) (opts : Option application_options)
    (calls : List (database × api_call)) :
    (∀ e ∈ (run_calls env (database_api_impl.init opts) calls)._market_subscriptions,
        e.1.1 < e.1.2)
      ∧ map_find ((0, 0) : market_key)
          (run_calls env (database_api_impl.init opts) calls)._market_subscriptions = none
      ∧ (∀ tag, database_api_impl.applied_operation_market (operation.other tag) = (0, 0))
      ∧ (∀ (ops : List (Option operation_history_object)),
          map_find ((0, 0) : market_key)
            (database_api_impl.group_applied_operations
              (run_calls env (database_api_impl.init opts) calls) [] ops) = none) := by
  have hdefault := default_pair_not_subscribed env opts calls
  refine ⟨?_, hdefault, fun _ => rfl, ?_⟩
  · exact canonical_run_calls env calls (database_api_impl.init opts)
      (fun e he => absurd he (List.not_mem_nil _))
  · intro ops
    rw [group_applied_operations_find, hdefault]
    simp [map_find]

/-! ## Grouping the order book -/

/-- C30 (as the code behaves): `func_re_pack` does not keep a group within
`limit_per_group`. Whenever three consecutive entries have the same value of
`price / ORDER_BOOK_GROUP_QUERY_PRECISION_DIFF`, `limit_group` is at least 1
and `limit_per_group` at least 2, the single group of the result holds all
three entries, whatever `limit_per_group` is: the test in the inner loop reads
the local copy `aloc`, whose `limit_orders` keeps its one entry, and not
`ret.back()`. -/
theorem C30_group_exceeds_limit_per_group (precision_diff : Int)
    (e1 e2 e3 : aggregated_limit_orders_with_same_price) (limit_group limit_per_group : Nat)
    (h2 : Int.tdiv e2.price precision_diff = Int.tdiv e1.price precision_diff)
    (h3 : Int.tdiv e3.price precision_diff = Int.tdiv e1.price precision_diff)
    (hgroup : 0 < limit_group) (hper : 2 ≤ limit_per_group) :
    database_api_impl.func_re_pack precision_diff [e1, e2, e3] [] limit_group limit_per_group
      = [⟨Int.tdiv e1.price precision_diff,
          e1.base_volume + e2.base_volume + e3.base_volume,
          e1.quote_volume + e2.quote_volume + e3.quote_volume,
          e1.count + e2.count + e3.count,
          [e1, e2, e3]⟩] := by
  have hlen : [e1].length < limit_per_group := by
    simp only [List.length_singleton]
    omega
  simp only [database_api_impl.func_re_pack, database_api_impl.func_re_pack_group, if_pos hgroup,
    h2, h3, ne_eq, not_true_eq_false, if_false, if_pos hlen, List.nil_append, modify_back,
    add_to_collection, new_collection, List.singleton_append, List.cons_append]

/-- Witness of C30: with the precision difference 100, `limit_group = 5` and
`limit_per_group = 2`, the three entries of `sample_order_book` end in one
group of three entries. -/
theorem C30_group_exceeds_limit_per_group_witness :
    database_api_impl.func_re_pack 100 sample_order_book [] 5 2
        = [⟨10, 90, 120, 6, sample_order_book⟩]
      ∧ ¬ (∀ g ∈ database_api_impl.func_re_pack 100 sample_order_book [] 5 2,
            g.limit_orders.length ≤ 2) :=
  have h := C30_group_exceeds_limit_per_group 100 ⟨1000, 10, 20, 1⟩ ⟨1001, 30, 40, 2⟩
    ⟨1002, 50, 60, 3⟩ 5 2 (by decide) (by decide) (by decide) (by decide)
  ⟨h, by decide⟩

end graphene.app

/-! # DasPay evaluators: behaviour at concrete states -/

namespace graphene.chain

/-! ## Unregistering an authority -/

/-- C25 (as the code behaves): `unregister_daspay_authority` can remove the
authority of another user. In `sample_chain` the account `3` has no authority
for the provider `5`; `do_evaluate` of the operation with issuer `3` and
provider `5` succeeds and points at the authority of the account `7`, which
`do_apply` then removes. -/
theorem C25_unregister_removes_foreign_authority :
    (∀ dao ∈ sample_chain.daspay_authority_index,
        ¬ (dao.daspay_user = 3 ∧ dao.payment_provider = 5))
      ∧ unregister_daspay_authority_do_evaluate sample_chain ⟨3, 5⟩ = Except.ok ⟨1, 7, 1, 11⟩
      ∧ unregister_daspay_authority_do_apply sample_chain ⟨1, 7, 1, 11⟩ = [⟨0, 3, 2, 21⟩] :=
  ⟨by decide, rfl, by decide⟩

/-! ## Debit and credit authorization -/

/-- C26 (as the code behaves): the key check of `daspay_debit_account` passes
without an authority of the debited account. In `sample_chain` the account `3`
has authorized only the provider `2` with the key `21`; the debit of the
account `3` by the provider `1` with the key `999` is accepted. -/
theorem C26_debit_accepted_without_authority :
    (∀ dao ∈ sample_chain.daspay_authority_index,
        ¬ (dao.daspay_user = 3 ∧ dao.payment_provider = 1 ∧ dao.daspay_public_key = 999))
      ∧ daspay_debit_account_do_evaluate sample_chain ⟨1, 999, 3, ⟨10, 2⟩, 50⟩
          = Except.ok ⟨100, 1⟩ :=
  ⟨by decide, rfl⟩

/-- C27 (as the code behaves): the provider check of `daspay_credit_account`
passes without an authority of the credited account. In `sample_chain` the
account `3` has authorized only the provider `2`; the credit of the account `3`
by the provider `1` is accepted. -/
theorem C27_credit_accepted_without_authority :
    (∀ dao ∈ sample_chain.daspay_authority_index,
        ¬ (dao.daspay_user = 3 ∧ dao.payment_provider = 1))
      ∧ daspay_credit_account_do_evaluate sample_chain ⟨1, 3, ⟨10, 2⟩, 50⟩
          = Except.ok ⟨100, 1⟩ :=
  ⟨by decide, rfl⟩

/-! ## Pending unreserve operations -/

/-- C28 (as the code behaves): a pending delayed operation of another account
blocks `unreserve_asset_on_account`. In `sample_chain` only the account `9` has
a pending operation, the resolver is enabled and the account `3` holds 1000
reserved dascoin; unreserving 100 dascoin on the account `3` is rejected as
pending. -/
theorem C28_unreserve_blocked_by_other_account :
    sample_chain.delayed_operations_resolver_enabled = true
      ∧ (∀ o ∈ sample_chain.delayed_operations_index, o.account ≠ 3)
      ∧ (100 : Int) ≤ (sample_chain.balance_objects 3 sample_chain.dascoin_asset_id).reserved
      ∧ unreserve_asset_on_account_do_evaluate sample_chain ⟨3, ⟨100, 1⟩⟩
          = fc_assert_failure
              "Cannot issue another unreserve operation while the previous one is pending ${a}" :=
  ⟨rfl, by decide, by decide, rfl⟩

/-! ## Moving funds on a debit -/

theorem assert_asset_le_ok (d : database) (a b : asset) (message : String)
    (h : assert_asset_le d a b message = Except.ok ()) : d.asset_le a b = Except.ok true := by
  unfold assert_asset_le at h
  split at h
  · exact absurd h (by simp)
  · assumption
  · exact absurd h (by simp [fc_assert_failure])

theorem daspay_debit_account_do_evaluate_ok (d : database) (op : daspay_debit_account_operation)
    (_to_debit : asset)
    (h : daspay_debit_account_do_evaluate d op = Except.ok _to_debit) :
    d.asset_le _to_debit
      ⟨(d.balance_objects op.account d.dascoin_asset_id).reserved, d.dascoin_asset_id⟩
      = Except.ok true := by
  unfold daspay_debit_account_do_evaluate at h
  simp only [fc_assert_failure] at h
  repeat' (split at h)
  all_goals first
    | exact Except.noConfusion h
    | skip
  rename_i hle
  have hle := assert_asset_le_ok _ _ _ _ hle
  simp only [Except.ok.injEq] at h
  subst h
  exact hle

theorem daspay_debit_account_do_apply_dascoin (d : database)
    (op : daspay_debit_account_operation) (_to_debit : asset)
    (hid : _to_debit.asset_id = d.dascoin_asset_id) (a : account_id_type) :
    daspay_debit_account_do_apply d op _to_debit a d.dascoin_asset_id
      = ⟨(d.balance_objects a d.dascoin_asset_id).balance
            + (if a = op.clearing_account then _to_debit.amount else 0),
          (d.balance_objects a d.dascoin_asset_id).reserved
            + (if a = op.account then -_to_debit.amount else 0)⟩ := by
  unfold daspay_debit_account_do_apply adjust_balance
  simp only [hid, and_true]
  split_ifs <;> simp_all

theorem sample_asset_le_sound (a b : asset) (h : sample_asset_le a b = Except.ok true) :
    a.asset_id = b.asset_id ∧ a.amount ≤ b.amount := by
  unfold sample_asset_le at h
  split at h
  · rename_i hab
    subst hab
    exact ⟨rfl, le_refl _⟩
  · split at h
    · exact absurd h (by simp [fc_assert_failure])
    · rename_i hid
      simp only [Except.ok.injEq, decide_eq_true_eq] at h
      exact ⟨not_not.mp hid, le_of_lt h⟩

/-- C29: whenever `daspay_debit_account_evaluator::do_evaluate` succeeds with
`_to_debit`, the balances after `do_apply` have the reserved dascoin of the
account decreased by exactly `_to_debit.amount` and not below zero, the dascoin
balance of the clearing account increased by the same amount, and the holdings
(balance plus reserved) of the two accounts together unchanged, also when the
two accounts are the same one. The comparison of assets is assumed to hold
only between amounts of one asset, the first not above the second, and
`adjust_balance` to add its arguments to the balance and the reserved
amount. -/
theorem C29_debit_moves_funds_exactly (d : database) (op : daspay_debit_account_operation)
    (_to_debit : asset)
    (hle : ∀ a b, d.asset_le a b = Except.ok true → a.asset_id = b.asset_id ∧ a.amount ≤ b.amount)
    (heval : daspay_debit_account_do_evaluate d op = Except.ok _to_debit) :
    (daspay_debit_account_do_apply d op _to_debit op.account d.dascoin_asset_id).reserved
        = (d.balance_objects op.account d.dascoin_asset_id).reserved - _to_debit.amount
      ∧ (daspay_debit_account_do_apply d op _to_debit op.clearing_account
            d.dascoin_asset_id).balance
          = (d.balance_objects op.clearing_account d.dascoin_asset_id).balance
            + _to_debit.amount
      ∧ 0 ≤ (daspay_debit_account_do_apply d op _to_debit op.account d.dascoin_asset_id).reserved
      ∧ (op.account ≠ op.clearing_account →
          holdings (daspay_debit_account_do_apply d op _to_debit) op.account d.dascoin_asset_id
            + holdings (daspay_debit_account_do_apply d op _to_debit) op.clearing_account
                d.dascoin_asset_id
          = holdings d.balance_objects op.account d.dascoin_asset_id
            + holdings d.balance_objects op.clearing_account d.dascoin_asset_id)
      ∧ (op.account = op.clearing_account →
          holdings (daspay_debit_account_do_apply d op _to_debit) op.account d.dascoin_asset_id
          = holdings d.balance_objects op.account d.dascoin_asset_id) := by
  obtain ⟨hid, hamount⟩ := hle _ _ (daspay_debit_account_do_evaluate_ok d op _to_debit heval)
  simp only at hid hamount
  have happly := daspay_debit_account_do_apply_dascoin d op _to_debit hid
  simp only [holdings, happly]
  have hamount' : (_to_debit.amount : Int)
      ≤ (d.balance_objects op.account d.dascoin_asset_id).reserved := hamount
  refine ⟨?_, ?_, ?_, ?_, ?_⟩
  · simp only [if_true]
    exact (Int.sub_eq_add_neg).symm
  · simp only [if_true]
  · simp only [if_true]
    linarith
  · intro hne
    simp only [if_true, if_neg hne, if_neg (Ne.symm hne)]
    linarith
  · intro heq
    simp only [if_true, if_pos heq]
    linarith

/-- Witness of C29 in `sample_chain`: the provider `2` debits 10 web euro from
the account `3` with the authorized key `21` into the clearing account `60`;
100 dascoin leave the 1000 reserved and arrive on the clearing account. -/
theorem C29_debit_moves_funds_exactly_witness :
    daspay_debit_account_do_evaluate sample_chain ⟨2, 21, 3, ⟨10, 2⟩, 60⟩ = Except.ok ⟨100, 1⟩
      ∧ (daspay_debit_account_do_apply sample_chain ⟨2, 21, 3, ⟨10, 2⟩, 60⟩ ⟨100, 1⟩ 3 1).reserved
          = 1000 - 100
      ∧ (daspay_debit_account_do_apply sample_chain ⟨2, 21, 3, ⟨10, 2⟩, 60⟩ ⟨100, 1⟩ 60 1).balance
          = 0 + 100
      ∧ 0 ≤ (daspay_debit_account_do_apply sample_chain ⟨2, 21, 3, ⟨10, 2⟩, 60⟩ ⟨100, 1⟩ 3
              1).reserved :=
  have h := C29_debit_moves_funds_exactly sample_chain ⟨2, 21, 3, ⟨10, 2⟩, 60⟩ ⟨100, 1⟩
    sample_asset_le_sound rfl
  ⟨rfl, h.1, h.2.1, h.2.2.1⟩

end graphene.chain
